import Mathlib

/-!
# XCP on UDP transport layer (`udpserver.c`): DTO transmit queue

A shallow embedding of the queued (`DTO_SEND_QUEUE`, non-raw) configuration of
`udpserver.c`.  File-scope variables become fields of `State`; every function of the
source becomes a function on `State`.  C unsigned arithmetic is arithmetic on `Nat`
reduced modulo `2^16` or `2^32` at every place where the C operator can wrap.
A pointer to a queue entry is the index of the entry, `NULL` is `none`.
-/

namespace XcpTl

/-! ## Configuration and data model -/

/-- Build-time constants of the transport layer.  They come from the configuration
headers, which are not part of `udpserver.c`, and are therefore parameters. -/
structure Config where
  /-- Number of entries of `dto_queue`. -/
  XCP_DAQ_QUEUE_SIZE : Nat
  /-- Size in bytes of the message area `xcp` of a DTO buffer. -/
  kXcpMaxMTU : Nat
deriving DecidableEq

/-- Modelled from the spec: the macro `XCP_MESSAGE_HEADER_SIZE` is defined in
`udpserver.h`, which is missing; the message header is `{counter: u16, length: u16}`,
four bytes (the spec computes `3×(30+4)` for three 30 byte messages). -/
def XCP_MESSAGE_HEADER_SIZE : Nat := 4

/-- Value of an `unsigned short` expression. -/
def u16 (x : Nat) : Nat := x % 65536

/-- Value of an `unsigned int` expression. -/
def u32 (x : Nat) : Nat := x % 4294967296

/-- Modelled from the spec: the declaration of `tXcpDtoBuffer` is in the missing
`udpserver.h`; the spec gives `bytes: [u8; MAX_MTU]`, `used: u16` (here `xcp_size`)
and `pending_writers: u32` (here `xcp_uncommited`).  The field names are the ones
`udpserver.c` uses. -/
structure tXcpDtoBuffer where
  xcp_size : Nat
  xcp_uncommited : Nat
  xcp : List Nat
deriving DecidableEq

/-- Modelled from the spec: header part of `tXcpDtoMessage` (declared in the missing
`udpserver.h`), `{counter: u16, length: u16}` followed by the payload. -/
structure tXcpDtoMessage where
  ctr : Nat
  dlc : Nat
deriving DecidableEq

/-- The fields of `gXcpTl` that `udpserver.c` reads or writes, apart from the socket. -/
structure tXcpTlData where
  ClientAddr : Nat
  ClientAddrValid : Nat
  LastCmdCtr : Nat
  LastResCtr : Nat
deriving DecidableEq

/-- The file-scope variables: `gXcpTl` and the transmit queue. -/
structure State where
  gXcpTl : tXcpTlData
  dto_queue : List tXcpDtoBuffer
  dto_queue_rp : Nat
  dto_queue_len : Nat
  dto_buffer_ptr : Option Nat
deriving DecidableEq

/-- A buffer as `memset(.., 0, ..)` leaves it. -/
def zeroBuffer (cfg : Config) : tXcpDtoBuffer :=
  { xcp_size := 0, xcp_uncommited := 0, xcp := List.replicate cfg.kXcpMaxMTU 0 }

/-- Read `dto_queue[i]`.  An index outside the array has no meaning in C; the model
reads an empty buffer there. -/
def bufAt (s : State) (i : Nat) : tXcpDtoBuffer :=
  s.dto_queue.getD i { xcp_size := 0, xcp_uncommited := 0, xcp := [] }

/-- Store `b` into `dto_queue[i]`.  A store outside the array is dropped. -/
def setBuf (s : State) (i : Nat) (b : tXcpDtoBuffer) : State :=
  { s with dto_queue := s.dto_queue.set i b }

/-- Store the bytes `bs` at offset `off` of a byte array; bytes that would land behind
the end of the array are dropped. -/
def writeBytes : List Nat → Nat → List Nat → List Nat
  | mem, _, [] => mem
  | mem, off, b :: bs => writeBytes (mem.set off b) (off + 1) bs

/-- Modelled from the spec: byte image of the header of a `tXcpDtoMessage`
(the layout is in the missing `udpserver.h`): counter, then length, each a 16 bit
word, low byte first as on the little-endian targets of the source. -/
def headerBytes (m : tXcpDtoMessage) : List Nat :=
  [m.ctr % 256, m.ctr / 256 % 256, m.dlc % 256, m.dlc / 256 % 256]

/-- Read the 16 bit word at offset `off` (low byte first). -/
def readU16 (mem : List Nat) (off : Nat) : Nat :=
  mem.getD off 0 + 256 * mem.getD (off + 1) 0

/-- Read back a message header at offset `off`. -/
def readHeader (mem : List Nat) (off : Nat) : tXcpDtoMessage :=
  { ctr := readU16 mem off, dlc := readU16 mem (off + 2) }

/-! ## The functions of `udpserver.c` -/

/-- The index `i` computed at lines 89-90 of `getDtoBuffer`. -/
def nextSlot (cfg : Config) (s : State) : Nat :=
  if u32 (s.dto_queue_rp + s.dto_queue_len) ≥ cfg.XCP_DAQ_QUEUE_SIZE then
    u32 (s.dto_queue_rp + s.dto_queue_len) - cfg.XCP_DAQ_QUEUE_SIZE
  else u32 (s.dto_queue_rp + s.dto_queue_len)

/-- Function `getDtoBuffer` (lines 79-97). -/
def getDtoBuffer (cfg : Config) (s : State) : State :=
  if s.dto_queue_len ≥ cfg.XCP_DAQ_QUEUE_SIZE then
    { s with dto_buffer_ptr := none }
  else
    { setBuf s (nextSlot cfg s)
        { bufAt s (nextSlot cfg s) with xcp_size := 0, xcp_uncommited := 0 } with
      dto_buffer_ptr := some (nextSlot cfg s)
      dto_queue_len := u32 (s.dto_queue_len + 1) }

/-- Function `initDtoBufferQueue` (lines 100-114).  The final `assert(dto_buffer_ptr)` holds
whenever the queue has at least one entry (`initDtoBufferQueue_assert`). -/
def initDtoBufferQueue (cfg : Config) (s : State) : State :=
  getDtoBuffer cfg
    { s with
      dto_queue_rp := 0
      dto_queue_len := 0
      dto_buffer_ptr := none
      dto_queue := List.replicate cfg.XCP_DAQ_QUEUE_SIZE (zeroBuffer cfg) }

/-- What `udpServerGetPacketBuffer` hands back: the new values of the file-scope
variables, the caller's handle variable `*par`, the returned pointer `&p->data[0]`
as (queue entry, offset in its `xcp` area), and the header stored through `p`. -/
structure GetPacketBufferResult where
  state : State
  par : Option Nat
  ret : Option (Nat × Nat)
  msg : Option tXcpDtoMessage
deriving DecidableEq

/-- The test of line 193: another buffer is needed. -/
def needDtoBuffer (cfg : Config) (s : State) (size : Nat) : Bool :=
  match s.dto_buffer_ptr with
  | none => true
  | some t => decide (u32 ((bufAt s t).xcp_size + size + XCP_MESSAGE_HEADER_SIZE) > cfg.kXcpMaxMTU)

/-- Function `udpServerGetPacketBuffer` (lines 174-215); `par` is the value of the caller's
handle variable before the call. -/
def udpServerGetPacketBuffer (cfg : Config) (s : State) (par : Option Nat) (size : Nat) :
    GetPacketBufferResult :=
  let s1 := if needDtoBuffer cfg s size then getDtoBuffer cfg s else s
  match s1.dto_buffer_ptr with
  | some t =>
    let b := bufAt s1 t
    let m : tXcpDtoMessage := { ctr := s1.gXcpTl.LastResCtr, dlc := u16 size }
    let b1 : tXcpDtoBuffer :=
      { xcp := writeBytes b.xcp b.xcp_size (headerBytes m)
        xcp_size := u16 (b.xcp_size + size + XCP_MESSAGE_HEADER_SIZE)
        xcp_uncommited := u32 (b.xcp_uncommited + 1) }
    { state := { setBuf s1 t b1 with
                 gXcpTl := { s1.gXcpTl with LastResCtr := u16 (s1.gXcpTl.LastResCtr + 1) } }
      par := some t
      ret := some (t, b.xcp_size + XCP_MESSAGE_HEADER_SIZE)
      msg := some m }
  | none => { state := s1, par := par, ret := none, msg := none }

/-- Function `udpServerCommitPacketBuffer` (lines 217-233). -/
def udpServerCommitPacketBuffer (s : State) (par : Option Nat) : State :=
  match par with
  | none => s
  | some p =>
    setBuf s p { bufAt s p with xcp_uncommited := u32 ((bufAt s p).xcp_uncommited + 4294967295) }

/-- One call of `udpServerSendDatagram` made by the transmit loop: the queue entry it
was handed and the bytes `xcp[0 .. xcp_size)` it passes to `sendto`. -/
structure Datagram where
  slot : Nat
  size : Nat
  data : List Nat
deriving DecidableEq

/-- The first critical section of the transmit loop (lines 127-136): the buffer `b`
that is ready, `none` for `NULL`. -/
def checkReady (s : State) : Option Nat :=
  if s.dto_queue_len > 1 then
    if (bufAt s s.dto_queue_rp).xcp_uncommited > 0 then none else some s.dto_queue_rp
  else none

/-- Line 142: `udpServerSendDatagram(&b->xcp[0], b->xcp_size)`. -/
def sendBuffer (s : State) (b : Nat) : Datagram :=
  { slot := b, size := (bufAt s b).xcp_size, data := (bufAt s b).xcp.take (bufAt s b).xcp_size }

/-- The second critical section of the transmit loop (lines 146-150). -/
def freeBuffer (cfg : Config) (s : State) : State :=
  let rp := u32 (s.dto_queue_rp + 1)
  { s with
    dto_queue_rp := if rp ≥ cfg.XCP_DAQ_QUEUE_SIZE then rp - cfg.XCP_DAQ_QUEUE_SIZE else rp
    dto_queue_len := u32 (s.dto_queue_len + 4294967295) }

/-- The `for (;;)` loop of `udpServerHandleTransmitQueue`, run for at most `fuel`
rounds; `none` when the fuel runs out before the loop breaks. -/
def transmitLoop (cfg : Config) : Nat → State → List Datagram → Option (State × List Datagram)
  | 0, _, _ => none
  | fuel + 1, s, out =>
    match checkReady s with
    | none => some (s, out)
    | some b => transmitLoop cfg fuel (freeBuffer cfg s) (out ++ [sendBuffer s b])

/-- Function `udpServerHandleTransmitQueue` (lines 120-153) with no concurrent activity: the
final state and the datagrams sent, in order.  Every round but the last lowers
`dto_queue_len`, so `dto_queue_len + 1` rounds always reach the `break`
(`udpServerHandleTransmitQueue_isSome`). -/
def udpServerHandleTransmitQueue (cfg : Config) (s : State) : Option (State × List Datagram) :=
  transmitLoop cfg (s.dto_queue_len + 1) s []

/-- The critical section of `udpServerFlushTransmitQueue` (lines 160-162). -/
def flushSeal (cfg : Config) (s : State) : State :=
  match s.dto_buffer_ptr with
  | none => s
  | some t => if (bufAt s t).xcp_size > 0 then getDtoBuffer cfg s else s

/-- Function `udpServerFlushTransmitQueue` (lines 157-165). -/
def udpServerFlushTransmitQueue (cfg : Config) (s : State) : Option (State × List Datagram) :=
  udpServerHandleTransmitQueue cfg (flushSeal cfg s)

/-! ## Interleaved execution at lock granularity

Producers call `udpServerGetPacketBuffer` and `udpServerCommitPacketBuffer`, each one
critical section.  The single consumer runs `udpServerHandleTransmitQueue` (possibly
entered through `udpServerFlushTransmitQueue`), whose loop body is three steps: the
check under the lock, the send outside the lock, the free under the lock.  The
`Sys` record adds to the program state the consumer's position and bookkeeping that
the program does not keep itself (marked ghost). -/

/-- Where the consumer stands in `udpServerHandleTransmitQueue`. -/
inductive ConsumerPc where
  /-- Not inside the function. -/
  | idle
  /-- Before the check of lines 127-136. -/
  | check
  /-- Buffer `b` was found ready; before the send of line 142. -/
  | send (b : Nat)
  /-- Buffer `b` was sent; before the free of lines 146-150. -/
  | free (b : Nat)
deriving DecidableEq

/-- Program state, consumer position, the datagrams sent so far, and ghost bookkeeping:
`outstanding h` counts the handles for buffer `h` that were returned by a reservation
and not yet committed; `allocId i` is the number of the allocation that last handed
out slot `i`, `nalloc` the number of allocations so far; `sentIds` lists the
allocation numbers of the buffers sent; `ctrs` lists the counters stored by the
successful reservations. -/
structure Sys where
  s : State
  pc : ConsumerPc
  sent : List Datagram
  outstanding : Nat → Nat
  allocId : Nat → Nat
  nalloc : Nat
  sentIds : List Nat
  ctrs : List Nat

/-- One atomic step of a producer or of the consumer. -/
inductive Step where
  /-- A producer calls `udpServerGetPacketBuffer(&h, size)`. -/
  | reserve (size : Nat)
  /-- A producer calls `udpServerCommitPacketBuffer(h)`. -/
  | commit (h : Option Nat)
  /-- The consumer calls `udpServerHandleTransmitQueue`. -/
  | enter
  /-- The consumer calls `udpServerFlushTransmitQueue`: its critical section, after
  which it is inside `udpServerHandleTransmitQueue`. -/
  | flush
  /-- The check of lines 127-136. -/
  | check
  /-- The send of line 142. -/
  | send
  /-- The free of lines 146-150. -/
  | free
deriving DecidableEq

/-- Ghost: `getDtoBuffer` allocates exactly when it changes `dto_queue_len` (line 95);
the slot it handed out is then the new tail.  Returns the updated `allocId`. -/
def noteAllocId (y : Sys) (s1 : State) : Nat → Nat :=
  if s1.dto_queue_len = y.s.dto_queue_len then y.allocId
  else match s1.dto_buffer_ptr with
    | some i => fun j => if j = i then y.nalloc else y.allocId j
    | none => y.allocId

/-- Ghost: the updated number of allocations, see `noteAllocId`. -/
def noteNalloc (y : Sys) (s1 : State) : Nat :=
  if s1.dto_queue_len = y.s.dto_queue_len then y.nalloc else y.nalloc + 1

/-- The effect of one step; `none` when the step cannot be taken: a consumer step
that is not the consumer's next one, or a commit of a handle that no reservation
has outstanding (each handle is committed at most once). -/
def step (cfg : Config) (y : Sys) : Step → Option Sys
  | .reserve size =>
    let r := udpServerGetPacketBuffer cfg y.s none size
    some { y with
      s := r.state
      outstanding := match r.par with
        | some h => fun j => if j = h then y.outstanding j + 1 else y.outstanding j
        | none => y.outstanding
      ctrs := match r.msg with
        | some m => y.ctrs ++ [m.ctr]
        | none => y.ctrs
      allocId := noteAllocId y r.state
      nalloc := noteNalloc y r.state }
  | .commit none => some { y with s := udpServerCommitPacketBuffer y.s none }
  | .commit (some h) =>
    if y.outstanding h = 0 then none
    else some { y with
      s := udpServerCommitPacketBuffer y.s (some h)
      outstanding := fun j => if j = h then y.outstanding j - 1 else y.outstanding j }
  | .enter =>
    match y.pc with
    | .idle => some { y with pc := .check }
    | _ => none
  | .flush =>
    match y.pc with
    | .idle => some { y with
        s := flushSeal cfg y.s
        pc := .check
        allocId := noteAllocId y (flushSeal cfg y.s)
        nalloc := noteNalloc y (flushSeal cfg y.s) }
    | _ => none
  | .check =>
    match y.pc with
    | .check =>
      match checkReady y.s with
      | some b => some { y with pc := .send b }
      | none => some { y with pc := .idle }
    | _ => none
  | .send =>
    match y.pc with
    | .send b => some { y with
        sent := y.sent ++ [sendBuffer y.s b]
        sentIds := y.sentIds ++ [y.allocId b]
        pc := .free b }
    | _ => none
  | .free =>
    match y.pc with
    | .free _ => some { y with s := freeBuffer cfg y.s, pc := .check }
    | _ => none

/-- A run: the steps taken one after the other. -/
def run (cfg : Config) : Sys → List Step → Option Sys
  | y, [] => some y
  | y, st :: rest =>
    match step cfg y st with
    | some y1 => run cfg y1 rest
    | none => none

/-- The system around a program state in which the consumer is idle, nothing was
sent and no handle is outstanding; the one occupied slot counts as allocation 0. -/
def sysOf (s : State) : Sys :=
  { s := s, pc := .idle, sent := [], outstanding := fun _ => 0, allocId := fun _ => 0,
    nalloc := 1, sentIds := [], ctrs := [] }

/-- The system right after `initDtoBufferQueue`, which performs allocation 0. -/
def initSys (cfg : Config) (s0 : State) : Sys := sysOf (initDtoBufferQueue cfg s0)

/-- The requested size of a reservation step leaves room for the message in an empty
buffer: `size + XCP_MESSAGE_HEADER_SIZE ≤ kXcpMaxMTU`. -/
def Step.sizeOk (cfg : Config) : Step → Prop
  | .reserve size => size + XCP_MESSAGE_HEADER_SIZE ≤ cfg.kXcpMaxMTU
  | _ => True

/-- Sanity of the build-time constants: the queue has an entry, the 32 bit index
arithmetic of the queue cannot wrap, and `xcp_size` (16 bit) can hold the MTU. -/
def Config.Valid (cfg : Config) : Prop :=
  1 ≤ cfg.XCP_DAQ_QUEUE_SIZE ∧ cfg.XCP_DAQ_QUEUE_SIZE < 2147483648 ∧ cfg.kXcpMaxMTU < 65536

/-- The slot at position `k` counted from the read index `rp`, going round the ring. -/
def slotAt (cfg : Config) (rp k : Nat) : Nat := (rp + k) % cfg.XCP_DAQ_QUEUE_SIZE

/-- The array has its declared size, the queue indices are in range, at least one
entry is in use, and the tail, when there is one, is the newest entry in use. -/
def Ring (cfg : Config) (s : State) : Prop :=
  s.dto_queue.length = cfg.XCP_DAQ_QUEUE_SIZE ∧
  s.dto_queue_rp < cfg.XCP_DAQ_QUEUE_SIZE ∧
  1 ≤ s.dto_queue_len ∧
  s.dto_queue_len ≤ cfg.XCP_DAQ_QUEUE_SIZE ∧
  ∀ t, s.dto_buffer_ptr = some t → t = slotAt cfg s.dto_queue_rp (s.dto_queue_len - 1)

/-- The configuration of the packing example: four queue entries of 100 bytes. -/
def exampleCfg : Config := { XCP_DAQ_QUEUE_SIZE := 4, kXcpMaxMTU := 100 }

/-- The file-scope variables before anything ran: all zero. -/
def startState : State :=
  { gXcpTl := { ClientAddr := 0, ClientAddrValid := 0, LastCmdCtr := 0, LastResCtr := 0 }
    dto_queue := [], dto_queue_rp := 0, dto_queue_len := 0, dto_buffer_ptr := none }

/-- A small configuration: two queue entries of twelve bytes. -/
def smallCfg : Config := { XCP_DAQ_QUEUE_SIZE := 2, kXcpMaxMTU := 12 }

/-- The small queue after two reservations of eight bytes, both committed: both
entries are in use and hold twelve bytes each, no writer is outstanding. -/
def fullCommitted : State :=
  udpServerCommitPacketBuffer
    (udpServerGetPacketBuffer smallCfg
      (udpServerCommitPacketBuffer
        (udpServerGetPacketBuffer smallCfg (initDtoBufferQueue smallCfg startState) none 8).state
        (some 0))
      none 8).state
    (some 1)

/-- The state `fullCommitted` after one more reservation, which fails with overflow. -/
def fullOverflowed : State :=
  (udpServerGetPacketBuffer smallCfg fullCommitted none 8).state

/-- The state after `n` consecutive calls `udpServerGetPacketBuffer(&h, size)`, with no
commit and no drain in between. -/
def reserveState (cfg : Config) (size : Nat) : Nat → State → State
  | 0, s => s
  | n + 1, s => (udpServerGetPacketBuffer cfg (reserveState cfg size n s) none size).state

/-- Of the messages `0, ..., n-1`, packed `m` to a buffer, the number that lie in
buffer `j`. -/
def messagesIn (m n j : Nat) : Nat := ((List.range n).filter (fun i => i / m = j)).length

/-- The queue holds `q` full buffers of `m` messages of `d` bytes in slots `0..q-1`
and a tail in slot `q` with `f` messages; nothing was committed or drained. -/
def Packed (cfg : Config) (d m q f : Nat) (s : State) : Prop :=
  s.dto_queue_rp = 0 ∧ s.dto_queue_len = q + 1 ∧ s.dto_buffer_ptr = some q ∧
  s.dto_queue.length = cfg.XCP_DAQ_QUEUE_SIZE ∧
  ∀ j, j < cfg.XCP_DAQ_QUEUE_SIZE →
    (bufAt s j).xcp_size = (if j < q then m * d else if j = q then f * d else 0) ∧
    (bufAt s j).xcp_uncommited = (if j < q then m else if j = q then f else 0)

/-- The consumer stands between selecting buffer `b` as ready and freeing its slot. -/
def holds (pc : ConsumerPc) (b : Nat) : Prop := pc = .send b ∨ pc = .free b

/-- Ring structure of the program state, and: a buffer the consumer has selected is
the head of a queue with more than one entry in use. -/
def SysRing (cfg : Config) (y : Sys) : Prop :=
  Ring cfg y.s ∧ ∀ b, holds y.pc b → b = y.s.dto_queue_rp ∧ 1 < y.s.dto_queue_len

/-- One when the head buffer has been sent and its slot not yet freed. -/
def sentAhead : ConsumerPc → Nat
  | .free _ => 1
  | _ => 0

/-- The entries in use carry consecutive allocation numbers, the newest being
`nalloc - 1`, and the buffers sent so far are the allocations before them, in order. -/
def FifoCore (cfg : Config) (s : State) (ahead : Nat) (allocId : Nat → Nat) (nalloc : Nat)
    (sentIds : List Nat) : Prop :=
  s.dto_queue_len ≤ nalloc ∧
  (∀ k, k < s.dto_queue_len →
    allocId (slotAt cfg s.dto_queue_rp k) + s.dto_queue_len = nalloc + k) ∧
  sentIds = List.range (nalloc - s.dto_queue_len + ahead)

/-- The property `FifoCore` for a system, and every datagram sent has its allocation number logged. -/
def FifoInv (cfg : Config) (y : Sys) : Prop :=
  FifoCore cfg y.s (sentAhead y.pc) y.allocId y.nalloc y.sentIds ∧
  y.sent.length = y.sentIds.length

/-- In every entry in use `xcp_uncommited` is the number of outstanding handles, each
of which accounts for at least a header of the `xcp_size ≤ kXcpMaxMTU` bytes; no
handle is outstanding for an entry that is not in use. -/
def WriterCore (cfg : Config) (s : State) (outstanding : Nat → Nat) : Prop :=
  (∀ k, k < s.dto_queue_len →
    (bufAt s (slotAt cfg s.dto_queue_rp k)).xcp_uncommited
      = outstanding (slotAt cfg s.dto_queue_rp k) ∧
    4 * outstanding (slotAt cfg s.dto_queue_rp k)
      ≤ (bufAt s (slotAt cfg s.dto_queue_rp k)).xcp_size ∧
    (bufAt s (slotAt cfg s.dto_queue_rp k)).xcp_size ≤ cfg.kXcpMaxMTU) ∧
  (∀ j, outstanding j ≠ 0 → ∃ k, k < s.dto_queue_len ∧ j = slotAt cfg s.dto_queue_rp k)

/-- The property `WriterCore` for a system, and no handle is outstanding for a buffer the consumer
has selected. -/
def WriterInv (cfg : Config) (y : Sys) : Prop :=
  WriterCore cfg y.s y.outstanding ∧ ∀ b, holds y.pc b → y.outstanding b = 0

/-- After `n` reservations of `2^32 - 4` bytes on the small queue right after
`initDtoBufferQueue`: all of them went into slot 0, whose `xcp_size` is still 0 and
whose `xcp_uncommited` is `n` modulo `2^32`, and `n` handles are outstanding. -/
def Wrapped (n : Nat) (y : Sys) : Prop :=
  y.pc = .idle ∧ y.sent = [] ∧ y.s.dto_buffer_ptr = some 0 ∧ y.s.dto_queue_rp = 0 ∧
  y.s.dto_queue_len = 1 ∧ y.s.dto_queue.length = 2 ∧ (bufAt y.s 0).xcp_size = 0 ∧
  (bufAt y.s 0).xcp_uncommited = n % 4294967296 ∧ y.outstanding 0 = n

/-- The end of a run, for runs whose steps can all be taken. -/
def runD (cfg : Config) (y : Sys) (steps : List Step) : Sys := (run cfg y steps).getD y

instance (cfg : Config) : DecidablePred (Step.sizeOk cfg) := fun st =>
  match st with
  | .reserve size =>
    inferInstanceAs (Decidable (size + XCP_MESSAGE_HEADER_SIZE ≤ cfg.kXcpMaxMTU))
  | .commit _ => isTrue trivial
  | .enter => isTrue trivial
  | .flush => isTrue trivial
  | .check => isTrue trivial
  | .send => isTrue trivial
  | .free => isTrue trivial

/-- The queue of `exampleCfg` right after `initDtoBufferQueue`, but with the counter
`xcp_uncommited` of the tail at its largest value. -/
def saturatedTail : State :=
  setBuf (initDtoBufferQueue exampleCfg startState) 0
    { zeroBuffer exampleCfg with xcp_uncommited := 4294967295 }

/-- A run on the small queue: two buffers are filled and committed, a third
reservation overflows, the consumer drains the first buffer, and the next
reservation reuses its slot. -/
def sampleSteps : List Step :=
  [.reserve 8, .commit (some 0), .reserve 8, .commit (some 1), .reserve 8,
   .enter, .check, .send, .free, .check, .reserve 8, .flush, .check, .send]

/-- The start of a run on the small queue: reservation, commit, a second reservation
that opens a new tail, and the consumer selecting the first buffer. -/
def selectSteps : List Step :=
  [.reserve 8, .commit (some 0), .reserve 8, .enter, .check]

/-- A state whose response counter is about to wrap round. -/
def lateCounter : State :=
  { initDtoBufferQueue smallCfg startState with
    gXcpTl := { ClientAddr := 0, ClientAddrValid := 0, LastCmdCtr := 0, LastResCtr := 65535 } }

/-! ## The command channel -/

/-- Two constants of the protocol layer, defined in headers that are not part of
`udpserver.c`: the command code of CONNECT and the session status bit "connected". -/
structure XcpConsts where
  CC_CONNECT : Nat
  SS_CONNECTED : Nat
deriving DecidableEq

/-- Modelled from the spec: `tXcpCtoMessage` is declared in the missing `udpserver.h`;
it has the shape of every message, `{counter: u16, length: u16}` followed by the
command bytes. -/
structure tXcpCtoMessage where
  ctr : Nat
  dlc : Nat
  data : List Nat
deriving DecidableEq

/-- Modelled from the spec: the command interpreter `XcpCommand` is not part of
`udpserver.c`.  It owns its data `gXcp`, of which the transport layer reads
`SessionStatus`, and it reaches the transport layer only by handing response packets,
in order, to `udpServerSendCrmPacket` ("may emit a response sent back to the recorded
client address").  `XcpCommand g data` gives the interpreter's data after the command
and the response packets. -/
structure Interpreter (σ : Type) where
  SessionStatus : σ → Nat
  XcpCommand : σ → List Nat → σ × List (List Nat)

/-- One datagram sent by `udpServerSendCrmPacket`: the address `sendto` is given and
the message. -/
structure CrmDatagram where
  dest : Nat
  msg : tXcpCtoMessage
deriving DecidableEq

/-- Function `udpServerSendCrmPacket` (lines 283-303); `size` is the length of
`packet`.  The result is `none` when `assert(size>0)` fails. -/
def udpServerSendCrmPacket (s : State) (packet : List Nat) : Option (State × CrmDatagram) :=
  if packet.length = 0 then none
  else
    some ({ s with gXcpTl := { s.gXcpTl with LastCmdCtr := u16 (s.gXcpTl.LastCmdCtr + 1) } },
          { dest := s.gXcpTl.ClientAddr
            msg := { ctr := u16 (s.gXcpTl.LastCmdCtr + 1)
                     dlc := u16 packet.length
                     data := packet } })

/-- The transport layer together with the interpreter's data and what was observed:
the command-response datagrams sent and (ghost) the arguments of the calls of
`XcpCommand`. -/
structure World (σ : Type) where
  tl : State
  gXcp : σ
  crm : List CrmDatagram
  commands : List (List Nat)

/-- The response packets of one command pass through `udpServerSendCrmPacket`. -/
def sendCrmPackets {σ : Type} (w : World σ) : List (List Nat) → Option (World σ)
  | [] => some w
  | p :: rest =>
    match udpServerSendCrmPacket w.tl p with
    | none => none
    | some r => sendCrmPackets { w with tl := r.1, crm := w.crm ++ [r.2] } rest

/-- A call `XcpCommand(data)` made by the transport layer. -/
def callXcpCommand {σ : Type} (I : Interpreter σ) (w : World σ) (data : List Nat) :
    Option (World σ) :=
  sendCrmPackets
    { w with gXcp := (I.XcpCommand w.gXcp data).1, commands := w.commands ++ [data] }
    (I.XcpCommand w.gXcp data).2

/-- What `recvfrom` delivered (lines 314-340): a failure (`n < 0`; `again` tells
whether `errno` is `EAGAIN`), an empty datagram (`n == 0`), or a datagram of `n > 0`
bytes from `src`, `buffer` being the receive buffer after the call. -/
inductive Recv where
  | failed (again : Bool)
  | empty
  | datagram (src : Nat) (buffer : tXcpCtoMessage)
deriving DecidableEq

/-- The test `gXcp.SessionStatus & SS_CONNECTED`. -/
def isConnected {σ : Type} (K : XcpConsts) (I : Interpreter σ) (g : σ) : Bool :=
  (I.SessionStatus g &&& K.SS_CONNECTED) != 0

/-- The test of line 362: the datagram is a CONNECT command. -/
def isConnectCommand (K : XcpConsts) (buffer : tXcpCtoMessage) : Bool :=
  buffer.dlc == 2 && buffer.data.getD 0 0 == K.CC_CONNECT

/-- Lines 363-364: the sender becomes the client. -/
def recordClient (s : State) (src : Nat) : State :=
  { s with gXcpTl := { s.gXcpTl with ClientAddr := src, ClientAddrValid := 1 } }

/-- Line 404: `gXcpTl.ClientAddrValid = 0`. -/
def clearClientValid (s : State) : State :=
  { s with gXcpTl := { s.gXcpTl with ClientAddrValid := 0 } }

/-- Line 342: `gXcpTl.LastCmdCtr = buffer.ctr`. -/
def noteCmdCtr (s : State) (ctr : Nat) : State :=
  { s with gXcpTl := { s.gXcpTl with LastCmdCtr := ctr } }

/-- Function `udpServerHandleXCPCommands` (lines 305-410) in the queued, non-raw
configuration: the world after the call and the return value; `none` when an
assertion of `udpServerSendCrmPacket` fails. -/
def udpServerHandleXCPCommands {σ : Type} (cfg : Config) (K : XcpConsts) (I : Interpreter σ)
    (w : World σ) : Recv → Option (World σ × Nat)
  | .failed again => some (w, if again then 1 else 0)
  | .empty => some (w, 1)
  | .datagram src buffer =>
    if isConnected K I w.gXcp then
      match callXcpCommand I { w with tl := noteCmdCtr w.tl buffer.ctr } buffer.data with
      | none => none
      | some w2 => some (w2, 1)
    else
      match (if isConnectCommand K buffer then
              callXcpCommand I
                { w with tl := recordClient (noteCmdCtr w.tl buffer.ctr) src } buffer.data
            else some { w with tl := noteCmdCtr w.tl buffer.ctr }) with
      | none => none
      | some w2 =>
        if isConnected K I w2.gXcp then
          some ({ w2 with tl := initDtoBufferQueue cfg w2.tl }, 1)
        else
          some ({ w2 with tl := clearClientValid w2.tl }, 1)

/-- The constants as the protocol defines them: CONNECT is command `0xFF`, the
"connected" bit of the session status is `0x02`. -/
def xcpConsts : XcpConsts := { CC_CONNECT := 255, SS_CONNECTED := 2 }

/-- A small interpreter for the examples; its data is the session status alone.  It
answers CONNECT (`0xFF`) by connecting, DISCONNECT (`0xFE`) by disconnecting, both
with a one byte positive response, and any other command with an error packet. -/
def sampleInterpreter : Interpreter Nat :=
  { SessionStatus := fun g => g
    XcpCommand := fun g data =>
      if data.getD 0 0 = 255 then (2, [[255]])
      else if data.getD 0 0 = 254 then (0, [[255]])
      else (g, [[254, 32]]) }

/-- A world around the small queue with nothing sent, client address 9 recorded, and
the given session status. -/
def sampleWorld (status : Nat) : World Nat :=
  { tl := { fullCommitted with
            gXcpTl := { ClientAddr := 9, ClientAddrValid := 1, LastCmdCtr := 0, LastResCtr := 2 } }
    gXcp := status, crm := [], commands := [] }

/-- Three reservations on the small queue, the third of which overflows. -/
def overflowSteps : List Step := [.reserve 8, .reserve 8, .reserve 8]

/-- The datagrams `udpServerSendCrmPacket` sends for the response packets `ps`, one
after the other, when `LastCmdCtr` is `c` before the first and the client is `dest`. -/
def crmFor (dest : Nat) : Nat → List (List Nat) → List CrmDatagram
  | _, [] => []
  | c, p :: rest =>
    { dest := dest, msg := { ctr := u16 (c + 1), dlc := u16 p.length, data := p } }
      :: crmFor dest (u16 (c + 1)) rest

/-- The value of `LastCmdCtr` after `n` response packets. -/
def cmdCtrAfter : Nat → Nat → Nat
  | c, 0 => c
  | c, n + 1 => cmdCtrAfter (u16 (c + 1)) n


/-! ## The wire format of a DTO datagram -/

/-- The offset reached from `off` by stepping `n` times over a record of the byte
array `mem`: each step adds `XCP_MESSAGE_HEADER_SIZE` and the `dlc` field of the
header found at the offset. -/
def walk (mem : List Nat) : Nat → Nat → Nat
  | 0, off => off
  | n + 1, off => walk mem n (off + XCP_MESSAGE_HEADER_SIZE + (readHeader mem off).dlc)

/-- The datagram is not empty, not longer than the MTU, has the bytes it announces, and
these are one or more records laid end to end. -/
def Datagram.WellFormed (cfg : Config) (d : Datagram) : Prop :=
  0 < d.size ∧ d.size ≤ cfg.kXcpMaxMTU ∧ d.data.length = d.size ∧
  ∃ n, 1 ≤ n ∧ walk d.data n 0 = d.size

/-- Every message area has `kXcpMaxMTU` bytes; in every entry in use the first
`xcp_size ≤ kXcpMaxMTU` bytes are records laid end to end; and an entry in use that no
reservation can extend any more (it is not the newest, or there is no tail) is not
empty. -/
def WireCore (cfg : Config) (s : State) : Prop :=
  (∀ j, j < cfg.XCP_DAQ_QUEUE_SIZE → (bufAt s j).xcp.length = cfg.kXcpMaxMTU) ∧
  ∀ k, k < s.dto_queue_len →
    (bufAt s (slotAt cfg s.dto_queue_rp k)).xcp_size ≤ cfg.kXcpMaxMTU ∧
    (∃ n, walk (bufAt s (slotAt cfg s.dto_queue_rp k)).xcp n 0
      = (bufAt s (slotAt cfg s.dto_queue_rp k)).xcp_size) ∧
    ((k + 1 < s.dto_queue_len ∨ s.dto_buffer_ptr = none) →
      0 < (bufAt s (slotAt cfg s.dto_queue_rp k)).xcp_size)

/-- The property `WireCore` for a system, and every datagram sent so far is well formed. -/
def WireInv (cfg : Config) (y : Sys) : Prop :=
  WireCore cfg y.s ∧ ∀ d ∈ y.sent, d.WellFormed cfg

/-! ## Basic facts about the queue array -/

theorem bufAt_mem_or (s : State) (i : Nat) :
    bufAt s i ∈ s.dto_queue ∨ bufAt s i = { xcp_size := 0, xcp_uncommited := 0, xcp := [] } := by
  unfold bufAt
  by_cases h : i < s.dto_queue.length
  · left
    rw [List.getD_eq_getElem _ _ h]
    exact List.getElem_mem h
  · right
    rw [List.getD_eq_default _ _ (by omega)]

theorem bufAt_setBuf (s : State) (i j : Nat) (b : tXcpDtoBuffer) :
    bufAt (setBuf s i b) j =
      if i = j ∧ i < s.dto_queue.length then b else bufAt s j := by
  unfold bufAt setBuf
  simp only [List.getD_eq_getElem?_getD, List.getElem?_set]
  by_cases hij : i = j
  · subst hij
    by_cases hl : i < s.dto_queue.length
    · simp [hl]
    · simp [hl]
      rw [List.getElem?_eq_none (by omega)]
      rfl
  · simp [hij]



theorem setBuf_queue_forall (s : State) (i : Nat) (b : tXcpDtoBuffer) (P : tXcpDtoBuffer → Prop)
    (hall : ∀ x ∈ s.dto_queue, P x) (hb : P b) : ∀ x ∈ (setBuf s i b).dto_queue, P x := by
  intro x hx
  unfold setBuf at hx
  rcases List.mem_or_eq_of_mem_set hx with h | h
  · exact hall x h
  · exact h ▸ hb

theorem getDtoBuffer_full (cfg : Config) (s : State)
    (h : cfg.XCP_DAQ_QUEUE_SIZE ≤ s.dto_queue_len) :
    getDtoBuffer cfg s = { s with dto_buffer_ptr := none } := by
  unfold getDtoBuffer
  rw [if_pos h]

theorem getDtoBuffer_alloc (cfg : Config) (s : State)
    (h : s.dto_queue_len < cfg.XCP_DAQ_QUEUE_SIZE) :
    getDtoBuffer cfg s =
      { setBuf s (nextSlot cfg s)
          { bufAt s (nextSlot cfg s) with xcp_size := 0, xcp_uncommited := 0 } with
        dto_buffer_ptr := some (nextSlot cfg s)
        dto_queue_len := u32 (s.dto_queue_len + 1) } := by
  unfold getDtoBuffer
  rw [if_neg (by omega)]

theorem getDtoBuffer_queue_forall (cfg : Config) (s : State) (P : tXcpDtoBuffer → Prop)
    (hall : ∀ x ∈ s.dto_queue, P x)
    (hreset : ∀ x : tXcpDtoBuffer, P { x with xcp_size := 0, xcp_uncommited := 0 }) :
    ∀ x ∈ (getDtoBuffer cfg s).dto_queue, P x := by
  by_cases hfull : cfg.XCP_DAQ_QUEUE_SIZE ≤ s.dto_queue_len
  · rw [getDtoBuffer_full cfg s hfull]
    exact hall
  · rw [getDtoBuffer_alloc cfg s (by omega)]
    exact setBuf_queue_forall s _ _ P hall (hreset _)

/-- After `getDtoBuffer` the tail, when there is one, is empty. -/
theorem getDtoBuffer_tail_empty (cfg : Config) (s : State) (t : Nat)
    (h : (getDtoBuffer cfg s).dto_buffer_ptr = some t) :
    (bufAt (getDtoBuffer cfg s) t).xcp_size = 0 := by
  by_cases hfull : cfg.XCP_DAQ_QUEUE_SIZE ≤ s.dto_queue_len
  · rw [getDtoBuffer_full cfg s hfull] at h
    simp at h
  · rw [getDtoBuffer_alloc cfg s (by omega)] at h ⊢
    simp only [Option.some.injEq] at h
    subst h
    show (bufAt (setBuf s _ _) _).xcp_size = 0
    rw [bufAt_setBuf]
    by_cases hin : nextSlot cfg s < s.dto_queue.length
    · rw [if_pos ⟨rfl, hin⟩]
    · rw [if_neg (fun hh => hin hh.2)]
      unfold bufAt
      rw [List.getD_eq_default _ _ (by omega)]

/-- C1 (amended): a reservation whose size respects `size + header ≤ MTU` keeps every
buffer within the MTU, and a successful one reserves a byte range inside the buffer. -/
theorem getPacketBuffer_within_mtu (cfg : Config) (s : State) (par : Option Nat) (size : Nat)
    (hmtu : cfg.kXcpMaxMTU < 65536)
    (hsize : size + XCP_MESSAGE_HEADER_SIZE ≤ cfg.kXcpMaxMTU)
    (hall : ∀ b ∈ s.dto_queue, b.xcp_size ≤ cfg.kXcpMaxMTU) :
    (∀ b ∈ (udpServerGetPacketBuffer cfg s par size).state.dto_queue,
        b.xcp_size ≤ cfg.kXcpMaxMTU) ∧
    (∀ t p, (udpServerGetPacketBuffer cfg s par size).ret = some (t, p) →
        XCP_MESSAGE_HEADER_SIZE ≤ p ∧
        (p - XCP_MESSAGE_HEADER_SIZE) + size + XCP_MESSAGE_HEADER_SIZE ≤ cfg.kXcpMaxMTU) := by
  -- the tail after the test of line 193 has room for the message
  have key : ∀ s1 : State, s1 = (if needDtoBuffer cfg s size then getDtoBuffer cfg s else s) →
      (∀ b ∈ s1.dto_queue, b.xcp_size ≤ cfg.kXcpMaxMTU) ∧
      (∀ t, s1.dto_buffer_ptr = some t →
        (bufAt s1 t).xcp_size + size + XCP_MESSAGE_HEADER_SIZE ≤ cfg.kXcpMaxMTU) := by
    intro s1 hs1
    by_cases hneed : needDtoBuffer cfg s size = true
    · rw [if_pos hneed] at hs1
      subst hs1
      refine ⟨getDtoBuffer_queue_forall cfg s _ hall (fun _ => Nat.zero_le _), ?_⟩
      intro t ht
      rw [getDtoBuffer_tail_empty cfg s t ht]
      omega
    · rw [if_neg hneed] at hs1
      subst hs1
      refine ⟨hall, ?_⟩
      intro t ht
      unfold needDtoBuffer at hneed
      rw [ht] at hneed
      simp only [decide_eq_true_eq, not_lt] at hneed
      have hb : (bufAt s1 t).xcp_size ≤ cfg.kXcpMaxMTU := by
        rcases bufAt_mem_or s1 t with h | h
        · exact hall _ h
        · rw [h]; exact Nat.zero_le _
      unfold u32 at hneed
      unfold XCP_MESSAGE_HEADER_SIZE at hsize hneed ⊢
      omega
  obtain ⟨hq, htail⟩ := key _ rfl
  unfold udpServerGetPacketBuffer
  simp only []
  split
  · rename_i t ht
    have hroom := htail t ht
    constructor
    · apply setBuf_queue_forall _ _ _ _ hq
      show u16 _ ≤ _
      unfold u16
      omega
    · intro t1 p hp
      simp only [Option.some.injEq, Prod.mk.injEq] at hp
      obtain ⟨_, rfl⟩ := hp
      unfold XCP_MESSAGE_HEADER_SIZE at hroom ⊢
      omega
  · exact ⟨hq, fun t p hp => by simp at hp⟩

/-- C1 (amended), instance: a reservation of 30 bytes on the fresh queue of
`exampleCfg`. -/
theorem getPacketBuffer_within_mtu_witness :
    (∀ b ∈ (udpServerGetPacketBuffer exampleCfg (initDtoBufferQueue exampleCfg startState)
        none 30).state.dto_queue, b.xcp_size ≤ exampleCfg.kXcpMaxMTU) ∧
    (∀ t p, (udpServerGetPacketBuffer exampleCfg (initDtoBufferQueue exampleCfg startState)
        none 30).ret = some (t, p) →
        XCP_MESSAGE_HEADER_SIZE ≤ p ∧
        (p - XCP_MESSAGE_HEADER_SIZE) + 30 + XCP_MESSAGE_HEADER_SIZE ≤ exampleCfg.kXcpMaxMTU) :=
  getPacketBuffer_within_mtu exampleCfg (initDtoBufferQueue exampleCfg startState) none 30
    (by decide) (by decide) (by decide)

/-- C1 as stated fails: on the fresh queue of `exampleCfg` (every `xcp_size` is 0, the
MTU is 100) a reservation of 200 bytes succeeds in slot 1 and leaves that buffer with
`xcp_size = 204 > 100`; the reserved range `[0, 204)` does not lie inside the 100
byte buffer. -/
theorem getPacketBuffer_oversize_exceeds_mtu :
    (∀ b ∈ (initDtoBufferQueue exampleCfg startState).dto_queue,
        b.xcp_size ≤ exampleCfg.kXcpMaxMTU) ∧
    ¬ (∀ b ∈ (udpServerGetPacketBuffer exampleCfg (initDtoBufferQueue exampleCfg startState)
        none 200).state.dto_queue, b.xcp_size ≤ exampleCfg.kXcpMaxMTU) ∧
    (udpServerGetPacketBuffer exampleCfg (initDtoBufferQueue exampleCfg startState)
        none 200).ret = some (1, 4) ∧
    ¬ (0 + 200 + XCP_MESSAGE_HEADER_SIZE ≤ exampleCfg.kXcpMaxMTU) := by
  decide


/-! ## Effect of the queue functions on the single fields -/

@[simp] theorem setBuf_gXcpTl (s : State) (i : Nat) (b : tXcpDtoBuffer) :
    (setBuf s i b).gXcpTl = s.gXcpTl := rfl

@[simp] theorem setBuf_rp (s : State) (i : Nat) (b : tXcpDtoBuffer) :
    (setBuf s i b).dto_queue_rp = s.dto_queue_rp := rfl

@[simp] theorem setBuf_len (s : State) (i : Nat) (b : tXcpDtoBuffer) :
    (setBuf s i b).dto_queue_len = s.dto_queue_len := rfl

@[simp] theorem setBuf_ptr (s : State) (i : Nat) (b : tXcpDtoBuffer) :
    (setBuf s i b).dto_buffer_ptr = s.dto_buffer_ptr := rfl

@[simp] theorem setBuf_length (s : State) (i : Nat) (b : tXcpDtoBuffer) :
    (setBuf s i b).dto_queue.length = s.dto_queue.length := by
  simp [setBuf]

theorem getDtoBuffer_gXcpTl (cfg : Config) (s : State) :
    (getDtoBuffer cfg s).gXcpTl = s.gXcpTl := by
  unfold getDtoBuffer
  split <;> rfl

theorem getDtoBuffer_rp (cfg : Config) (s : State) :
    (getDtoBuffer cfg s).dto_queue_rp = s.dto_queue_rp := by
  unfold getDtoBuffer
  split <;> rfl

theorem getDtoBuffer_length (cfg : Config) (s : State) :
    (getDtoBuffer cfg s).dto_queue.length = s.dto_queue.length := by
  unfold getDtoBuffer
  split
  · rfl
  · simp [setBuf]

theorem flushSeal_gXcpTl (cfg : Config) (s : State) :
    (flushSeal cfg s).gXcpTl = s.gXcpTl := by
  unfold flushSeal
  split
  · rfl
  · split
    · exact getDtoBuffer_gXcpTl cfg s
    · rfl

theorem commit_gXcpTl (s : State) (h : Option Nat) :
    (udpServerCommitPacketBuffer s h).gXcpTl = s.gXcpTl := by
  cases h <;> rfl

/-- The state on which `udpServerGetPacketBuffer` continues after line 195. -/
theorem getPacketBuffer_unfold (cfg : Config) (s : State) (par : Option Nat) (size : Nat) :
    udpServerGetPacketBuffer cfg s par size =
      (match (if needDtoBuffer cfg s size then getDtoBuffer cfg s else s).dto_buffer_ptr with
      | some t =>
        { state :=
            { setBuf (if needDtoBuffer cfg s size then getDtoBuffer cfg s else s) t
                { xcp := writeBytes
                    (bufAt (if needDtoBuffer cfg s size then getDtoBuffer cfg s else s) t).xcp
                    (bufAt (if needDtoBuffer cfg s size then getDtoBuffer cfg s else s) t).xcp_size
                    (headerBytes
                      { ctr := (if needDtoBuffer cfg s size then getDtoBuffer cfg s
                                else s).gXcpTl.LastResCtr
                        dlc := u16 size })
                  xcp_size :=
                    u16 ((bufAt (if needDtoBuffer cfg s size then getDtoBuffer cfg s else s)
                      t).xcp_size + size + XCP_MESSAGE_HEADER_SIZE)
                  xcp_uncommited :=
                    u32 ((bufAt (if needDtoBuffer cfg s size then getDtoBuffer cfg s else s)
                      t).xcp_uncommited + 1) } with
              gXcpTl :=
                { (if needDtoBuffer cfg s size then getDtoBuffer cfg s else s).gXcpTl with
                  LastResCtr := u16 ((if needDtoBuffer cfg s size then getDtoBuffer cfg s
                                else s).gXcpTl.LastResCtr + 1) } }
          par := some t
          ret := some (t, (bufAt (if needDtoBuffer cfg s size then getDtoBuffer cfg s else s)
                      t).xcp_size + XCP_MESSAGE_HEADER_SIZE)
          msg := some { ctr := (if needDtoBuffer cfg s size then getDtoBuffer cfg s
                                else s).gXcpTl.LastResCtr
                        dlc := u16 size } }
      | none =>
        { state := (if needDtoBuffer cfg s size then getDtoBuffer cfg s else s)
          par := par, ret := none, msg := none }) := rfl

/-- A reservation that finds a tail after line 195. -/
theorem getPacketBuffer_some (cfg : Config) (s s1 : State) (par : Option Nat) (size t : Nat)
    (hs1 : s1 = if needDtoBuffer cfg s size then getDtoBuffer cfg s else s)
    (ht : s1.dto_buffer_ptr = some t) :
    udpServerGetPacketBuffer cfg s par size =
      { state :=
          { setBuf s1 t
              { xcp := writeBytes (bufAt s1 t).xcp (bufAt s1 t).xcp_size
                  (headerBytes { ctr := s1.gXcpTl.LastResCtr, dlc := u16 size })
                xcp_size := u16 ((bufAt s1 t).xcp_size + size + XCP_MESSAGE_HEADER_SIZE)
                xcp_uncommited := u32 ((bufAt s1 t).xcp_uncommited + 1) } with
            gXcpTl := { s1.gXcpTl with LastResCtr := u16 (s1.gXcpTl.LastResCtr + 1) } }
        par := some t
        ret := some (t, (bufAt s1 t).xcp_size + XCP_MESSAGE_HEADER_SIZE)
        msg := some { ctr := s1.gXcpTl.LastResCtr, dlc := u16 size } } := by
  rw [getPacketBuffer_unfold]
  subst hs1
  rw [ht]

/-- A reservation that finds no tail after line 195. -/
theorem getPacketBuffer_none (cfg : Config) (s s1 : State) (par : Option Nat) (size : Nat)
    (hs1 : s1 = if needDtoBuffer cfg s size then getDtoBuffer cfg s else s)
    (ht : s1.dto_buffer_ptr = none) :
    udpServerGetPacketBuffer cfg s par size =
      { state := s1, par := par, ret := none, msg := none } := by
  rw [getPacketBuffer_unfold]
  subst hs1
  rw [ht]


/-- Reading the array after one entry was replaced. -/
theorem bufAt_of_queue (s s1 : State) (t : Nat) (b : tXcpDtoBuffer)
    (h : s1.dto_queue = s.dto_queue.set t b) (j : Nat) :
    bufAt s1 j = if t = j ∧ t < s.dto_queue.length then b else bufAt s j := by
  rw [← bufAt_setBuf]
  unfold bufAt
  rw [h]
  rfl

/-- Reading the array after it was left alone. -/
theorem bufAt_of_queue_eq (s s1 : State) (h : s1.dto_queue = s.dto_queue) (j : Nat) :
    bufAt s1 j = bufAt s j := by
  unfold bufAt
  rw [h]

/-- The fields after a reservation that finds a tail after line 195. -/
theorem getPacketBuffer_some_spec (cfg : Config) (s s1 : State) (par : Option Nat)
    (size t : Nat)
    (hs1 : s1 = if needDtoBuffer cfg s size then getDtoBuffer cfg s else s)
    (ht : s1.dto_buffer_ptr = some t) :
    (udpServerGetPacketBuffer cfg s par size).state.dto_queue =
      s1.dto_queue.set t
        { xcp := writeBytes (bufAt s1 t).xcp (bufAt s1 t).xcp_size
            (headerBytes { ctr := s1.gXcpTl.LastResCtr, dlc := u16 size })
          xcp_size := u16 ((bufAt s1 t).xcp_size + size + XCP_MESSAGE_HEADER_SIZE)
          xcp_uncommited := u32 ((bufAt s1 t).xcp_uncommited + 1) } ∧
    (udpServerGetPacketBuffer cfg s par size).state.dto_queue_rp = s1.dto_queue_rp ∧
    (udpServerGetPacketBuffer cfg s par size).state.dto_queue_len = s1.dto_queue_len ∧
    (udpServerGetPacketBuffer cfg s par size).state.dto_buffer_ptr = some t ∧
    (udpServerGetPacketBuffer cfg s par size).state.gXcpTl =
      { s1.gXcpTl with LastResCtr := u16 (s1.gXcpTl.LastResCtr + 1) } ∧
    (udpServerGetPacketBuffer cfg s par size).par = some t ∧
    (udpServerGetPacketBuffer cfg s par size).ret =
      some (t, (bufAt s1 t).xcp_size + XCP_MESSAGE_HEADER_SIZE) ∧
    (udpServerGetPacketBuffer cfg s par size).msg =
      some { ctr := s1.gXcpTl.LastResCtr, dlc := u16 size } := by
  rw [getPacketBuffer_some cfg s s1 par size t hs1 ht]
  exact ⟨rfl, rfl, rfl, ht, rfl, rfl, rfl, rfl⟩


/-! ## Counters (C4) -/

theorem step_ctrs (cfg : Config) (y y1 : Sys) (st : Step) (h : step cfg y st = some y1) :
    (y1.ctrs = y.ctrs ∧ y1.s.gXcpTl.LastResCtr = y.s.gXcpTl.LastResCtr) ∨
    (y1.ctrs = y.ctrs ++ [y.s.gXcpTl.LastResCtr] ∧
      y1.s.gXcpTl.LastResCtr = u16 (y.s.gXcpTl.LastResCtr + 1)) := by
  cases st with
  | reserve size =>
    simp only [step, Option.some.injEq] at h
    subst h
    have hs1g : (if needDtoBuffer cfg y.s size then getDtoBuffer cfg y.s else y.s).gXcpTl
        = y.s.gXcpTl := by
      split
      · exact getDtoBuffer_gXcpTl cfg y.s
      · rfl
    cases ht : (if needDtoBuffer cfg y.s size then getDtoBuffer cfg y.s else y.s).dto_buffer_ptr with
    | none =>
      left
      rw [getPacketBuffer_none cfg y.s _ none size rfl ht]
      exact ⟨rfl, congrArg tXcpTlData.LastResCtr hs1g⟩
    | some t =>
      right
      rw [getPacketBuffer_some cfg y.s _ none size t rfl ht]
      constructor
      · show y.ctrs ++ [_] = y.ctrs ++ [_]
        rw [hs1g]
      · show u16 (_ + 1) = u16 (_ + 1)
        rw [hs1g]
  | commit hd =>
    left
    cases hd with
    | none =>
      simp only [step, Option.some.injEq] at h
      subst h
      exact ⟨rfl, rfl⟩
    | some p =>
      simp only [step] at h
      split at h
      · simp at h
      · simp only [Option.some.injEq] at h
        subst h
        exact ⟨rfl, rfl⟩
  | enter =>
    left
    simp only [step] at h
    split at h
    · simp only [Option.some.injEq] at h
      subst h
      exact ⟨rfl, rfl⟩
    · simp at h
  | flush =>
    left
    simp only [step] at h
    split at h
    · simp only [Option.some.injEq] at h
      subst h
      exact ⟨rfl, congrArg tXcpTlData.LastResCtr (flushSeal_gXcpTl cfg y.s)⟩
    · simp at h
  | check =>
    left
    simp only [step] at h
    split at h
    · split at h <;>
      · simp only [Option.some.injEq] at h
        subst h
        exact ⟨rfl, rfl⟩
    · simp at h
  | send =>
    left
    simp only [step] at h
    split at h
    · simp only [Option.some.injEq] at h
      subst h
      exact ⟨rfl, rfl⟩
    · simp at h
  | free =>
    left
    simp only [step] at h
    split at h
    · simp only [Option.some.injEq] at h
      subst h
      exact ⟨rfl, rfl⟩
    · simp at h

/-- The counters handed out so far are `c, c+1, ...` modulo `2^16`, and `LastResCtr`
is the next one. -/
def CtrInv (c : Nat) (y : Sys) : Prop :=
  y.ctrs = (List.range y.ctrs.length).map (fun j => (c + j) % 65536) ∧
  y.s.gXcpTl.LastResCtr = (c + y.ctrs.length) % 65536

theorem step_CtrInv (cfg : Config) (c : Nat) (y y1 : Sys) (st : Step)
    (h : step cfg y st = some y1) (hinv : CtrInv c y) : CtrInv c y1 := by
  obtain ⟨h1, h2⟩ := hinv
  rcases step_ctrs cfg y y1 st h with ⟨hc, hl⟩ | ⟨hc, hl⟩
  · unfold CtrInv
    rw [hc, hl]
    exact ⟨h1, h2⟩
  · unfold CtrInv
    rw [hc, hl, List.length_append, List.length_singleton, List.range_succ, List.map_append,
      ← h1, h2]
    refine ⟨rfl, ?_⟩
    unfold u16
    omega

theorem run_CtrInv (cfg : Config) (c : Nat) (steps : List Step) :
    ∀ y y1 : Sys, run cfg y steps = some y1 → CtrInv c y → CtrInv c y1 := by
  induction steps with
  | nil =>
    intro y y1 h hinv
    simp only [run, Option.some.injEq] at h
    exact h ▸ hinv
  | cons st rest ih =>
    intro y y1 h hinv
    simp only [run] at h
    cases hst : step cfg y st with
    | none => rw [hst] at h; simp at h
    | some y2 =>
      rw [hst] at h
      exact ih y2 y1 h (step_CtrInv cfg c y y2 st hst hinv)

/-- C4: from a state with `LastResCtr = c`, whatever reservations, commits, drains and
flushes are interleaved, the successful reservations are handed, in call order, the
counters `c, c+1, ..., c+k-1` modulo `2^16`, `LastResCtr` has advanced by exactly the
number of successful reservations, and a failing reservation leaves `LastResCtr` as
it is. -/
theorem reservation_counter_sequence (cfg : Config) (s : State) (c : Nat) (steps : List Step)
    (y : Sys) (hc : s.gXcpTl.LastResCtr = c) (hc16 : c < 65536)
    (hrun : run cfg (sysOf s) steps = some y) :
    y.ctrs = (List.range y.ctrs.length).map (fun j => (c + j) % 65536) ∧
    y.s.gXcpTl.LastResCtr = (c + y.ctrs.length) % 65536 ∧
    (∀ par size, (udpServerGetPacketBuffer cfg y.s par size).ret = none →
      (udpServerGetPacketBuffer cfg y.s par size).msg = none ∧
      (udpServerGetPacketBuffer cfg y.s par size).state.gXcpTl.LastResCtr
        = y.s.gXcpTl.LastResCtr) := by
  have h0 : CtrInv c (sysOf s) := by
    unfold CtrInv sysOf
    simp only [List.length_nil, List.range_zero, List.map_nil, Nat.add_zero, true_and]
    rw [hc]
    omega
  obtain ⟨h1, h2⟩ := run_CtrInv cfg c steps _ _ hrun h0
  refine ⟨h1, h2, ?_⟩
  intro par size hret
  have hs1g : (if needDtoBuffer cfg y.s size then getDtoBuffer cfg y.s else y.s).gXcpTl
      = y.s.gXcpTl := by
    split
    · exact getDtoBuffer_gXcpTl cfg y.s
    · rfl
  cases ht : (if needDtoBuffer cfg y.s size then getDtoBuffer cfg y.s else y.s).dto_buffer_ptr with
  | none =>
    rw [getPacketBuffer_none cfg y.s _ par size rfl ht]
    exact ⟨rfl, congrArg tXcpTlData.LastResCtr hs1g⟩
  | some t =>
    rw [getPacketBuffer_some cfg y.s _ par size t rfl ht] at hret
    simp at hret


/-! ## Bytes -/

theorem writeBytes_length (bs : List Nat) : ∀ (mem : List Nat) (off : Nat),
    (writeBytes mem off bs).length = mem.length := by
  induction bs with
  | nil => intro mem off; rfl
  | cons b bs ih =>
    intro mem off
    simp only [writeBytes]
    rw [ih, List.length_set]

theorem writeBytes_getD (bs : List Nat) : ∀ (mem : List Nat) (off k : Nat),
    (writeBytes mem off bs).getD k 0 =
      if off ≤ k ∧ k < off + bs.length ∧ k < mem.length then bs.getD (k - off) 0
      else mem.getD k 0 := by
  induction bs with
  | nil =>
    intro mem off k
    simp only [writeBytes, List.length_nil, Nat.add_zero]
    rw [if_neg (by omega)]
  | cons b bs ih =>
    intro mem off k
    simp only [writeBytes]
    rw [ih, List.length_set, List.length_cons]
    by_cases h1 : off + 1 ≤ k ∧ k < off + 1 + bs.length ∧ k < mem.length
    · rw [if_pos h1, if_pos (by omega)]
      obtain ⟨h1a, _, _⟩ := h1
      obtain ⟨d, hd⟩ : ∃ d, k - off = d + 1 := ⟨k - off - 1, by omega⟩
      rw [hd, List.getD_cons_succ]
      congr 1
      omega
    · rw [if_neg h1]
      simp only [List.getD_eq_getElem?_getD, List.getElem?_set]
      by_cases h2 : off = k
      · subst h2
        by_cases h3 : off < mem.length
        · rw [if_pos rfl, if_pos h3, if_pos (by omega)]
          simp
        · rw [if_pos rfl, if_neg h3, if_neg (by omega)]
          rw [List.getElem?_eq_none (by omega)]
      · rw [if_neg h2, if_neg (by omega)]

theorem readHeader_writeBytes (mem : List Nat) (off : Nat) (m : tXcpDtoMessage)
    (hin : off + XCP_MESSAGE_HEADER_SIZE ≤ mem.length)
    (hctr : m.ctr < 65536) (hdlc : m.dlc < 65536) :
    readHeader (writeBytes mem off (headerBytes m)) off = m := by
  unfold XCP_MESSAGE_HEADER_SIZE at hin
  unfold readHeader readU16
  simp only [writeBytes_getD, headerBytes, List.length_cons, List.length_nil]
  rw [if_pos (by omega), if_pos (by omega), if_pos (by omega), if_pos (by omega)]
  have e0 : off - off = 0 := by omega
  have e1 : off + 1 - off = 1 := by omega
  have e2 : off + 2 - off = 2 := by omega
  have e3 : off + 2 + 1 - off = 3 := by omega
  rw [e0, e1, e2, e3]
  simp only [List.getD_cons_zero, List.getD_cons_succ]
  cases m with
  | mk ctr dlc =>
    simp only at hctr hdlc ⊢
    congr 1 <;> omega

/-! ## A reservation that fits (C5) and a reservation on a full queue (C6) -/

/-- C5 (amended): with a tail present that has room for the message, and whose
`xcp_uncommited` is below its largest value `2^32 - 1`, `udpServerGetPacketBuffer`
stores the header `{ctr = LastResCtr, dlc = size}` at offset `xcp_size` of the tail,
returns the position `xcp_size + XCP_MESSAGE_HEADER_SIZE` in the tail, hands the tail
out as commit handle, adds exactly `size + XCP_MESSAGE_HEADER_SIZE` to the tail's
`xcp_size` and exactly one to its `xcp_uncommited`, and leaves `dto_queue_rp`,
`dto_queue_len`, `dto_buffer_ptr` and every other buffer as they were. -/
theorem getPacketBuffer_fits (cfg : Config) (s : State) (par : Option Nat) (size t : Nat)
    (hmtu : cfg.kXcpMaxMTU < 65536)
    (hctr : s.gXcpTl.LastResCtr < 65536)
    (htail : s.dto_buffer_ptr = some t)
    (ht : t < s.dto_queue.length)
    (hxcp : (bufAt s t).xcp.length = cfg.kXcpMaxMTU)
    (hfit : (bufAt s t).xcp_size + size + XCP_MESSAGE_HEADER_SIZE ≤ cfg.kXcpMaxMTU)
    (hcnt : (bufAt s t).xcp_uncommited < 4294967295) :
    readHeader (bufAt (udpServerGetPacketBuffer cfg s par size).state t).xcp (bufAt s t).xcp_size
      = { ctr := s.gXcpTl.LastResCtr, dlc := size } ∧
    (udpServerGetPacketBuffer cfg s par size).msg
      = some { ctr := s.gXcpTl.LastResCtr, dlc := size } ∧
    (udpServerGetPacketBuffer cfg s par size).ret
      = some (t, (bufAt s t).xcp_size + XCP_MESSAGE_HEADER_SIZE) ∧
    (udpServerGetPacketBuffer cfg s par size).par = some t ∧
    (bufAt (udpServerGetPacketBuffer cfg s par size).state t).xcp_size
      = (bufAt s t).xcp_size + (size + XCP_MESSAGE_HEADER_SIZE) ∧
    (bufAt (udpServerGetPacketBuffer cfg s par size).state t).xcp_uncommited
      = (bufAt s t).xcp_uncommited + 1 ∧
    (udpServerGetPacketBuffer cfg s par size).state.dto_queue_rp = s.dto_queue_rp ∧
    (udpServerGetPacketBuffer cfg s par size).state.dto_queue_len = s.dto_queue_len ∧
    (udpServerGetPacketBuffer cfg s par size).state.dto_buffer_ptr = s.dto_buffer_ptr ∧
    (udpServerGetPacketBuffer cfg s par size).state.dto_queue.length = s.dto_queue.length ∧
    (∀ j, j ≠ t → bufAt (udpServerGetPacketBuffer cfg s par size).state j = bufAt s j) := by
  have hneed : needDtoBuffer cfg s size = false := by
    unfold needDtoBuffer
    rw [htail]
    simp only [decide_eq_false_iff_not, not_lt]
    unfold u32
    unfold XCP_MESSAGE_HEADER_SIZE at hfit ⊢
    omega
  have hs1 : s = if needDtoBuffer cfg s size then getDtoBuffer cfg s else s := by
    rw [hneed]; rfl
  have hsz16 : u16 size = size := by
    unfold u16
    unfold XCP_MESSAGE_HEADER_SIZE at hfit
    omega
  obtain ⟨hq, hrp, hlen, hptr, _, hpar, hret, hmsg⟩ :=
    getPacketBuffer_some_spec cfg s s par size t hs1 htail
  rw [hsz16] at hq hmsg
  have hb := bufAt_of_queue s _ t _ hq
  refine ⟨?_, hmsg, hret, hpar, ?_, ?_, hrp, hlen, hptr.trans htail.symm, ?_, ?_⟩
  · rw [hb t, if_pos ⟨rfl, ht⟩]
    apply readHeader_writeBytes
    · rw [hxcp]
      unfold XCP_MESSAGE_HEADER_SIZE at hfit ⊢
      omega
    · exact hctr
    · show size < 65536
      unfold XCP_MESSAGE_HEADER_SIZE at hfit
      omega
  · rw [hb t, if_pos ⟨rfl, ht⟩]
    show u16 _ = _
    unfold u16
    unfold XCP_MESSAGE_HEADER_SIZE at hfit ⊢
    omega
  · rw [hb t, if_pos ⟨rfl, ht⟩]
    show u32 _ = _
    unfold u32
    omega
  · rw [hq, List.length_set]
  · intro j hj
    rw [hb j, if_neg (fun h => hj h.1.symm)]

/-- C6: on a full queue (`dto_queue_len == XCP_DAQ_QUEUE_SIZE`), when there is no tail
or the test of line 193 finds the tail too full, `udpServerGetPacketBuffer` returns
`NULL`, sets `dto_buffer_ptr` to `NULL` and changes nothing else: the caller's handle
variable, `gXcpTl`, `dto_queue_rp`, `dto_queue_len` and the whole array `dto_queue`
are as before. -/
theorem getPacketBuffer_overflow (cfg : Config) (s : State) (par : Option Nat) (size : Nat)
    (hfull : s.dto_queue_len = cfg.XCP_DAQ_QUEUE_SIZE)
    (hneed : s.dto_buffer_ptr = none ∨
      ∃ t, s.dto_buffer_ptr = some t ∧
        u32 ((bufAt s t).xcp_size + size + XCP_MESSAGE_HEADER_SIZE) > cfg.kXcpMaxMTU) :
    (udpServerGetPacketBuffer cfg s par size).ret = none ∧
    (udpServerGetPacketBuffer cfg s par size).par = par ∧
    (udpServerGetPacketBuffer cfg s par size).state = { s with dto_buffer_ptr := none } ∧
    (udpServerGetPacketBuffer cfg s par size).state.dto_buffer_ptr = none ∧
    (udpServerGetPacketBuffer cfg s par size).state.dto_queue_rp = s.dto_queue_rp ∧
    (udpServerGetPacketBuffer cfg s par size).state.dto_queue_len = s.dto_queue_len ∧
    (udpServerGetPacketBuffer cfg s par size).state.gXcpTl = s.gXcpTl ∧
    (udpServerGetPacketBuffer cfg s par size).state.dto_queue = s.dto_queue := by
  have hn : needDtoBuffer cfg s size = true := by
    unfold needDtoBuffer
    rcases hneed with h | ⟨t, h, hgt⟩
    · rw [h]
    · rw [h]
      simpa using hgt
  have hs1 : ({ s with dto_buffer_ptr := none } : State)
      = if needDtoBuffer cfg s size then getDtoBuffer cfg s else s := by
    rw [hn, if_pos rfl, getDtoBuffer_full cfg s (by omega)]
  rw [getPacketBuffer_none cfg s _ par size hs1 rfl]
  refine ⟨?_, ?_, ?_, ?_, ?_, ?_, ?_, ?_⟩ <;> rfl


/-! ## The transmit loop (C7, C9) -/

theorem slotAt_zero (cfg : Config) (rp : Nat) (h : rp < cfg.XCP_DAQ_QUEUE_SIZE) :
    slotAt cfg rp 0 = rp := by
  unfold slotAt
  rw [Nat.add_zero, Nat.mod_eq_of_lt h]

theorem slotAt_lt (cfg : Config) (rp k : Nat) (h : rp < cfg.XCP_DAQ_QUEUE_SIZE) :
    slotAt cfg rp k < cfg.XCP_DAQ_QUEUE_SIZE := by
  unfold slotAt
  exact Nat.mod_lt _ (by omega)

theorem slotAt_slotAt (cfg : Config) (rp a b : Nat) :
    slotAt cfg (slotAt cfg rp a) b = slotAt cfg rp (a + b) := by
  unfold slotAt
  rw [Nat.mod_add_mod, Nat.add_assoc]

theorem slotAt_eq_ite (cfg : Config) (rp k : Nat) (h : rp < cfg.XCP_DAQ_QUEUE_SIZE)
    (hk : k ≤ cfg.XCP_DAQ_QUEUE_SIZE) :
    slotAt cfg rp k = if rp + k < cfg.XCP_DAQ_QUEUE_SIZE then rp + k
      else rp + k - cfg.XCP_DAQ_QUEUE_SIZE := by
  unfold slotAt
  split
  · rename_i hlt
    exact Nat.mod_eq_of_lt hlt
  · rename_i hge
    rw [Nat.mod_eq_sub_mod (by omega)]
    exact Nat.mod_eq_of_lt (by omega)

/-- The free step moves the read index one slot on and takes one entry off. -/
theorem freeBuffer_eq (cfg : Config) (s : State)
    (hq : cfg.XCP_DAQ_QUEUE_SIZE < 4294967296)
    (hrp : s.dto_queue_rp < cfg.XCP_DAQ_QUEUE_SIZE)
    (hlen : 1 ≤ s.dto_queue_len) (hlen2 : s.dto_queue_len ≤ cfg.XCP_DAQ_QUEUE_SIZE) :
    freeBuffer cfg s =
      { s with
        dto_queue_rp := slotAt cfg s.dto_queue_rp 1
        dto_queue_len := s.dto_queue_len - 1 } := by
  unfold freeBuffer
  have h1 : u32 (s.dto_queue_rp + 1) = s.dto_queue_rp + 1 := by
    unfold u32; omega
  have h2 : u32 (s.dto_queue_len + 4294967295) = s.dto_queue_len - 1 := by
    unfold u32; omega
  have h3 : (if s.dto_queue_rp + 1 ≥ cfg.XCP_DAQ_QUEUE_SIZE
      then s.dto_queue_rp + 1 - cfg.XCP_DAQ_QUEUE_SIZE else s.dto_queue_rp + 1)
      = slotAt cfg s.dto_queue_rp 1 := by
    rw [slotAt_eq_ite cfg _ 1 hrp (by omega)]
    split <;> split <;> omega
  simp only [h1, h2, h3]

theorem checkReady_some (s : State) (b : Nat) (h : checkReady s = some b) :
    b = s.dto_queue_rp ∧ 1 < s.dto_queue_len ∧ (bufAt s s.dto_queue_rp).xcp_uncommited = 0 := by
  unfold checkReady at h
  split at h
  · rename_i hl
    split at h
    · simp at h
    · rename_i hu
      simp only [Option.some.injEq] at h
      exact ⟨h.symm, hl, by omega⟩
  · simp at h

theorem checkReady_none (s : State) (h : checkReady s = none) :
    s.dto_queue_len ≤ 1 ∨ 0 < (bufAt s s.dto_queue_rp).xcp_uncommited := by
  unfold checkReady at h
  split at h
  · split at h
    · rename_i hu
      exact Or.inr hu
    · simp at h
  · rename_i hl
    exact Or.inl (by omega)

/-- What the transmit loop does, given enough fuel: it sends the first `k` occupied
buffers, where `k` counts the leading buffers without uncommitted writer, the newest
buffer never being sent. -/
theorem transmitLoop_spec (cfg : Config) (hq : cfg.XCP_DAQ_QUEUE_SIZE < 4294967296) :
    ∀ (fuel : Nat) (s : State) (out : List Datagram),
      s.dto_queue_rp < cfg.XCP_DAQ_QUEUE_SIZE →
      s.dto_queue_len ≤ cfg.XCP_DAQ_QUEUE_SIZE →
      s.dto_queue_len < fuel →
      ∃ k, k ≤ s.dto_queue_len - 1 ∧
        (∀ j, j < k → (bufAt s (slotAt cfg s.dto_queue_rp j)).xcp_uncommited = 0) ∧
        (k + 1 < s.dto_queue_len →
          0 < (bufAt s (slotAt cfg s.dto_queue_rp k)).xcp_uncommited) ∧
        transmitLoop cfg fuel s out =
          some ({ s with
                  dto_queue_rp := slotAt cfg s.dto_queue_rp k
                  dto_queue_len := s.dto_queue_len - k },
                out ++ (List.range k).map (fun j => sendBuffer s (slotAt cfg s.dto_queue_rp j))) := by
  intro fuel
  induction fuel with
  | zero => intro s out _ _ h; omega
  | succ fuel ih =>
    intro s out hrp hlen hfuel
    cases hc : checkReady s with
    | none =>
      refine ⟨0, Nat.zero_le _, fun j hj => by omega, ?_, ?_⟩
      · intro h1
        rw [slotAt_zero cfg _ hrp]
        rcases checkReady_none s hc with h | h
        · omega
        · exact h
      · simp only [transmitLoop, hc, List.range_zero, List.map_nil, List.append_nil,
          Nat.sub_zero]
        rw [slotAt_zero cfg _ hrp]
    | some b =>
      obtain ⟨hb, hl1, hu⟩ := checkReady_some s b hc
      subst hb
      have hfree := freeBuffer_eq cfg s hq hrp (by omega) hlen
      have hrp1 := slotAt_lt cfg s.dto_queue_rp 1 hrp
      obtain ⟨k, hk1, hk2, hk3, hk4⟩ := ih (freeBuffer cfg s) (out ++ [sendBuffer s s.dto_queue_rp])
        (by rw [hfree]; exact hrp1) (by rw [hfree]; show s.dto_queue_len - 1 ≤ _; omega)
        (by rw [hfree]; show s.dto_queue_len - 1 < _; omega)
      have hbuf : ∀ j, bufAt (freeBuffer cfg s) j = bufAt s j := fun j => rfl
      have hsend : ∀ j, sendBuffer (freeBuffer cfg s) j = sendBuffer s j := fun j => rfl
      have hrpf : (freeBuffer cfg s).dto_queue_rp = slotAt cfg s.dto_queue_rp 1 := by
        rw [hfree]
      have hlenf : (freeBuffer cfg s).dto_queue_len = s.dto_queue_len - 1 := by
        rw [hfree]
      have hgf : (freeBuffer cfg s).gXcpTl = s.gXcpTl := rfl
      have hqf : (freeBuffer cfg s).dto_queue = s.dto_queue := rfl
      have hpf : (freeBuffer cfg s).dto_buffer_ptr = s.dto_buffer_ptr := rfl
      simp only [hrpf, hlenf, hgf, hqf, hpf, hbuf, hsend, slotAt_slotAt] at hk1 hk2 hk3 hk4
      refine ⟨k + 1, by omega, ?_, ?_, ?_⟩
      · intro j hj
        cases j with
        | zero => rw [slotAt_zero cfg _ hrp]; exact hu
        | succ j =>
          have := hk2 j (by omega)
          rw [Nat.add_comm 1 j] at this
          exact this
      · intro h1
        have := hk3 (by omega)
        rw [Nat.add_comm 1 k] at this
        exact this
      · simp only [transmitLoop, hc]
        rw [hk4]
        have hr : (List.range (k + 1)).map (fun j => sendBuffer s (slotAt cfg s.dto_queue_rp j))
            = sendBuffer s s.dto_queue_rp ::
              (List.range k).map (fun j => sendBuffer s (slotAt cfg s.dto_queue_rp (1 + j))) := by
          rw [List.range_succ_eq_map, List.map_cons, List.map_map, slotAt_zero cfg _ hrp]
          refine congrArg _ (List.map_congr_left fun j _ => ?_)
          show sendBuffer s (slotAt cfg s.dto_queue_rp (j + 1)) = _
          rw [Nat.add_comm j 1]
        rw [hr, List.append_assoc, List.singleton_append]
        have hk' : s.dto_queue_len - 1 - k = s.dto_queue_len - (k + 1) := by omega
        simp only [Nat.add_comm 1 k, hk']

/-- The transmit loop always reaches its `break` within `dto_queue_len + 1` rounds,
in every state. -/
theorem transmitLoop_isSome (cfg : Config) : ∀ (fuel : Nat) (s : State) (out : List Datagram),
    s.dto_queue_len < fuel → (transmitLoop cfg fuel s out).isSome = true := by
  intro fuel
  induction fuel with
  | zero => intro s out h; omega
  | succ fuel ih =>
    intro s out hfuel
    cases hc : checkReady s with
    | none => simp [transmitLoop, hc]
    | some b =>
      simp only [transmitLoop, hc]
      apply ih
      obtain ⟨_, hl1, _⟩ := checkReady_some s b hc
      show u32 (s.dto_queue_len + 4294967295) < fuel
      unfold u32
      omega

/-- C7: in a state with the queue indices in range, one undisturbed call of
`udpServerHandleTransmitQueue` sends exactly the first `k` occupied buffers counted
from `dto_queue_rp`, where `k` is the largest number with `k ≤ dto_queue_len - 1` and
no uncommitted writer in any of these `k` buffers; afterwards `dto_queue_rp` has
advanced by `k` modulo the queue size and `dto_queue_len` has dropped by `k`, nothing
else has changed.  With an uncommitted writer in the head buffer nothing is sent and
the state is unchanged. -/
theorem handleTransmitQueue_sends_ready_buffers (cfg : Config) (s : State)
    (hq : cfg.XCP_DAQ_QUEUE_SIZE < 4294967296)
    (hrp : s.dto_queue_rp < cfg.XCP_DAQ_QUEUE_SIZE)
    (hlen : s.dto_queue_len ≤ cfg.XCP_DAQ_QUEUE_SIZE) :
    (∃ k, k ≤ s.dto_queue_len - 1 ∧
      (∀ j, j < k → (bufAt s (slotAt cfg s.dto_queue_rp j)).xcp_uncommited = 0) ∧
      (k + 1 < s.dto_queue_len →
        0 < (bufAt s (slotAt cfg s.dto_queue_rp k)).xcp_uncommited) ∧
      udpServerHandleTransmitQueue cfg s =
        some ({ s with
                dto_queue_rp := (s.dto_queue_rp + k) % cfg.XCP_DAQ_QUEUE_SIZE
                dto_queue_len := s.dto_queue_len - k },
              (List.range k).map (fun j => sendBuffer s (slotAt cfg s.dto_queue_rp j)))) ∧
    (0 < (bufAt s s.dto_queue_rp).xcp_uncommited →
      udpServerHandleTransmitQueue cfg s = some (s, [])) := by
  constructor
  · obtain ⟨k, h1, h2, h3, h4⟩ :=
      transmitLoop_spec cfg hq (s.dto_queue_len + 1) s [] hrp hlen (by omega)
    exact ⟨k, h1, h2, h3, by simpa [udpServerHandleTransmitQueue, slotAt] using h4⟩
  · intro hu
    have hc : checkReady s = none := by
      simp [checkReady, hu]
    simp [udpServerHandleTransmitQueue, transmitLoop, hc]


theorem getPacketBuffer_ret_none (cfg : Config) (s : State) (par : Option Nat) (size : Nat)
    (h : (udpServerGetPacketBuffer cfg s par size).ret = none) :
    (udpServerGetPacketBuffer cfg s par size).state.dto_buffer_ptr = none := by
  cases ht : (if needDtoBuffer cfg s size then getDtoBuffer cfg s else s).dto_buffer_ptr with
  | none =>
    rw [getPacketBuffer_none cfg s _ par size rfl ht]
    exact ht
  | some t =>
    rw [getPacketBuffer_some cfg s _ par size t rfl ht] at h
    simp at h

/-- C9: on a full queue of at least two entries on which a reservation has just failed
with overflow, and whose head buffer has no uncommitted writer, a call of
`udpServerHandleTransmitQueue` sends at least the head buffer, and the next
`udpServerGetPacketBuffer` succeeds and puts its message at offset 0 of the slot that
was the head before the drain (index `dto_queue_rp` before the drain): the returned
position is `XCP_MESSAGE_HEADER_SIZE` bytes into that slot and the handle is that
slot.  This holds for every requested size. -/
theorem slot_reuse_after_overflow (cfg : Config) (s0 s : State) (par0 par : Option Nat)
    (size0 size : Nat)
    (hq2 : 2 ≤ cfg.XCP_DAQ_QUEUE_SIZE) (hq : cfg.XCP_DAQ_QUEUE_SIZE < 2147483648)
    (hs : s = (udpServerGetPacketBuffer cfg s0 par0 size0).state)
    (hfail : (udpServerGetPacketBuffer cfg s0 par0 size0).ret = none)
    (hfull : s.dto_queue_len = cfg.XCP_DAQ_QUEUE_SIZE)
    (hrp : s.dto_queue_rp < cfg.XCP_DAQ_QUEUE_SIZE)
    (hhead : (bufAt s s.dto_queue_rp).xcp_uncommited = 0) :
    ∃ s1 out, udpServerHandleTransmitQueue cfg s = some (s1, out) ∧
      out.head? = some (sendBuffer s s.dto_queue_rp) ∧
      (udpServerGetPacketBuffer cfg s1 par size).ret
        = some (s.dto_queue_rp, 0 + XCP_MESSAGE_HEADER_SIZE) ∧
      (udpServerGetPacketBuffer cfg s1 par size).par = some s.dto_queue_rp ∧
      (udpServerGetPacketBuffer cfg s1 par size).state.dto_buffer_ptr = some s.dto_queue_rp := by
  have hptr : s.dto_buffer_ptr = none := by
    rw [hs]
    exact getPacketBuffer_ret_none cfg s0 par0 size0 hfail
  obtain ⟨k, hk1, hk2, hk3, hk4⟩ :=
    transmitLoop_spec cfg (by omega) (s.dto_queue_len + 1) s [] hrp (by omega) (by omega)
  have hk0 : 1 ≤ k := by
    by_contra hcon
    have hk : k = 0 := by omega
    subst hk
    have := hk3 (by omega)
    rw [slotAt_zero cfg _ hrp] at this
    omega
  refine ⟨_, _, hk4, ?_, ?_⟩
  · obtain ⟨k', rfl⟩ : ∃ k', k = k' + 1 := ⟨k - 1, by omega⟩
    rw [List.range_succ_eq_map]
    simp [slotAt_zero cfg _ hrp]
  · -- the state after the drain
    generalize hs1 : ({ s with
        dto_queue_rp := slotAt cfg s.dto_queue_rp k
        dto_queue_len := s.dto_queue_len - k } : State) = s1
    have h1rp : s1.dto_queue_rp = slotAt cfg s.dto_queue_rp k := by rw [← hs1]
    have h1len : s1.dto_queue_len = s.dto_queue_len - k := by rw [← hs1]
    have h1ptr : s1.dto_buffer_ptr = none := by rw [← hs1]; exact hptr
    have hneed : needDtoBuffer cfg s1 size = true := by
      unfold needDtoBuffer
      rw [h1ptr]
    have hslot : nextSlot cfg s1 = s.dto_queue_rp := by
      unfold nextSlot
      rw [h1rp, h1len, slotAt_eq_ite cfg _ k hrp (by omega)]
      unfold u32
      split <;> split <;> omega
    have hs2 : getDtoBuffer cfg s1 = if needDtoBuffer cfg s1 size then getDtoBuffer cfg s1 else s1 := by
      rw [hneed, if_pos rfl]
    have h2ptr : (getDtoBuffer cfg s1).dto_buffer_ptr = some s.dto_queue_rp := by
      rw [getDtoBuffer_alloc cfg s1 (by omega)]
      show some (nextSlot cfg s1) = _
      rw [hslot]
    obtain ⟨_, _, _, hp, _, hpar, hret, _⟩ :=
      getPacketBuffer_some_spec cfg s1 _ par size _ hs2 h2ptr
    rw [getDtoBuffer_tail_empty cfg s1 _ h2ptr] at hret
    exact ⟨hret, hpar, hp⟩

/-- C8 (failing input): the small queue is full, both buffers hold twelve committed
bytes and no writer is outstanding.  `udpServerFlushTransmitQueue` cannot seal the
tail (`getDtoBuffer` finds the queue full and only clears `dto_buffer_ptr`), so the
loop sends the buffer of slot 0 alone: the buffer of slot 1 stays in the queue with
its twelve bytes unsent and there is no tail. -/
theorem flush_full_queue_leaves_data :
    fullCommitted.dto_queue_len = smallCfg.XCP_DAQ_QUEUE_SIZE ∧
    (∀ b ∈ fullCommitted.dto_queue, b.xcp_uncommited = 0) ∧
    (udpServerFlushTransmitQueue smallCfg fullCommitted).map (fun r => r.2.map (fun d => d.slot))
      = some [0] ∧
    (udpServerFlushTransmitQueue smallCfg fullCommitted).map
        (fun r => (r.1.dto_queue_rp, r.1.dto_queue_len, r.1.dto_buffer_ptr,
          (bufAt r.1 1).xcp_size, (bufAt r.1 1).xcp_uncommited))
      = some (1, 1, none, 12, 0) := by
  decide


/-! ## Packing of consecutive reservations (C10) -/

theorem initDtoBufferQueue_spec (cfg : Config) (s0 : State)
    (hq : 1 ≤ cfg.XCP_DAQ_QUEUE_SIZE) :
    (initDtoBufferQueue cfg s0).dto_queue_rp = 0 ∧
    (initDtoBufferQueue cfg s0).dto_queue_len = 1 ∧
    (initDtoBufferQueue cfg s0).dto_buffer_ptr = some 0 ∧
    (initDtoBufferQueue cfg s0).dto_queue = List.replicate cfg.XCP_DAQ_QUEUE_SIZE (zeroBuffer cfg) ∧
    (initDtoBufferQueue cfg s0).gXcpTl = s0.gXcpTl := by
  unfold initDtoBufferQueue
  rw [getDtoBuffer_alloc _ _ (by show 0 < _; omega)]
  have hslot : nextSlot cfg { s0 with
      dto_queue_rp := 0, dto_queue_len := 0, dto_buffer_ptr := none,
      dto_queue := List.replicate cfg.XCP_DAQ_QUEUE_SIZE (zeroBuffer cfg) } = 0 := by
    unfold nextSlot
    show (if u32 (0 + 0) ≥ _ then _ else u32 (0 + 0)) = 0
    have : u32 (0 + 0) = 0 := rfl
    rw [this, if_neg (by omega)]
  rw [hslot]
  refine ⟨rfl, rfl, rfl, ?_, rfl⟩
  show (List.replicate cfg.XCP_DAQ_QUEUE_SIZE (zeroBuffer cfg)).set 0 _ = _
  obtain ⟨q, hq'⟩ : ∃ q, cfg.XCP_DAQ_QUEUE_SIZE = q + 1 := ⟨cfg.XCP_DAQ_QUEUE_SIZE - 1, by omega⟩
  rw [hq']
  simp [List.replicate_succ, bufAt, zeroBuffer]

/-- The `assert(dto_buffer_ptr)` at the end of `initDtoBufferQueue` holds. -/
theorem initDtoBufferQueue_assert (cfg : Config) (s0 : State)
    (hq : 1 ≤ cfg.XCP_DAQ_QUEUE_SIZE) :
    (initDtoBufferQueue cfg s0).dto_buffer_ptr ≠ none := by
  rw [(initDtoBufferQueue_spec cfg s0 hq).2.2.1]
  simp

theorem initDtoBufferQueue_bufAt (cfg : Config) (s0 : State)
    (hq : 1 ≤ cfg.XCP_DAQ_QUEUE_SIZE) (j : Nat) (hj : j < cfg.XCP_DAQ_QUEUE_SIZE) :
    bufAt (initDtoBufferQueue cfg s0) j = zeroBuffer cfg := by
  unfold bufAt
  rw [(initDtoBufferQueue_spec cfg s0 hq).2.2.2.1]
  rw [List.getD_eq_getElem _ _ (by simpa using hj)]
  simp

theorem initDtoBufferQueue_packed (cfg : Config) (s0 : State) (d m : Nat)
    (hq : 1 ≤ cfg.XCP_DAQ_QUEUE_SIZE) :
    Packed cfg d m 0 0 (initDtoBufferQueue cfg s0) := by
  obtain ⟨h1, h2, h3, h4, _⟩ := initDtoBufferQueue_spec cfg s0 hq
  refine ⟨h1, h2, h3, by rw [h4]; simp, ?_⟩
  intro j hj
  rw [initDtoBufferQueue_bufAt cfg s0 hq j hj]
  simp [zeroBuffer]


theorem packed_step_same (cfg : Config) (size m q f : Nat) (s : State)
    (hmtu : cfg.kXcpMaxMTU < 65536)
    (hm : m = cfg.kXcpMaxMTU / (size + XCP_MESSAGE_HEADER_SIZE))
    (hp : Packed cfg (size + XCP_MESSAGE_HEADER_SIZE) m q f s)
    (hq : q < cfg.XCP_DAQ_QUEUE_SIZE) (hf : f < m) :
    Packed cfg (size + XCP_MESSAGE_HEADER_SIZE) m q (f + 1)
      (udpServerGetPacketBuffer cfg s none size).state ∧
    (udpServerGetPacketBuffer cfg s none size).ret
      = some (q, f * (size + XCP_MESSAGE_HEADER_SIZE) + XCP_MESSAGE_HEADER_SIZE) ∧
    (udpServerGetPacketBuffer cfg s none size).par = some q := by
  obtain ⟨hrp, hlen, hptr, hlenq, hbuf⟩ := hp
  obtain ⟨hbq1, hbq2⟩ := hbuf q hq
  rw [if_neg (by omega), if_pos rfl] at hbq1 hbq2
  have hmd : m * (size + XCP_MESSAGE_HEADER_SIZE) ≤ cfg.kXcpMaxMTU := by
    rw [hm]; exact Nat.div_mul_le_self _ _
  have hfd : (f + 1) * (size + XCP_MESSAGE_HEADER_SIZE) ≤ m * (size + XCP_MESSAGE_HEADER_SIZE) :=
    Nat.mul_le_mul_right _ (by omega)
  have hm1 : m ≤ m * (size + XCP_MESSAGE_HEADER_SIZE) :=
    Nat.le_mul_of_pos_right _ (by unfold XCP_MESSAGE_HEADER_SIZE; omega)
  rw [Nat.succ_mul] at hfd
  have hneed : needDtoBuffer cfg s size = false := by
    unfold needDtoBuffer
    rw [hptr]
    simp only [decide_eq_false_iff_not, not_lt]
    rw [hbq1]
    unfold u32
    omega
  have hs1 : s = if needDtoBuffer cfg s size then getDtoBuffer cfg s else s := by
    rw [hneed]; rfl
  obtain ⟨hq', hrp', hlen', hptr', _, hpar, hret, _⟩ :=
    getPacketBuffer_some_spec cfg s s none size q hs1 hptr
  have hb := bufAt_of_queue s _ q _ hq'
  refine ⟨⟨hrp'.trans hrp, hlen'.trans hlen, hptr', by rw [hq', List.length_set]; exact hlenq, ?_⟩,
    by rw [hret, hbq1], hpar⟩
  intro j hj
  rw [hb j]
  by_cases hjq : q = j
  · subst hjq
    rw [if_pos ⟨rfl, by omega⟩, if_neg (by omega), if_pos rfl, if_neg (by omega), if_pos rfl]
    constructor
    · show u16 _ = _
      rw [hbq1, Nat.succ_mul]
      unfold u16
      omega
    · show u32 _ = _
      rw [hbq2]
      unfold u32
      omega
  · rw [if_neg (fun h => hjq h.1)]
    obtain ⟨h1, h2⟩ := hbuf j hj
    rw [h1, h2]
    have hjq' : ¬ j = q := fun h => hjq h.symm
    simp [hjq']

theorem packed_step_next (cfg : Config) (size m q : Nat) (s : State)
    (hmtu : cfg.kXcpMaxMTU < 65536) (hQ : cfg.XCP_DAQ_QUEUE_SIZE < 2147483648)
    (hm : m = cfg.kXcpMaxMTU / (size + XCP_MESSAGE_HEADER_SIZE)) (hm1 : 1 ≤ m)
    (hp : Packed cfg (size + XCP_MESSAGE_HEADER_SIZE) m q m s)
    (hq : q + 1 < cfg.XCP_DAQ_QUEUE_SIZE) :
    Packed cfg (size + XCP_MESSAGE_HEADER_SIZE) m (q + 1) 1
      (udpServerGetPacketBuffer cfg s none size).state ∧
    (udpServerGetPacketBuffer cfg s none size).ret
      = some (q + 1, 0 * (size + XCP_MESSAGE_HEADER_SIZE) + XCP_MESSAGE_HEADER_SIZE) ∧
    (udpServerGetPacketBuffer cfg s none size).par = some (q + 1) := by
  obtain ⟨hrp, hlen, hptr, hlenq, hbuf⟩ := hp
  obtain ⟨hbq1, hbq2⟩ := hbuf q (by omega)
  rw [if_neg (by omega), if_pos rfl] at hbq1 hbq2
  have hd : 0 < size + XCP_MESSAGE_HEADER_SIZE := by unfold XCP_MESSAGE_HEADER_SIZE; omega
  have hmd : m * (size + XCP_MESSAGE_HEADER_SIZE) ≤ cfg.kXcpMaxMTU := by
    rw [hm]; exact Nat.div_mul_le_self _ _
  have hgt : cfg.kXcpMaxMTU < (m + 1) * (size + XCP_MESSAGE_HEADER_SIZE) := by
    rw [hm, Nat.mul_comm]
    exact Nat.lt_mul_div_succ _ hd
  have hdm : size + XCP_MESSAGE_HEADER_SIZE ≤ m * (size + XCP_MESSAGE_HEADER_SIZE) :=
    Nat.le_mul_of_pos_left _ (by omega)
  rw [Nat.succ_mul] at hgt
  have hneed : needDtoBuffer cfg s size = true := by
    unfold needDtoBuffer
    rw [hptr]
    simp only [decide_eq_true_eq]
    rw [hbq1]
    unfold u32
    omega
  have hslot : nextSlot cfg s = q + 1 := by
    unfold nextSlot
    rw [hrp, hlen]
    unfold u32
    split <;> omega
  have hs1 : getDtoBuffer cfg s = if needDtoBuffer cfg s size then getDtoBuffer cfg s else s := by
    rw [hneed, if_pos rfl]
  have halloc := getDtoBuffer_alloc cfg s (by omega)
  rw [hslot] at halloc
  have h2ptr : (getDtoBuffer cfg s).dto_buffer_ptr = some (q + 1) := by rw [halloc]
  have h2rp : (getDtoBuffer cfg s).dto_queue_rp = 0 := by rw [halloc]; exact hrp
  have h2len : (getDtoBuffer cfg s).dto_queue_len = q + 2 := by
    rw [halloc]
    show u32 (s.dto_queue_len + 1) = _
    rw [hlen]
    unfold u32
    omega
  have h2q : (getDtoBuffer cfg s).dto_queue
      = s.dto_queue.set (q + 1) { bufAt s (q + 1) with xcp_size := 0, xcp_uncommited := 0 } := by
    rw [halloc]; rfl
  have hb2 := bufAt_of_queue s _ (q + 1) _ h2q
  have hb2t := hb2 (q + 1)
  rw [if_pos ⟨rfl, by omega⟩] at hb2t
  obtain ⟨hq', hrp', hlen', hptr', _, hpar, hret, _⟩ :=
    getPacketBuffer_some_spec cfg s _ none size (q + 1) hs1 h2ptr
  have hb := bufAt_of_queue (getDtoBuffer cfg s) _ (q + 1) _ hq'
  refine ⟨⟨hrp'.trans h2rp, hlen'.trans h2len, hptr',
    by rw [hq', List.length_set, h2q, List.length_set]; exact hlenq, ?_⟩,
    by rw [hret, hb2t]; simp, hpar⟩
  intro j hj
  rw [hb j]
  by_cases hjq : q + 1 = j
  · subst hjq
    rw [if_pos ⟨rfl, by rw [h2q, List.length_set]; omega⟩, if_neg (by omega), if_pos rfl,
      if_neg (by omega), if_pos rfl, hb2t]
    constructor
    · show u16 (0 + size + XCP_MESSAGE_HEADER_SIZE) = _
      unfold u16
      omega
    · rfl
  · rw [if_neg (fun h => hjq h.1), hb2 j, if_neg (fun h => hjq h.1)]
    obtain ⟨h1, h2⟩ := hbuf j hj
    rw [h1, h2]
    by_cases hlt : j < q
    · rw [if_pos hlt, if_pos (by omega), if_pos hlt, if_pos (by omega)]
      exact ⟨rfl, rfl⟩
    · by_cases heq : j = q
      · subst heq
        rw [if_neg (by omega), if_pos rfl, if_pos (by omega), if_neg (by omega), if_pos rfl,
          if_pos (by omega)]
        exact ⟨rfl, rfl⟩
      · rw [if_neg hlt, if_neg heq, if_neg (by omega), if_neg (by omega), if_neg hlt, if_neg heq,
          if_neg (by omega), if_neg (by omega)]
        exact ⟨rfl, rfl⟩


theorem messagesIn_succ (m n j : Nat) :
    messagesIn m (n + 1) j = messagesIn m n j + (if n / m = j then 1 else 0) := by
  unfold messagesIn
  rw [List.range_succ, List.filter_append, List.length_append]
  congr 1
  by_cases h : n / m = j
  · simp [h]
  · simp [h]

theorem div_of_packed_lt (m q f : Nat) (hf : f < m) :
    (q * m + f) / m = q ∧ (q * m + f) % m = f := by
  have h1 : (q * m + f) / m = q :=
    Nat.div_eq_of_lt_le (by omega) (by rw [Nat.succ_mul]; omega)
  refine ⟨h1, ?_⟩
  have h2 := Nat.div_add_mod (q * m + f) m
  rw [h1, Nat.mul_comm] at h2
  omega

theorem div_of_packed_full (m q : Nat) (hm : 1 ≤ m) :
    (q * m + m) / m = q + 1 ∧ (q * m + m) % m = 0 := by
  have h1 : (q * m + m) / m = q + 1 :=
    Nat.div_eq_of_lt_le (by rw [Nat.succ_mul]) (by rw [Nat.succ_mul, Nat.succ_mul]; omega)
  refine ⟨h1, ?_⟩
  have h2 := Nat.div_add_mod (q * m + m) m
  rw [h1, Nat.mul_comm, Nat.succ_mul] at h2
  omega

/-- The queue after `n` consecutive reservations of one size, as long as they fit
into the queue. -/
theorem reserveState_packed (cfg : Config) (size m : Nat) (s0 : State)
    (hmtu : cfg.kXcpMaxMTU < 65536)
    (hQ1 : 1 ≤ cfg.XCP_DAQ_QUEUE_SIZE) (hQ : cfg.XCP_DAQ_QUEUE_SIZE < 2147483648)
    (hm : m = cfg.kXcpMaxMTU / (size + XCP_MESSAGE_HEADER_SIZE)) (hm1 : 1 ≤ m) :
    ∀ n, n ≤ cfg.XCP_DAQ_QUEUE_SIZE * m →
      ∃ q f, n = q * m + f ∧ f ≤ m ∧ (1 ≤ n → 1 ≤ f) ∧ q < cfg.XCP_DAQ_QUEUE_SIZE ∧
        Packed cfg (size + XCP_MESSAGE_HEADER_SIZE) m q f
          (reserveState cfg size n (initDtoBufferQueue cfg s0)) ∧
        ∀ j, j < cfg.XCP_DAQ_QUEUE_SIZE →
          (bufAt (reserveState cfg size n (initDtoBufferQueue cfg s0)) j).xcp_uncommited
            = messagesIn m n j := by
  intro n
  induction n with
  | zero =>
    intro _
    refine ⟨0, 0, by omega, by omega, by omega, by omega,
      initDtoBufferQueue_packed cfg s0 _ m hQ1, ?_⟩
    intro j hj
    show (bufAt (initDtoBufferQueue cfg s0) j).xcp_uncommited = _
    rw [initDtoBufferQueue_bufAt cfg s0 hQ1 j hj]
    rfl
  | succ n ih =>
    intro hn
    obtain ⟨q, f, hnq, hf, hf1, hq, hp, hu⟩ := ih (by omega)
    by_cases hfm : f < m
    · obtain ⟨hp', _, _⟩ := packed_step_same cfg size m q f _ hmtu hm hp hq hfm
      refine ⟨q, f + 1, by omega, by omega, by omega, hq, hp', ?_⟩
      intro j hj
      rw [messagesIn_succ, ← hu j hj]
      refine Eq.trans (hp'.2.2.2.2 j hj).2 ?_
      rw [(hp.2.2.2.2 j hj).2, hnq, (div_of_packed_lt m q f hfm).1]
      split_ifs <;> omega
    · have hfe : f = m := by omega
      subst hfe
      have hq1 : q + 1 < cfg.XCP_DAQ_QUEUE_SIZE := by
        have h1 : (q + 1) * f < cfg.XCP_DAQ_QUEUE_SIZE * f := by
          rw [Nat.succ_mul]; omega
        exact Nat.lt_of_mul_lt_mul_right h1
      obtain ⟨hp', _, _⟩ := packed_step_next cfg size f q _ hmtu hQ hm hm1 hp hq1
      refine ⟨q + 1, 1, by rw [Nat.succ_mul]; omega, by omega, by omega, hq1, hp', ?_⟩
      intro j hj
      rw [messagesIn_succ, ← hu j hj]
      refine Eq.trans (hp'.2.2.2.2 j hj).2 ?_
      rw [(hp.2.2.2.2 j hj).2, hnq, (div_of_packed_full f q hm1).1]
      split_ifs <;> omega

/-- C10: from the state `initDtoBufferQueue` leaves, with `m` messages of `size` bytes
fitting into a buffer (`m = kXcpMaxMTU / (size + XCP_MESSAGE_HEADER_SIZE) ≥ 1`) and
`n` messages fitting into the queue (`⌈n / m⌉ ≤ XCP_DAQ_QUEUE_SIZE`), `n` consecutive
reservations of `size` bytes all succeed; message `i` (counted from 0) starts at
offset `(i mod m) * (size + XCP_MESSAGE_HEADER_SIZE)` of buffer `i / m` (the returned
position is `XCP_MESSAGE_HEADER_SIZE` bytes further, the handle is that buffer), and
afterwards `xcp_uncommited` of every buffer is the number of messages it holds. -/
theorem packing_layout (cfg : Config) (s0 : State) (size n : Nat)
    (hmtu : cfg.kXcpMaxMTU < 65536) (hQ : cfg.XCP_DAQ_QUEUE_SIZE < 2147483648)
    (hm1 : 1 ≤ cfg.kXcpMaxMTU / (size + XCP_MESSAGE_HEADER_SIZE))
    (hn : (n + cfg.kXcpMaxMTU / (size + XCP_MESSAGE_HEADER_SIZE) - 1)
      / (cfg.kXcpMaxMTU / (size + XCP_MESSAGE_HEADER_SIZE)) ≤ cfg.XCP_DAQ_QUEUE_SIZE) :
    (∀ i, i < n →
      (udpServerGetPacketBuffer cfg
          (reserveState cfg size i (initDtoBufferQueue cfg s0)) none size).ret
        = some (i / (cfg.kXcpMaxMTU / (size + XCP_MESSAGE_HEADER_SIZE)),
            (i % (cfg.kXcpMaxMTU / (size + XCP_MESSAGE_HEADER_SIZE)))
              * (size + XCP_MESSAGE_HEADER_SIZE) + XCP_MESSAGE_HEADER_SIZE) ∧
      (udpServerGetPacketBuffer cfg
          (reserveState cfg size i (initDtoBufferQueue cfg s0)) none size).par
        = some (i / (cfg.kXcpMaxMTU / (size + XCP_MESSAGE_HEADER_SIZE)))) ∧
    (∀ j, j < cfg.XCP_DAQ_QUEUE_SIZE →
      (bufAt (reserveState cfg size n (initDtoBufferQueue cfg s0)) j).xcp_uncommited
        = messagesIn (cfg.kXcpMaxMTU / (size + XCP_MESSAGE_HEADER_SIZE)) n j) := by
  generalize hm : cfg.kXcpMaxMTU / (size + XCP_MESSAGE_HEADER_SIZE) = m at hm1 hn ⊢
  have hcap : n ≤ cfg.XCP_DAQ_QUEUE_SIZE * m := by
    have h1 : (n + m - 1) / m < cfg.XCP_DAQ_QUEUE_SIZE + 1 := by omega
    rw [Nat.div_lt_iff_lt_mul (by omega), Nat.succ_mul] at h1
    omega
  by_cases hQ0 : cfg.XCP_DAQ_QUEUE_SIZE = 0
  · rw [hQ0] at hcap ⊢
    have hn0 : n = 0 := by simpa using hcap
    subst hn0
    exact ⟨fun i hi => by omega, fun j hj => by omega⟩
  have hQ1 : 1 ≤ cfg.XCP_DAQ_QUEUE_SIZE := by omega
  have hpk := reserveState_packed cfg size m s0 hmtu hQ1 hQ hm.symm hm1
  refine ⟨?_, (hpk n hcap).choose_spec.choose_spec.2.2.2.2.2⟩
  intro i hi
  obtain ⟨q, f, hnq, hf, hf1, hq, hp, _⟩ := hpk i (by omega)
  by_cases hfm : f < m
  · obtain ⟨_, hret, hpar⟩ := packed_step_same cfg size m q f _ hmtu hm.symm hp hq hfm
    obtain ⟨hd, hmod⟩ := div_of_packed_lt m q f hfm
    rw [hret, hpar, hnq, hd, hmod]
    exact ⟨rfl, rfl⟩
  · have hfe : f = m := by omega
    subst hfe
    have hq1 : q + 1 < cfg.XCP_DAQ_QUEUE_SIZE := by
      have h1 : (q + 1) * f < cfg.XCP_DAQ_QUEUE_SIZE * f := by
        rw [Nat.succ_mul]; omega
      exact Nat.lt_of_mul_lt_mul_right h1
    obtain ⟨_, hret, hpar⟩ := packed_step_next cfg size f q _ hmtu hQ hm.symm hm1 hp hq1
    obtain ⟨hd, hmod⟩ := div_of_packed_full f q hm1
    rw [hret, hpar, hnq, hd, hmod]
    exact ⟨rfl, rfl⟩


/-! ## The ring structure is kept by every function -/

theorem slotAt_inj (cfg : Config) (rp a b : Nat) (hrp : rp < cfg.XCP_DAQ_QUEUE_SIZE)
    (ha : a < cfg.XCP_DAQ_QUEUE_SIZE) (hb : b < cfg.XCP_DAQ_QUEUE_SIZE)
    (h : slotAt cfg rp a = slotAt cfg rp b) : a = b := by
  rw [slotAt_eq_ite cfg rp a hrp (by omega), slotAt_eq_ite cfg rp b hrp (by omega)] at h
  split at h <;> split at h <;> omega

theorem nextSlot_eq (cfg : Config) (s : State) (hQ : cfg.XCP_DAQ_QUEUE_SIZE < 2147483648)
    (hrp : s.dto_queue_rp < cfg.XCP_DAQ_QUEUE_SIZE)
    (hlen : s.dto_queue_len < cfg.XCP_DAQ_QUEUE_SIZE) :
    nextSlot cfg s = slotAt cfg s.dto_queue_rp s.dto_queue_len := by
  unfold nextSlot
  rw [slotAt_eq_ite cfg _ _ hrp (by omega)]
  unfold u32
  split <;> split <;> omega

/-- What `getDtoBuffer` does when the queue has a free entry. -/
theorem getDtoBuffer_alloc_spec (cfg : Config) (s : State)
    (hQ : cfg.XCP_DAQ_QUEUE_SIZE < 2147483648) (hR : Ring cfg s)
    (hlen : s.dto_queue_len < cfg.XCP_DAQ_QUEUE_SIZE) :
    (getDtoBuffer cfg s).dto_queue_rp = s.dto_queue_rp ∧
    (getDtoBuffer cfg s).dto_queue_len = s.dto_queue_len + 1 ∧
    (getDtoBuffer cfg s).dto_buffer_ptr = some (slotAt cfg s.dto_queue_rp s.dto_queue_len) ∧
    (getDtoBuffer cfg s).dto_queue.length = s.dto_queue.length ∧
    (bufAt (getDtoBuffer cfg s) (slotAt cfg s.dto_queue_rp s.dto_queue_len)).xcp_size = 0 ∧
    (bufAt (getDtoBuffer cfg s) (slotAt cfg s.dto_queue_rp s.dto_queue_len)).xcp_uncommited = 0 ∧
    (∀ j, j ≠ slotAt cfg s.dto_queue_rp s.dto_queue_len →
      bufAt (getDtoBuffer cfg s) j = bufAt s j) := by
  obtain ⟨hl, hrp, hl1, hl2, _⟩ := hR
  have hslot := nextSlot_eq cfg s hQ hrp hlen
  have halloc := getDtoBuffer_alloc cfg s hlen
  rw [hslot] at halloc
  have hq : (getDtoBuffer cfg s).dto_queue = s.dto_queue.set (slotAt cfg s.dto_queue_rp s.dto_queue_len)
      { bufAt s (slotAt cfg s.dto_queue_rp s.dto_queue_len) with xcp_size := 0, xcp_uncommited := 0 } := by
    rw [halloc]; rfl
  have hb := bufAt_of_queue s _ _ _ hq
  have hin : slotAt cfg s.dto_queue_rp s.dto_queue_len < s.dto_queue.length := by
    rw [hl]; exact slotAt_lt cfg _ _ hrp
  refine ⟨by rw [halloc]; rfl, ?_, by rw [halloc], by rw [hq, List.length_set], ?_, ?_, ?_⟩
  · rw [halloc]
    show u32 (s.dto_queue_len + 1) = _
    unfold u32
    omega
  · rw [hb, if_pos ⟨rfl, hin⟩]
  · rw [hb, if_pos ⟨rfl, hin⟩]
  · intro j hj
    rw [hb, if_neg (fun h => hj h.1.symm)]

theorem getDtoBuffer_ring (cfg : Config) (s : State)
    (hQ : cfg.XCP_DAQ_QUEUE_SIZE < 2147483648) (hR : Ring cfg s) :
    Ring cfg (getDtoBuffer cfg s) := by
  by_cases hfull : cfg.XCP_DAQ_QUEUE_SIZE ≤ s.dto_queue_len
  · rw [getDtoBuffer_full cfg s hfull]
    obtain ⟨h1, h2, h3, h4, _⟩ := hR
    exact ⟨h1, h2, h3, h4, fun t ht => by simp at ht⟩
  · obtain ⟨e1, e2, e3, e4, _⟩ := getDtoBuffer_alloc_spec cfg s hQ hR (by omega)
    obtain ⟨h1, h2, h3, h4, _⟩ := hR
    refine ⟨by rw [e4]; exact h1, by rw [e1]; exact h2, by omega, by omega, ?_⟩
    intro t ht
    rw [e3] at ht
    simp only [Option.some.injEq] at ht
    rw [e1, e2, ← ht]
    rfl

/-- The three ways a reservation can go, with their effect on the queue. -/
theorem getPacketBuffer_cases (cfg : Config) (s : State) (par : Option Nat) (size : Nat)
    (hQ : cfg.XCP_DAQ_QUEUE_SIZE < 2147483648) (hR : Ring cfg s) :
    -- the tail has room
    (∃ t, s.dto_buffer_ptr = some t ∧
      u32 ((bufAt s t).xcp_size + size + XCP_MESSAGE_HEADER_SIZE) ≤ cfg.kXcpMaxMTU ∧
      (udpServerGetPacketBuffer cfg s par size).par = some t ∧
      (udpServerGetPacketBuffer cfg s par size).state.dto_queue_rp = s.dto_queue_rp ∧
      (udpServerGetPacketBuffer cfg s par size).state.dto_queue_len = s.dto_queue_len ∧
      (udpServerGetPacketBuffer cfg s par size).state.dto_buffer_ptr = some t ∧
      (udpServerGetPacketBuffer cfg s par size).state.dto_queue.length = s.dto_queue.length ∧
      (bufAt (udpServerGetPacketBuffer cfg s par size).state t).xcp_size
        = u16 ((bufAt s t).xcp_size + size + XCP_MESSAGE_HEADER_SIZE) ∧
      (bufAt (udpServerGetPacketBuffer cfg s par size).state t).xcp_uncommited
        = u32 ((bufAt s t).xcp_uncommited + 1) ∧
      (∀ j, j ≠ t → bufAt (udpServerGetPacketBuffer cfg s par size).state j = bufAt s j)) ∨
    -- a new tail is allocated
    (needDtoBuffer cfg s size = true ∧ s.dto_queue_len < cfg.XCP_DAQ_QUEUE_SIZE ∧
      (udpServerGetPacketBuffer cfg s par size).par
        = some (slotAt cfg s.dto_queue_rp s.dto_queue_len) ∧
      (udpServerGetPacketBuffer cfg s par size).state.dto_queue_rp = s.dto_queue_rp ∧
      (udpServerGetPacketBuffer cfg s par size).state.dto_queue_len = s.dto_queue_len + 1 ∧
      (udpServerGetPacketBuffer cfg s par size).state.dto_buffer_ptr
        = some (slotAt cfg s.dto_queue_rp s.dto_queue_len) ∧
      (udpServerGetPacketBuffer cfg s par size).state.dto_queue.length = s.dto_queue.length ∧
      (bufAt (udpServerGetPacketBuffer cfg s par size).state
          (slotAt cfg s.dto_queue_rp s.dto_queue_len)).xcp_size
        = u16 (0 + size + XCP_MESSAGE_HEADER_SIZE) ∧
      (bufAt (udpServerGetPacketBuffer cfg s par size).state
          (slotAt cfg s.dto_queue_rp s.dto_queue_len)).xcp_uncommited = 1 ∧
      (∀ j, j ≠ slotAt cfg s.dto_queue_rp s.dto_queue_len →
        bufAt (udpServerGetPacketBuffer cfg s par size).state j = bufAt s j)) ∨
    -- overflow
    (needDtoBuffer cfg s size = true ∧ cfg.XCP_DAQ_QUEUE_SIZE ≤ s.dto_queue_len ∧
      (udpServerGetPacketBuffer cfg s par size).par = par ∧
      (udpServerGetPacketBuffer cfg s par size).ret = none ∧
      (udpServerGetPacketBuffer cfg s par size).state = { s with dto_buffer_ptr := none }) := by
  have hRc := hR
  obtain ⟨hl, hrp, hl1, hl2, htl⟩ := hR
  by_cases hneed : needDtoBuffer cfg s size = true
  · by_cases hfull : cfg.XCP_DAQ_QUEUE_SIZE ≤ s.dto_queue_len
    · right; right
      have hs1 : ({ s with dto_buffer_ptr := none } : State)
          = if needDtoBuffer cfg s size then getDtoBuffer cfg s else s := by
        rw [hneed, if_pos rfl, getDtoBuffer_full cfg s hfull]
      rw [getPacketBuffer_none cfg s _ par size hs1 rfl]
      exact ⟨hneed, hfull, rfl, rfl, rfl⟩
    · right; left
      obtain ⟨e1, e2, e3, e4, e5, e6, e7⟩ := getDtoBuffer_alloc_spec cfg s hQ hRc (by omega)
      have hs1 : getDtoBuffer cfg s
          = if needDtoBuffer cfg s size then getDtoBuffer cfg s else s := by
        rw [hneed, if_pos rfl]
      obtain ⟨hq', hrp', hlen', hptr', _, hpar, _, _⟩ :=
        getPacketBuffer_some_spec cfg s _ par size _ hs1 e3
      have hb := bufAt_of_queue (getDtoBuffer cfg s) _ _ _ hq'
      have hin : slotAt cfg s.dto_queue_rp s.dto_queue_len < (getDtoBuffer cfg s).dto_queue.length := by
        rw [e4, hl]; exact slotAt_lt cfg _ _ hrp
      refine ⟨hneed, by omega, hpar, hrp'.trans e1, hlen'.trans e2, hptr',
        by rw [hq', List.length_set, e4], ?_, ?_, ?_⟩
      · rw [hb, if_pos ⟨rfl, hin⟩]
        show u16 _ = _
        rw [e5]
      · rw [hb, if_pos ⟨rfl, hin⟩]
        show u32 _ = _
        rw [e6]
        rfl
      · intro j hj
        rw [hb, if_neg (fun h => hj h.1.symm)]
        exact e7 j hj
  · left
    have hneedf : needDtoBuffer cfg s size = false := by simpa using hneed
    cases hp : s.dto_buffer_ptr with
    | none =>
      unfold needDtoBuffer at hneedf
      rw [hp] at hneedf
      simp at hneedf
    | some t =>
      have hroom : u32 ((bufAt s t).xcp_size + size + XCP_MESSAGE_HEADER_SIZE) ≤ cfg.kXcpMaxMTU := by
        unfold needDtoBuffer at hneedf
        rw [hp] at hneedf
        simpa using hneedf
      have hs1 : s = if needDtoBuffer cfg s size then getDtoBuffer cfg s else s := by
        rw [hneedf]; rfl
      obtain ⟨hq', hrp', hlen', hptr', _, hpar, _, _⟩ :=
        getPacketBuffer_some_spec cfg s s par size t hs1 hp
      have hb := bufAt_of_queue s _ _ _ hq'
      have hin : t < s.dto_queue.length := by
        rw [htl t hp, hl]; exact slotAt_lt cfg _ _ hrp
      refine ⟨t, rfl, hroom, hpar, hrp', hlen', hptr', by rw [hq', List.length_set], ?_, ?_, ?_⟩
      · rw [hb, if_pos ⟨rfl, hin⟩]
      · rw [hb, if_pos ⟨rfl, hin⟩]
      · intro j hj
        rw [hb, if_neg (fun h => hj h.1.symm)]


theorem getPacketBuffer_ring (cfg : Config) (s : State) (par : Option Nat) (size : Nat)
    (hQ : cfg.XCP_DAQ_QUEUE_SIZE < 2147483648) (hR : Ring cfg s) :
    Ring cfg (udpServerGetPacketBuffer cfg s par size).state ∧
    (udpServerGetPacketBuffer cfg s par size).state.dto_queue_rp = s.dto_queue_rp ∧
    s.dto_queue_len ≤ (udpServerGetPacketBuffer cfg s par size).state.dto_queue_len := by
  have hRc := hR
  obtain ⟨hl, hrp, hl1, hl2, htl⟩ := hR
  rcases getPacketBuffer_cases cfg s par size hQ hRc with
    ⟨t, hp, _, _, e1, e2, e3, e4, _⟩ | ⟨_, hlt, _, e1, e2, e3, e4, _⟩ | ⟨_, _, _, _, e⟩
  · refine ⟨⟨by rw [e4]; exact hl, by rw [e1]; exact hrp, by omega, by omega, ?_⟩, e1, by omega⟩
    intro t1 ht1
    rw [e3] at ht1
    rw [e1, e2, ← htl t hp]
    simpa using ht1.symm
  · refine ⟨⟨by rw [e4]; exact hl, by rw [e1]; exact hrp, by omega, by omega, ?_⟩, e1, by omega⟩
    intro t1 ht1
    rw [e3] at ht1
    simp only [Option.some.injEq] at ht1
    rw [e1, e2, ← ht1]
    rfl
  · rw [e]
    exact ⟨⟨hl, hrp, hl1, hl2, fun t ht => by simp at ht⟩, rfl, Nat.le_refl _⟩

theorem commit_spec (s : State) (h : Nat) :
    (udpServerCommitPacketBuffer s (some h)).dto_queue_rp = s.dto_queue_rp ∧
    (udpServerCommitPacketBuffer s (some h)).dto_queue_len = s.dto_queue_len ∧
    (udpServerCommitPacketBuffer s (some h)).dto_buffer_ptr = s.dto_buffer_ptr ∧
    (udpServerCommitPacketBuffer s (some h)).dto_queue.length = s.dto_queue.length ∧
    (∀ j, bufAt (udpServerCommitPacketBuffer s (some h)) j =
      if h = j ∧ h < s.dto_queue.length then
        { bufAt s h with xcp_uncommited := u32 ((bufAt s h).xcp_uncommited + 4294967295) }
      else bufAt s j) := by
  refine ⟨rfl, rfl, rfl, ?_, ?_⟩
  · show (setBuf s h _).dto_queue.length = _
    simp
  · intro j
    exact bufAt_setBuf s h j _

theorem commit_ring (cfg : Config) (s : State) (h : Option Nat) (hR : Ring cfg s) :
    Ring cfg (udpServerCommitPacketBuffer s h) := by
  cases h with
  | none => exact hR
  | some h =>
    obtain ⟨e1, e2, e3, e4, _⟩ := commit_spec s h
    obtain ⟨h1, h2, h3, h4, h5⟩ := hR
    exact ⟨by rw [e4]; exact h1, by rw [e1]; exact h2, by rw [e2]; exact h3,
      by rw [e2]; exact h4, by rw [e1, e2, e3]; exact h5⟩

theorem freeBuffer_ring (cfg : Config) (s : State)
    (hQ : cfg.XCP_DAQ_QUEUE_SIZE < 2147483648) (hR : Ring cfg s)
    (hlen : 1 < s.dto_queue_len) :
    Ring cfg (freeBuffer cfg s) ∧
    (freeBuffer cfg s).dto_queue_rp = slotAt cfg s.dto_queue_rp 1 ∧
    (freeBuffer cfg s).dto_queue_len = s.dto_queue_len - 1 ∧
    (freeBuffer cfg s).dto_queue = s.dto_queue := by
  obtain ⟨h1, h2, h3, h4, h5⟩ := hR
  rw [freeBuffer_eq cfg s (by omega) h2 h3 h4]
  refine ⟨⟨h1, slotAt_lt cfg _ _ h2, ?_, ?_, ?_⟩, rfl, rfl, rfl⟩
  · show 1 ≤ s.dto_queue_len - 1
    omega
  · show s.dto_queue_len - 1 ≤ _
    omega
  · intro t ht
    show t = slotAt cfg (slotAt cfg s.dto_queue_rp 1) (s.dto_queue_len - 1 - 1)
    rw [slotAt_slotAt, h5 t ht]
    congr 1
    omega

theorem flushSeal_cases (cfg : Config) (s : State) :
    flushSeal cfg s = s ∨
    (flushSeal cfg s = getDtoBuffer cfg s ∧
      ∃ t, s.dto_buffer_ptr = some t ∧ 0 < (bufAt s t).xcp_size) := by
  unfold flushSeal
  cases hp : s.dto_buffer_ptr with
  | none => left; rfl
  | some t =>
    by_cases hs : (bufAt s t).xcp_size > 0
    · right
      simp only [hs, if_true]
      exact ⟨trivial, t, rfl, hs⟩
    · left
      simp only [hs, if_false]

theorem flushSeal_ring (cfg : Config) (s : State)
    (hQ : cfg.XCP_DAQ_QUEUE_SIZE < 2147483648) (hR : Ring cfg s) :
    Ring cfg (flushSeal cfg s) := by
  rcases flushSeal_cases cfg s with h | ⟨h, _⟩
  · rw [h]; exact hR
  · rw [h]; exact getDtoBuffer_ring cfg s hQ hR


/-! ## Runs: the ring structure and the order of transmission (C3) -/

theorem run_induction (cfg : Config) (P : Sys → Prop) (ok : Step → Prop)
    (hstep : ∀ y st y1, ok st → step cfg y st = some y1 → P y → P y1) :
    ∀ (steps : List Step) (y y1 : Sys), (∀ st ∈ steps, ok st) →
      run cfg y steps = some y1 → P y → P y1 := by
  intro steps
  induction steps with
  | nil =>
    intro y y1 _ h hinv
    simp only [run, Option.some.injEq] at h
    exact h ▸ hinv
  | cons st rest ih =>
    intro y y1 hok h hinv
    simp only [run] at h
    cases hst : step cfg y st with
    | none => rw [hst] at h; simp at h
    | some y2 =>
      rw [hst] at h
      exact ih y2 y1 (fun x hx => hok x (List.mem_cons_of_mem _ hx)) h
        (hstep y st y2 (hok st (List.mem_cons_self _ _)) hst hinv)

theorem holds_send (b c : Nat) : holds (.send b) c ↔ c = b := by
  unfold holds
  constructor
  · rintro (h | h)
    · injection h with h; exact h.symm
    · cases h
  · rintro rfl; exact Or.inl rfl

theorem holds_free (b c : Nat) : holds (.free b) c ↔ c = b := by
  unfold holds
  constructor
  · rintro (h | h)
    · cases h
    · injection h with h; exact h.symm
  · rintro rfl; exact Or.inr rfl

theorem not_holds_check (c : Nat) : ¬ holds .check c := by
  unfold holds
  rintro (h | h) <;> cases h

theorem not_holds_idle (c : Nat) : ¬ holds .idle c := by
  unfold holds
  rintro (h | h) <;> cases h

theorem step_SysRing (cfg : Config) (hQ : cfg.XCP_DAQ_QUEUE_SIZE < 2147483648)
    (y y1 : Sys) (st : Step) (h : step cfg y st = some y1) (hinv : SysRing cfg y) :
    SysRing cfg y1 := by
  obtain ⟨hR, hpc⟩ := hinv
  cases st with
  | reserve size =>
    simp only [step, Option.some.injEq] at h
    subst h
    obtain ⟨r1, r2, r3⟩ := getPacketBuffer_ring cfg y.s none size hQ hR
    refine ⟨r1, fun b hb => ?_⟩
    obtain ⟨hb1, hb2⟩ := hpc b hb
    exact ⟨hb1.trans r2.symm, Nat.lt_of_lt_of_le hb2 r3⟩
  | commit hd =>
    cases hd with
    | none =>
      simp only [step, Option.some.injEq] at h
      subst h
      exact ⟨hR, hpc⟩
    | some p =>
      simp only [step] at h
      split at h
      · simp at h
      · simp only [Option.some.injEq] at h
        subst h
        exact ⟨commit_ring cfg y.s (some p) hR, hpc⟩
  | enter =>
    simp only [step] at h
    split at h
    · simp only [Option.some.injEq] at h
      subst h
      exact ⟨hR, fun b hb => absurd hb (not_holds_check b)⟩
    · simp at h
  | flush =>
    simp only [step] at h
    split at h
    · simp only [Option.some.injEq] at h
      subst h
      exact ⟨flushSeal_ring cfg y.s hQ hR, fun b hb => absurd hb (not_holds_check b)⟩
    · simp at h
  | check =>
    simp only [step] at h
    split at h
    · split at h
      · rename_i b hc
        simp only [Option.some.injEq] at h
        subst h
        refine ⟨hR, fun c hcb => ?_⟩
        have hcb' : c = b := (holds_send b c).1 hcb
        subst hcb'
        obtain ⟨e1, e2, _⟩ := checkReady_some y.s c hc
        exact ⟨e1, e2⟩
      · simp only [Option.some.injEq] at h
        subst h
        exact ⟨hR, fun b hb => absurd hb (not_holds_idle b)⟩
    · simp at h
  | send =>
    simp only [step] at h
    split at h
    · rename_i b hb
      simp only [Option.some.injEq] at h
      subst h
      refine ⟨hR, fun c hcb => ?_⟩
      have hcb' : c = b := (holds_free b c).1 hcb
      subst hcb'
      exact hpc c (by rw [hb]; exact (holds_send c c).2 rfl)
    · simp at h
  | free =>
    simp only [step] at h
    split at h
    · rename_i b hb
      simp only [Option.some.injEq] at h
      subst h
      obtain ⟨_, hl⟩ := hpc b (by rw [hb]; exact (holds_free b b).2 rfl)
      exact ⟨(freeBuffer_ring cfg y.s hQ hR hl).1, fun c hc => absurd hc (not_holds_check c)⟩
    · simp at h

theorem initSys_SysRing (cfg : Config) (s0 : State) (hQ1 : 1 ≤ cfg.XCP_DAQ_QUEUE_SIZE) :
    SysRing cfg (initSys cfg s0) := by
  obtain ⟨h1, h2, h3, h4, _⟩ := initDtoBufferQueue_spec cfg s0 hQ1
  refine ⟨⟨?_, ?_, ?_, ?_, ?_⟩, fun b hb => absurd hb (not_holds_idle b)⟩
  · show (initDtoBufferQueue cfg s0).dto_queue.length = _
    rw [h4]; simp
  · show (initDtoBufferQueue cfg s0).dto_queue_rp < _
    omega
  · show 1 ≤ (initDtoBufferQueue cfg s0).dto_queue_len
    omega
  · show (initDtoBufferQueue cfg s0).dto_queue_len ≤ _
    omega
  · intro t ht
    show t = slotAt cfg (initDtoBufferQueue cfg s0).dto_queue_rp
      ((initDtoBufferQueue cfg s0).dto_queue_len - 1)
    have ht' : (initDtoBufferQueue cfg s0).dto_buffer_ptr = some t := ht
    rw [h3] at ht'
    rw [h1, h2, slotAt_zero cfg 0 (by omega)]
    simpa using ht'.symm

theorem run_SysRing (cfg : Config) (s0 : State) (steps : List Step) (y : Sys)
    (hQ1 : 1 ≤ cfg.XCP_DAQ_QUEUE_SIZE) (hQ : cfg.XCP_DAQ_QUEUE_SIZE < 2147483648)
    (hrun : run cfg (initSys cfg s0) steps = some y) : SysRing cfg y :=
  run_induction cfg (SysRing cfg) (fun _ => True)
    (fun y st y1 _ h hinv => step_SysRing cfg hQ y y1 st h hinv)
    steps _ _ (fun _ _ => trivial) hrun (initSys_SysRing cfg s0 hQ1)


theorem fifo_note (cfg : Config) (y : Sys) (s1 : State) (a : Nat) (ids : List Nat)
    (hR : Ring cfg y.s)
    (hrp : s1.dto_queue_rp = y.s.dto_queue_rp)
    (hcase : s1.dto_queue_len = y.s.dto_queue_len ∨
      (s1.dto_queue_len = y.s.dto_queue_len + 1 ∧
        y.s.dto_queue_len < cfg.XCP_DAQ_QUEUE_SIZE ∧
        s1.dto_buffer_ptr = some (slotAt cfg y.s.dto_queue_rp y.s.dto_queue_len)))
    (hF : FifoCore cfg y.s a y.allocId y.nalloc ids) :
    FifoCore cfg s1 a (noteAllocId y s1) (noteNalloc y s1) ids := by
  obtain ⟨f1, f2, f3⟩ := hF
  obtain ⟨_, hrpQ, _, _, _⟩ := hR
  rcases hcase with hl | ⟨hl, hlt, hp⟩
  · have e1 : noteAllocId y s1 = y.allocId := by
      unfold noteAllocId; rw [if_pos hl]
    have e2 : noteNalloc y s1 = y.nalloc := by
      unfold noteNalloc; rw [if_pos hl]
    rw [e1, e2]
    exact ⟨by rw [hl]; exact f1, by rw [hl, hrp]; exact f2, by rw [hl]; exact f3⟩
  · have hne : ¬ s1.dto_queue_len = y.s.dto_queue_len := by omega
    have e1 : noteAllocId y s1 = fun j =>
        if j = slotAt cfg y.s.dto_queue_rp y.s.dto_queue_len then y.nalloc else y.allocId j := by
      unfold noteAllocId; rw [if_neg hne, hp]
    have e2 : noteNalloc y s1 = y.nalloc + 1 := by
      unfold noteNalloc; rw [if_neg hne]
    rw [e1, e2]
    refine ⟨by omega, ?_, by rw [hl, f3]; congr 1; omega⟩
    intro k hk
    rw [hrp, hl]
    by_cases hkl : k = y.s.dto_queue_len
    · subst hkl
      simp only [if_true]
      omega
    · have hk' : k < y.s.dto_queue_len := by omega
      have hne2 : slotAt cfg y.s.dto_queue_rp k ≠ slotAt cfg y.s.dto_queue_rp y.s.dto_queue_len :=
        fun h => hkl (slotAt_inj cfg _ _ _ hrpQ (by omega) hlt h)
      simp only [hne2, if_false]
      have := f2 k hk'
      omega

theorem getPacketBuffer_len_cases (cfg : Config) (s : State) (par : Option Nat) (size : Nat)
    (hQ : cfg.XCP_DAQ_QUEUE_SIZE < 2147483648) (hR : Ring cfg s) :
    (udpServerGetPacketBuffer cfg s par size).state.dto_queue_len = s.dto_queue_len ∨
    ((udpServerGetPacketBuffer cfg s par size).state.dto_queue_len = s.dto_queue_len + 1 ∧
      s.dto_queue_len < cfg.XCP_DAQ_QUEUE_SIZE ∧
      (udpServerGetPacketBuffer cfg s par size).state.dto_buffer_ptr
        = some (slotAt cfg s.dto_queue_rp s.dto_queue_len)) := by
  rcases getPacketBuffer_cases cfg s par size hQ hR with
    ⟨t, _, _, _, _, e2, _⟩ | ⟨_, hlt, _, _, e2, e3, _⟩ | ⟨_, _, _, _, e⟩
  · exact Or.inl e2
  · exact Or.inr ⟨e2, hlt, e3⟩
  · left; rw [e]

theorem flushSeal_len_cases (cfg : Config) (s : State)
    (hQ : cfg.XCP_DAQ_QUEUE_SIZE < 2147483648) (hR : Ring cfg s) :
    (flushSeal cfg s).dto_queue_rp = s.dto_queue_rp ∧
    ((flushSeal cfg s).dto_queue_len = s.dto_queue_len ∨
    ((flushSeal cfg s).dto_queue_len = s.dto_queue_len + 1 ∧
      s.dto_queue_len < cfg.XCP_DAQ_QUEUE_SIZE ∧
      (flushSeal cfg s).dto_buffer_ptr
        = some (slotAt cfg s.dto_queue_rp s.dto_queue_len))) := by
  rcases flushSeal_cases cfg s with h | ⟨h, _⟩
  · rw [h]; exact ⟨rfl, Or.inl rfl⟩
  · rw [h]
    refine ⟨getDtoBuffer_rp cfg s, ?_⟩
    by_cases hfull : cfg.XCP_DAQ_QUEUE_SIZE ≤ s.dto_queue_len
    · left; rw [getDtoBuffer_full cfg s hfull]
    · obtain ⟨_, e2, e3, _⟩ := getDtoBuffer_alloc_spec cfg s hQ hR (by omega)
      exact Or.inr ⟨e2, by omega, e3⟩

theorem step_FifoInv (cfg : Config) (hQ : cfg.XCP_DAQ_QUEUE_SIZE < 2147483648)
    (y y1 : Sys) (st : Step) (h : step cfg y st = some y1)
    (hring : SysRing cfg y) (hinv : FifoInv cfg y) : FifoInv cfg y1 := by
  obtain ⟨hR, hpc⟩ := hring
  obtain ⟨hF, hlog⟩ := hinv
  cases st with
  | reserve size =>
    simp only [step, Option.some.injEq] at h
    subst h
    obtain ⟨_, r2, _⟩ := getPacketBuffer_ring cfg y.s none size hQ hR
    exact ⟨fifo_note cfg y _ _ _ hR r2 (getPacketBuffer_len_cases cfg y.s none size hQ hR) hF,
      hlog⟩
  | commit hd =>
    cases hd with
    | none =>
      simp only [step, Option.some.injEq] at h
      subst h
      exact ⟨hF, hlog⟩
    | some p =>
      simp only [step] at h
      split at h
      · simp at h
      · simp only [Option.some.injEq] at h
        subst h
        exact ⟨hF, hlog⟩
  | enter =>
    simp only [step] at h
    split at h
    · rename_i hidle
      simp only [Option.some.injEq] at h
      subst h
      rw [hidle] at hF
      exact ⟨hF, hlog⟩
    · simp at h
  | flush =>
    simp only [step] at h
    split at h
    · rename_i hidle
      simp only [Option.some.injEq] at h
      subst h
      rw [hidle] at hF
      obtain ⟨r2, hc⟩ := flushSeal_len_cases cfg y.s hQ hR
      exact ⟨fifo_note cfg y _ _ _ hR r2 hc hF, hlog⟩
    · simp at h
  | check =>
    simp only [step] at h
    split at h
    · rename_i hck
      rw [hck] at hF
      split at h <;>
      · simp only [Option.some.injEq] at h
        subst h
        exact ⟨hF, hlog⟩
    · simp at h
  | send =>
    simp only [step] at h
    split at h
    · rename_i b hb
      simp only [Option.some.injEq] at h
      subst h
      rw [hb] at hF
      obtain ⟨f1, f2, f3⟩ := hF
      obtain ⟨e1, e2⟩ := hpc b (by rw [hb]; exact (holds_send b b).2 rfl)
      have hrpQ := hR.2.1
      have hid := f2 0 (by omega)
      rw [slotAt_zero cfg _ hrpQ, ← e1] at hid
      refine ⟨⟨f1, f2, ?_⟩, ?_⟩
      · show y.sentIds ++ [y.allocId b] = List.range (y.nalloc - y.s.dto_queue_len + 1)
        rw [List.range_succ, f3]
        show List.range (y.nalloc - y.s.dto_queue_len + 0) ++ _ = _
        rw [Nat.add_zero]
        have hidb : y.allocId b = y.nalloc - y.s.dto_queue_len := by omega
        rw [hidb]
      · show (y.sent ++ [_]).length = (y.sentIds ++ [_]).length
        rw [List.length_append, List.length_append, hlog]
        rfl
    · simp at h
  | free =>
    simp only [step] at h
    split at h
    · rename_i b hb
      simp only [Option.some.injEq] at h
      subst h
      rw [hb] at hF
      obtain ⟨f1, f2, f3⟩ := hF
      obtain ⟨_, hl⟩ := hpc b (by rw [hb]; exact (holds_free b b).2 rfl)
      obtain ⟨_, e1, e2, _⟩ := freeBuffer_ring cfg y.s hQ hR hl
      refine ⟨⟨?_, ?_, ?_⟩, hlog⟩
      · show (freeBuffer cfg y.s).dto_queue_len ≤ y.nalloc
        omega
      · intro k hk
        show y.allocId (slotAt cfg (freeBuffer cfg y.s).dto_queue_rp k)
          + (freeBuffer cfg y.s).dto_queue_len = y.nalloc + k
        have hk' : k < (freeBuffer cfg y.s).dto_queue_len := hk
        rw [e1, e2, slotAt_slotAt]
        have := f2 (1 + k) (by omega)
        omega
      · show y.sentIds = List.range (y.nalloc - (freeBuffer cfg y.s).dto_queue_len + 0)
        rw [f3, e2]
        have e : y.nalloc - (y.s.dto_queue_len - 1) + 0 = y.nalloc - y.s.dto_queue_len + 1 := by
          omega
        rw [e]
        rfl
    · simp at h

theorem initSys_FifoInv (cfg : Config) (s0 : State) (hQ1 : 1 ≤ cfg.XCP_DAQ_QUEUE_SIZE) :
    FifoInv cfg (initSys cfg s0) := by
  obtain ⟨h1, h2, h3, h4, _⟩ := initDtoBufferQueue_spec cfg s0 hQ1
  refine ⟨⟨?_, ?_, ?_⟩, rfl⟩
  · show (initDtoBufferQueue cfg s0).dto_queue_len ≤ 1
    omega
  · intro k hk
    show 0 + (initDtoBufferQueue cfg s0).dto_queue_len = 1 + k
    have hk' : k < (initDtoBufferQueue cfg s0).dto_queue_len := hk
    omega
  · show ([] : List Nat) = List.range (1 - (initDtoBufferQueue cfg s0).dto_queue_len + 0)
    rw [h2]
    rfl

/-- C3: number the allocations of `getDtoBuffer` 0, 1, 2, ... from the one made by
`initDtoBufferQueue` on.  Whatever reservations, commits, flushes and drain steps
follow, the buffers sent are, in order, the allocations 0, 1, 2, ...: the n-th buffer
sent is the n-th allocated, none is skipped, none sent twice. -/
theorem transmit_in_allocation_order (cfg : Config) (s0 : State) (steps : List Step) (y : Sys)
    (hQ1 : 1 ≤ cfg.XCP_DAQ_QUEUE_SIZE) (hQ : cfg.XCP_DAQ_QUEUE_SIZE < 2147483648)
    (hrun : run cfg (initSys cfg s0) steps = some y) :
    y.sentIds = List.range y.sent.length ∧ y.sent.length ≤ y.nalloc := by
  have hboth : SysRing cfg y ∧ FifoInv cfg y :=
    run_induction cfg (fun y => SysRing cfg y ∧ FifoInv cfg y) (fun _ => True)
      (fun y st y1 _ h hinv =>
        ⟨step_SysRing cfg hQ y y1 st h hinv.1, step_FifoInv cfg hQ y y1 st h hinv.1 hinv.2⟩)
      steps _ _ (fun _ _ => trivial) hrun
      ⟨initSys_SysRing cfg s0 hQ1, initSys_FifoInv cfg s0 hQ1⟩
  obtain ⟨⟨hR, hpc⟩, ⟨f1, f2, f3⟩, hlog⟩ := hboth
  have hlen : y.sentIds.length = y.nalloc - y.s.dto_queue_len + sentAhead y.pc := by
    rw [f3, List.length_range]
  constructor
  · rw [hlog, hlen]
    exact f3
  · rw [hlog, hlen]
    cases hpcv : y.pc with
    | idle => show _ + 0 ≤ _; omega
    | check => show _ + 0 ≤ _; omega
    | send b => show _ + 0 ≤ _; omega
    | free b =>
      show _ + 1 ≤ _
      have := (hpc b (by rw [hpcv]; exact (holds_free b b).2 rfl)).2
      have := hR.2.2.1
      omega


/-! ## Runs: outstanding writers (C2) -/

theorem step_WriterInv (cfg : Config) (hQ : cfg.XCP_DAQ_QUEUE_SIZE < 2147483648)
    (hmtu : cfg.kXcpMaxMTU < 65536)
    (y y1 : Sys) (st : Step) (hok : st.sizeOk cfg) (h : step cfg y st = some y1)
    (hring : SysRing cfg y) (hinv : WriterInv cfg y) : WriterInv cfg y1 := by
  obtain ⟨hR, hpc⟩ := hring
  obtain ⟨⟨w1, w2⟩, w3⟩ := hinv
  have hRc := hR
  obtain ⟨hl, hrp, hl1, hl2, htl⟩ := hR
  cases st with
  | reserve size =>
    simp only [step, Option.some.injEq] at h
    subst h
    have hsz : size + XCP_MESSAGE_HEADER_SIZE ≤ cfg.kXcpMaxMTU := hok
    unfold XCP_MESSAGE_HEADER_SIZE at hsz
    rcases getPacketBuffer_cases cfg y.s none size hQ hRc with
      ⟨t, hp, hroom, hpar, e1, e2, _, _, e5, e6, e7⟩ |
      ⟨_, hlt, hpar, e1, e2, _, _, e5, e6, e7⟩ | ⟨_, _, hpar, _, e⟩
    · -- the message goes into the tail
      have ht := htl t hp
      obtain ⟨a1, a2, a3⟩ := w1 (y.s.dto_queue_len - 1) (by omega)
      rw [← ht] at a1 a2 a3
      unfold XCP_MESSAGE_HEADER_SIZE at hroom e5
      unfold u32 at hroom
      refine ⟨⟨?_, ?_⟩, ?_⟩
      · intro k hk
        show (bufAt (udpServerGetPacketBuffer cfg y.s none size).state _).xcp_uncommited
            = (match (udpServerGetPacketBuffer cfg y.s none size).par with
                | some h => fun j => if j = h then y.outstanding j + 1 else y.outstanding j
                | none => y.outstanding) _ ∧
          4 * (match (udpServerGetPacketBuffer cfg y.s none size).par with
                | some h => fun j => if j = h then y.outstanding j + 1 else y.outstanding j
                | none => y.outstanding) _
            ≤ (bufAt (udpServerGetPacketBuffer cfg y.s none size).state _).xcp_size ∧
          (bufAt (udpServerGetPacketBuffer cfg y.s none size).state _).xcp_size ≤ _
        have hk' : k < (udpServerGetPacketBuffer cfg y.s none size).state.dto_queue_len := hk
        rw [hpar, e1]
        rw [e2] at hk'
        by_cases hkt : slotAt cfg y.s.dto_queue_rp k = t
        · rw [hkt, e5, e6, a1]
          simp only [if_true]
          unfold u16 u32
          omega
        · rw [e7 _ hkt]
          simp only [hkt, if_false]
          exact w1 k hk'
      · intro j hj
        show ∃ k, k < (udpServerGetPacketBuffer cfg y.s none size).state.dto_queue_len ∧
          j = slotAt cfg (udpServerGetPacketBuffer cfg y.s none size).state.dto_queue_rp k
        have hj' : (match (udpServerGetPacketBuffer cfg y.s none size).par with
            | some h => fun j => if j = h then y.outstanding j + 1 else y.outstanding j
            | none => y.outstanding) j ≠ 0 := hj
        rw [hpar] at hj'
        rw [e1, e2]
        by_cases hjt : j = t
        · exact ⟨y.s.dto_queue_len - 1, by omega, hjt.trans ht⟩
        · simp only [hjt, if_false] at hj'
          exact w2 j hj'
      · intro b hb
        show (match (udpServerGetPacketBuffer cfg y.s none size).par with
            | some h => fun j => if j = h then y.outstanding j + 1 else y.outstanding j
            | none => y.outstanding) b = 0
        rw [hpar]
        obtain ⟨hb1, hb2⟩ := hpc b hb
        have hbt : b ≠ t := by
          intro hbt
          rw [hb1, ht] at hbt
          have := slotAt_inj cfg y.s.dto_queue_rp 0 (y.s.dto_queue_len - 1) hrp (by omega)
            (by omega) (by rw [slotAt_zero cfg _ hrp]; exact hbt)
          omega
        simp only [hbt, if_false]
        exact w3 b hb
    · -- the message goes into a new tail
      have hfree : y.outstanding (slotAt cfg y.s.dto_queue_rp y.s.dto_queue_len) = 0 := by
        by_contra hne
        obtain ⟨k, hk, hkeq⟩ := w2 _ hne
        have := slotAt_inj cfg y.s.dto_queue_rp _ _ hrp hlt (by omega) hkeq
        omega
      unfold XCP_MESSAGE_HEADER_SIZE at e5
      refine ⟨⟨?_, ?_⟩, ?_⟩
      · intro k hk
        show (bufAt (udpServerGetPacketBuffer cfg y.s none size).state _).xcp_uncommited
            = (match (udpServerGetPacketBuffer cfg y.s none size).par with
                | some h => fun j => if j = h then y.outstanding j + 1 else y.outstanding j
                | none => y.outstanding) _ ∧
          4 * (match (udpServerGetPacketBuffer cfg y.s none size).par with
                | some h => fun j => if j = h then y.outstanding j + 1 else y.outstanding j
                | none => y.outstanding) _
            ≤ (bufAt (udpServerGetPacketBuffer cfg y.s none size).state _).xcp_size ∧
          (bufAt (udpServerGetPacketBuffer cfg y.s none size).state _).xcp_size ≤ _
        have hk' : k < (udpServerGetPacketBuffer cfg y.s none size).state.dto_queue_len := hk
        rw [hpar, e1]
        rw [e2] at hk'
        by_cases hkl : k = y.s.dto_queue_len
        · rw [hkl, e5, e6]
          simp only [if_true]
          rw [hfree]
          unfold u16
          omega
        · have hne : slotAt cfg y.s.dto_queue_rp k ≠ slotAt cfg y.s.dto_queue_rp y.s.dto_queue_len :=
            fun hh => hkl (slotAt_inj cfg _ _ _ hrp (by omega) hlt hh)
          rw [e7 _ hne]
          simp only [hne, if_false]
          exact w1 k (by omega)
      · intro j hj
        show ∃ k, k < (udpServerGetPacketBuffer cfg y.s none size).state.dto_queue_len ∧
          j = slotAt cfg (udpServerGetPacketBuffer cfg y.s none size).state.dto_queue_rp k
        have hj' : (match (udpServerGetPacketBuffer cfg y.s none size).par with
            | some h => fun j => if j = h then y.outstanding j + 1 else y.outstanding j
            | none => y.outstanding) j ≠ 0 := hj
        rw [hpar] at hj'
        rw [e1, e2]
        by_cases hjt : j = slotAt cfg y.s.dto_queue_rp y.s.dto_queue_len
        · exact ⟨y.s.dto_queue_len, by omega, hjt⟩
        · simp only [hjt, if_false] at hj'
          obtain ⟨k, hk, hkeq⟩ := w2 j hj'
          exact ⟨k, by omega, hkeq⟩
      · intro b hb
        show (match (udpServerGetPacketBuffer cfg y.s none size).par with
            | some h => fun j => if j = h then y.outstanding j + 1 else y.outstanding j
            | none => y.outstanding) b = 0
        rw [hpar]
        obtain ⟨hb1, hb2⟩ := hpc b hb
        have hbt : b ≠ slotAt cfg y.s.dto_queue_rp y.s.dto_queue_len := by
          intro hbt
          rw [hb1] at hbt
          have := slotAt_inj cfg y.s.dto_queue_rp 0 y.s.dto_queue_len hrp (by omega)
            hlt (by rw [slotAt_zero cfg _ hrp]; exact hbt)
          omega
        simp only [hbt, if_false]
        exact w3 b hb
    · -- overflow
      have hout : (match (udpServerGetPacketBuffer cfg y.s none size).par with
            | some h => fun j => if j = h then y.outstanding j + 1 else y.outstanding j
            | none => y.outstanding) = y.outstanding := by
        rw [hpar]
      refine ⟨⟨?_, ?_⟩, ?_⟩
      · intro k hk
        show (bufAt (udpServerGetPacketBuffer cfg y.s none size).state _).xcp_uncommited
            = (match (udpServerGetPacketBuffer cfg y.s none size).par with
                | some h => fun j => if j = h then y.outstanding j + 1 else y.outstanding j
                | none => y.outstanding) _ ∧
          4 * (match (udpServerGetPacketBuffer cfg y.s none size).par with
                | some h => fun j => if j = h then y.outstanding j + 1 else y.outstanding j
                | none => y.outstanding) _
            ≤ (bufAt (udpServerGetPacketBuffer cfg y.s none size).state _).xcp_size ∧
          (bufAt (udpServerGetPacketBuffer cfg y.s none size).state _).xcp_size ≤ _
        have hk' : k < (udpServerGetPacketBuffer cfg y.s none size).state.dto_queue_len := hk
        rw [hout]
        rw [e] at hk' ⊢
        exact w1 k hk'
      · intro j hj
        show ∃ k, k < (udpServerGetPacketBuffer cfg y.s none size).state.dto_queue_len ∧
          j = slotAt cfg (udpServerGetPacketBuffer cfg y.s none size).state.dto_queue_rp k
        have hj' : (match (udpServerGetPacketBuffer cfg y.s none size).par with
            | some h => fun j => if j = h then y.outstanding j + 1 else y.outstanding j
            | none => y.outstanding) j ≠ 0 := hj
        rw [hout] at hj'
        rw [e]
        exact w2 j hj'
      · intro b hb
        show (match (udpServerGetPacketBuffer cfg y.s none size).par with
            | some h => fun j => if j = h then y.outstanding j + 1 else y.outstanding j
            | none => y.outstanding) b = 0
        rw [hout]
        exact w3 b hb
  | commit hd =>
    cases hd with
    | none =>
      simp only [step, Option.some.injEq] at h
      subst h
      exact ⟨⟨w1, w2⟩, w3⟩
    | some p =>
      simp only [step] at h
      split at h
      · simp at h
      · rename_i hout
        simp only [Option.some.injEq] at h
        subst h
        obtain ⟨k0, hk0, hpk⟩ := w2 p hout
        obtain ⟨c1, c2, _, _, c5⟩ := commit_spec y.s p
        obtain ⟨a1, a2, a3⟩ := w1 k0 hk0
        rw [← hpk] at a1 a2 a3
        have hpin : p < y.s.dto_queue.length := by
          rw [hpk, hl]; exact slotAt_lt cfg _ _ hrp
        refine ⟨⟨?_, ?_⟩, ?_⟩
        · intro k hk
          show (bufAt (udpServerCommitPacketBuffer y.s (some p))
                (slotAt cfg (udpServerCommitPacketBuffer y.s (some p)).dto_queue_rp k)).xcp_uncommited
              = (if slotAt cfg (udpServerCommitPacketBuffer y.s (some p)).dto_queue_rp k = p
                  then y.outstanding _ - 1 else y.outstanding _) ∧
            4 * (if slotAt cfg (udpServerCommitPacketBuffer y.s (some p)).dto_queue_rp k = p
                  then y.outstanding _ - 1 else y.outstanding _)
              ≤ (bufAt (udpServerCommitPacketBuffer y.s (some p))
                  (slotAt cfg (udpServerCommitPacketBuffer y.s (some p)).dto_queue_rp k)).xcp_size ∧
            (bufAt (udpServerCommitPacketBuffer y.s (some p))
                  (slotAt cfg (udpServerCommitPacketBuffer y.s (some p)).dto_queue_rp k)).xcp_size ≤ _
          have hk' : k < (udpServerCommitPacketBuffer y.s (some p)).dto_queue_len := hk
          rw [c2] at hk'
          rw [c1, c5]
          by_cases hkp : slotAt cfg y.s.dto_queue_rp k = p
          · rw [if_pos ⟨hkp.symm, hpin⟩, if_pos hkp, hkp]
            show u32 _ = _ ∧ _ ≤ (bufAt y.s p).xcp_size ∧ (bufAt y.s p).xcp_size ≤ _
            rw [a1]
            unfold u32
            omega
          · rw [if_neg (fun hh => hkp hh.1.symm), if_neg hkp]
            exact w1 k hk'
        · intro j hj
          show ∃ k, k < (udpServerCommitPacketBuffer y.s (some p)).dto_queue_len ∧
            j = slotAt cfg (udpServerCommitPacketBuffer y.s (some p)).dto_queue_rp k
          have hj' : (if j = p then y.outstanding j - 1 else y.outstanding j) ≠ 0 := hj
          rw [c1, c2]
          apply w2
          split at hj' <;> omega
        · intro b hb
          show (if b = p then y.outstanding b - 1 else y.outstanding b) = 0
          have := w3 b hb
          split <;> omega
  | enter =>
    simp only [step] at h
    split at h
    · simp only [Option.some.injEq] at h
      subst h
      exact ⟨⟨w1, w2⟩, fun b hb => absurd hb (not_holds_check b)⟩
    · simp at h
  | flush =>
    simp only [step] at h
    split at h
    · simp only [Option.some.injEq] at h
      subst h
      refine ⟨?_, fun b hb => absurd hb (not_holds_check b)⟩
      show WriterCore cfg (flushSeal cfg y.s) y.outstanding
      rcases flushSeal_cases cfg y.s with hs | ⟨hs, _⟩
      · rw [hs]; exact ⟨w1, w2⟩
      · rw [hs]
        by_cases hfull : cfg.XCP_DAQ_QUEUE_SIZE ≤ y.s.dto_queue_len
        · rw [getDtoBuffer_full cfg y.s hfull]
          exact ⟨w1, w2⟩
        · have hlt : y.s.dto_queue_len < cfg.XCP_DAQ_QUEUE_SIZE := by omega
          obtain ⟨e1, e2, _, _, e5, e6, e7⟩ := getDtoBuffer_alloc_spec cfg y.s hQ hRc hlt
          have hfree : y.outstanding (slotAt cfg y.s.dto_queue_rp y.s.dto_queue_len) = 0 := by
            by_contra hne
            obtain ⟨k, hk, hkeq⟩ := w2 _ hne
            have := slotAt_inj cfg y.s.dto_queue_rp _ _ hrp hlt (by omega) hkeq
            omega
          refine ⟨?_, ?_⟩
          · intro k hk
            rw [e2] at hk
            rw [e1]
            by_cases hkl : k = y.s.dto_queue_len
            · rw [hkl, e5, e6, hfree]
              omega
            · have hne : slotAt cfg y.s.dto_queue_rp k
                  ≠ slotAt cfg y.s.dto_queue_rp y.s.dto_queue_len :=
                fun hh => hkl (slotAt_inj cfg _ _ _ hrp (by omega) hlt hh)
              rw [e7 _ hne]
              exact w1 k (by omega)
          · intro j hj
            rw [e1, e2]
            obtain ⟨k, hk, hkeq⟩ := w2 j hj
            exact ⟨k, by omega, hkeq⟩
    · simp at h
  | check =>
    simp only [step] at h
    split at h
    · split at h
      · rename_i b hc
        simp only [Option.some.injEq] at h
        subst h
        refine ⟨⟨w1, w2⟩, fun c hcb => ?_⟩
        have hcb' : c = b := (holds_send b c).1 hcb
        subst hcb'
        obtain ⟨e1, e2, e3⟩ := checkReady_some y.s c hc
        obtain ⟨a1, _, _⟩ := w1 0 (by omega)
        rw [slotAt_zero cfg _ hrp, ← e1] at a1
        show y.outstanding c = 0
        rw [← a1, e1]
        exact e3
      · simp only [Option.some.injEq] at h
        subst h
        exact ⟨⟨w1, w2⟩, fun b hb => absurd hb (not_holds_idle b)⟩
    · simp at h
  | send =>
    simp only [step] at h
    split at h
    · rename_i b hb
      simp only [Option.some.injEq] at h
      subst h
      refine ⟨⟨w1, w2⟩, fun c hcb => ?_⟩
      have hcb' : c = b := (holds_free b c).1 hcb
      subst hcb'
      exact w3 c (by rw [hb]; exact (holds_send c c).2 rfl)
    · simp at h
  | free =>
    simp only [step] at h
    split at h
    · rename_i b hb
      simp only [Option.some.injEq] at h
      subst h
      have hhold : holds y.pc b := by rw [hb]; exact (holds_free b b).2 rfl
      obtain ⟨hb1, hlen⟩ := hpc b hhold
      have hb0 := w3 b hhold
      obtain ⟨_, e1, e2, e3⟩ := freeBuffer_ring cfg y.s hQ hRc hlen
      have hbuf : ∀ j, bufAt (freeBuffer cfg y.s) j = bufAt y.s j :=
        fun j => bufAt_of_queue_eq y.s _ e3 j
      refine ⟨⟨?_, ?_⟩, fun c hc => absurd hc (not_holds_check c)⟩
      · intro k hk
        show (bufAt (freeBuffer cfg y.s) (slotAt cfg (freeBuffer cfg y.s).dto_queue_rp k)).xcp_uncommited
            = y.outstanding (slotAt cfg (freeBuffer cfg y.s).dto_queue_rp k) ∧
          4 * y.outstanding (slotAt cfg (freeBuffer cfg y.s).dto_queue_rp k)
            ≤ (bufAt (freeBuffer cfg y.s) (slotAt cfg (freeBuffer cfg y.s).dto_queue_rp k)).xcp_size ∧
          (bufAt (freeBuffer cfg y.s) (slotAt cfg (freeBuffer cfg y.s).dto_queue_rp k)).xcp_size ≤ _
        have hk' : k < (freeBuffer cfg y.s).dto_queue_len := hk
        rw [e2] at hk'
        rw [hbuf, e1, slotAt_slotAt]
        exact w1 (1 + k) (by omega)
      · intro j hj
        show ∃ k, k < (freeBuffer cfg y.s).dto_queue_len ∧
          j = slotAt cfg (freeBuffer cfg y.s).dto_queue_rp k
        have hj' : y.outstanding j ≠ 0 := hj
        obtain ⟨k, hk, hkeq⟩ := w2 j hj'
        have hk0 : k ≠ 0 := by
          intro hk0
          rw [hk0, slotAt_zero cfg _ hrp, ← hb1] at hkeq
          rw [hkeq] at hj'
          exact hj' hb0
        refine ⟨k - 1, by rw [e2]; omega, ?_⟩
        have e : 1 + (k - 1) = k := by omega
        rw [e1, slotAt_slotAt, hkeq, e]
    · simp at h


theorem initSys_WriterInv (cfg : Config) (s0 : State) (hQ1 : 1 ≤ cfg.XCP_DAQ_QUEUE_SIZE) :
    WriterInv cfg (initSys cfg s0) := by
  obtain ⟨h1, h2, _, _, _⟩ := initDtoBufferQueue_spec cfg s0 hQ1
  refine ⟨⟨?_, fun j hj => absurd rfl hj⟩, fun b _ => rfl⟩
  intro k hk
  have hk' : k < (initDtoBufferQueue cfg s0).dto_queue_len := hk
  show (bufAt (initDtoBufferQueue cfg s0) (slotAt cfg (initDtoBufferQueue cfg s0).dto_queue_rp k)).xcp_uncommited
      = 0 ∧
    4 * 0 ≤ (bufAt (initDtoBufferQueue cfg s0)
      (slotAt cfg (initDtoBufferQueue cfg s0).dto_queue_rp k)).xcp_size ∧
    (bufAt (initDtoBufferQueue cfg s0)
      (slotAt cfg (initDtoBufferQueue cfg s0).dto_queue_rp k)).xcp_size ≤ cfg.kXcpMaxMTU
  rw [initDtoBufferQueue_bufAt cfg s0 hQ1 _ (slotAt_lt cfg _ _ (by rw [h1]; omega))]
  exact ⟨rfl, Nat.zero_le _, Nat.zero_le _⟩

/-- A successful reservation never lands in the head of a queue that has more than
one entry in use. -/
theorem getPacketBuffer_not_head (cfg : Config) (s : State) (par : Option Nat) (size : Nat)
    (hQ : cfg.XCP_DAQ_QUEUE_SIZE < 2147483648) (hR : Ring cfg s)
    (hlen : 1 < s.dto_queue_len) (hret : (udpServerGetPacketBuffer cfg s par size).ret ≠ none) :
    (udpServerGetPacketBuffer cfg s par size).par ≠ some s.dto_queue_rp := by
  have hRc := hR
  obtain ⟨hl, hrp, hl1, hl2, htl⟩ := hR
  rcases getPacketBuffer_cases cfg s par size hQ hRc with
    ⟨t, hp, _, hpar, _⟩ | ⟨_, hlt, hpar, _⟩ | ⟨_, _, _, hnone, _⟩
  · rw [hpar, htl t hp]
    intro hh
    simp only [Option.some.injEq] at hh
    have := slotAt_inj cfg s.dto_queue_rp (s.dto_queue_len - 1) 0 hrp (by omega) (by omega)
      (by rw [slotAt_zero cfg _ hrp]; exact hh)
    omega
  · rw [hpar]
    intro hh
    simp only [Option.some.injEq] at hh
    have := slotAt_inj cfg s.dto_queue_rp s.dto_queue_len 0 hrp hlt (by omega)
      (by rw [slotAt_zero cfg _ hrp]; exact hh)
    omega
  · exact absurd hnone hret

/-- C2 (amended): in every run from `initDtoBufferQueue` that interleaves reservations
of sizes with `size + XCP_MESSAGE_HEADER_SIZE ≤ kXcpMaxMTU`, commits of outstanding
handles, flushes and the check / send / free steps of the transmit loop: while the
consumer holds a buffer `b` (selected as ready, its slot not yet freed), no handle for
`b` is outstanding and `xcp_uncommited` of `b` is zero, so `b` is transmitted without
outstanding writer, and a reservation of any size made in that state does not land in
`b`. -/
theorem no_send_with_outstanding_writer (cfg : Config) (s0 : State) (steps : List Step)
    (y : Sys) (b : Nat)
    (hQ1 : 1 ≤ cfg.XCP_DAQ_QUEUE_SIZE) (hQ : cfg.XCP_DAQ_QUEUE_SIZE < 2147483648)
    (hmtu : cfg.kXcpMaxMTU < 65536)
    (hsz : ∀ st ∈ steps, st.sizeOk cfg)
    (hrun : run cfg (initSys cfg s0) steps = some y)
    (hb : holds y.pc b) :
    y.outstanding b = 0 ∧
    (bufAt y.s b).xcp_uncommited = 0 ∧
    (∀ size, (udpServerGetPacketBuffer cfg y.s none size).ret ≠ none →
      (udpServerGetPacketBuffer cfg y.s none size).par ≠ some b) := by
  have hboth : SysRing cfg y ∧ WriterInv cfg y :=
    run_induction cfg (fun y => SysRing cfg y ∧ WriterInv cfg y) (fun st => st.sizeOk cfg)
      (fun y st y1 hok h hinv =>
        ⟨step_SysRing cfg hQ y y1 st h hinv.1,
          step_WriterInv cfg hQ hmtu y y1 st hok h hinv.1 hinv.2⟩)
      steps _ _ hsz hrun
      ⟨initSys_SysRing cfg s0 hQ1, initSys_WriterInv cfg s0 hQ1⟩
  obtain ⟨⟨hR, hpc⟩, ⟨w1, _⟩, w3⟩ := hboth
  obtain ⟨hb1, hb2⟩ := hpc b hb
  have hout := w3 b hb
  refine ⟨hout, ?_, ?_⟩
  · obtain ⟨a1, _, _⟩ := w1 0 (by omega)
    rw [slotAt_zero cfg _ hR.2.1, ← hb1] at a1
    rw [a1, hout]
  · intro size hret
    rw [hb1]
    exact getPacketBuffer_not_head cfg y.s none size hQ hR hb2 hret


/-! ## A run in which `xcp_uncommited` wraps round (C2 as stated) -/

theorem run_append (cfg : Config) (a b : List Step) : ∀ y : Sys,
    run cfg y (a ++ b) = match run cfg y a with
      | some y1 => run cfg y1 b
      | none => none := by
  induction a with
  | nil => intro y; rfl
  | cons st rest ih =>
    intro y
    simp only [List.cons_append, run]
    cases step cfg y st with
    | none => rfl
    | some y2 => exact ih y2

theorem step_reserve_eq (cfg : Config) (y : Sys) (size : Nat) :
    ∃ y1, step cfg y (.reserve size) = some y1 ∧
      y1.s = (udpServerGetPacketBuffer cfg y.s none size).state ∧
      y1.pc = y.pc ∧ y1.sent = y.sent ∧
      y1.outstanding = (match (udpServerGetPacketBuffer cfg y.s none size).par with
        | some h => fun j => if j = h then y.outstanding j + 1 else y.outstanding j
        | none => y.outstanding) :=
  ⟨_, rfl, rfl, rfl, rfl, rfl⟩

theorem run_cons_some (cfg : Config) (y y1 : Sys) (st : Step) (rest : List Step)
    (h : step cfg y st = some y1) : run cfg y (st :: rest) = run cfg y1 rest := by
  simp only [run, h]

theorem step_enter_eq (cfg : Config) (y : Sys) (h : y.pc = .idle) :
    step cfg y .enter = some { y with pc := .check } := by
  simp only [step, h]

theorem step_check_eq (cfg : Config) (y : Sys) (b : Nat) (h : y.pc = .check)
    (hc : checkReady y.s = some b) :
    step cfg y .check = some { y with pc := .send b } := by
  simp only [step, h, hc]

theorem step_send_eq (cfg : Config) (y : Sys) (b : Nat) (h : y.pc = .send b) :
    step cfg y .send = some { y with
      sent := y.sent ++ [sendBuffer y.s b]
      sentIds := y.sentIds ++ [y.allocId b]
      pc := .free b } := by
  simp only [step, h]

theorem wrapped_init : Wrapped 0 (initSys smallCfg startState) := by
  unfold Wrapped
  decide

theorem wrapped_ring (n : Nat) (y : Sys) (h : Wrapped n y) : Ring smallCfg y.s := by
  obtain ⟨_, _, hptr, hrp, hlen, hql, _, _, _⟩ := h
  refine ⟨hql, by rw [hrp]; decide, by omega, by rw [hlen]; decide, ?_⟩
  intro t ht
  rw [hptr] at ht
  rw [hrp, hlen]
  simp only [Option.some.injEq] at ht
  rw [← ht]
  rfl

theorem wrapped_step (n : Nat) (y : Sys) (h : Wrapped n y) :
    ∃ y1, step smallCfg y (.reserve 4294967292) = some y1 ∧ Wrapped (n + 1) y1 := by
  obtain ⟨hpc, hsent, hptr, hrp, hlen, hql, hsize, hunc, hout⟩ := h
  obtain ⟨y1, hstep, hs, hpc1, hsent1, hout1⟩ := step_reserve_eq smallCfg y 4294967292
  refine ⟨y1, hstep, ?_⟩
  have hneed : needDtoBuffer smallCfg y.s 4294967292 = false := by
    unfold needDtoBuffer
    rw [hptr]
    simp only [decide_eq_false_iff_not]
    rw [hsize]
    decide
  have hs1 : y.s = if needDtoBuffer smallCfg y.s 4294967292 then getDtoBuffer smallCfg y.s
      else y.s := by
    rw [hneed]; rfl
  obtain ⟨hq', hrp', hlen', hptr', _, hpar, _, _⟩ :=
    getPacketBuffer_some_spec smallCfg y.s y.s none 4294967292 0 hs1 hptr
  have hb := bufAt_of_queue y.s _ 0 _ hq' 0
  rw [if_pos ⟨rfl, by omega⟩] at hb
  rw [← hs] at hq' hrp' hlen' hptr' hb
  refine ⟨hpc1.trans hpc, hsent1.trans hsent, hptr', hrp'.trans hrp, hlen'.trans hlen,
    by rw [hq', List.length_set]; exact hql, ?_, ?_, ?_⟩
  · rw [hb]
    show u16 ((bufAt y.s 0).xcp_size + 4294967292 + XCP_MESSAGE_HEADER_SIZE) = 0
    rw [hsize]
    decide
  · rw [hb]
    show u32 ((bufAt y.s 0).xcp_uncommited + 1) = (n + 1) % 4294967296
    rw [hunc]
    unfold u32
    omega
  · rw [hout1, hpar]
    show (if 0 = 0 then y.outstanding 0 + 1 else y.outstanding 0) = n + 1
    rw [if_pos rfl, hout]

theorem wrapped_run (n : Nat) : ∀ (k : Nat) (y : Sys), Wrapped k y →
    ∃ y1, run smallCfg y (List.replicate n (Step.reserve 4294967292)) = some y1 ∧
      Wrapped (k + n) y1 := by
  induction n with
  | zero => intro k y h; exact ⟨y, rfl, h⟩
  | succ n ih =>
    intro k y h
    obtain ⟨y1, hstep, h1⟩ := wrapped_step k y h
    obtain ⟨y2, hrun, h2⟩ := ih (k + 1) y1 h1
    refine ⟨y2, ?_, ?_⟩
    · rw [List.replicate_succ]
      simp only [run, hstep]
      exact hrun
    · have e : k + (n + 1) = k + 1 + n := by omega
      rw [e]
      exact h2

theorem wrapped_send (n : Nat) (y : Sys) (h : Wrapped n y) (hn : n % 4294967296 = 0) :
    ∃ y1, run smallCfg y [Step.reserve 12, Step.enter, Step.check, Step.send] = some y1 ∧
      y1.sent.map (fun d => d.slot) = [0] ∧ y1.outstanding 0 = n := by
  have hR := wrapped_ring n y h
  obtain ⟨hpc, hsent, hptr, hrp, hlen, hql, hsize, hunc, hout⟩ := h
  obtain ⟨y1, hstep, hs, hpc1, hsent1, hout1⟩ := step_reserve_eq smallCfg y 12
  have hfacts : y1.s.dto_queue_rp = 0 ∧ y1.s.dto_queue_len = 2 ∧
      (bufAt y1.s 0).xcp_uncommited = 0 ∧ y1.outstanding 0 = n := by
    rw [hs, hout1]
    rcases getPacketBuffer_cases smallCfg y.s none 12 (by decide) hR with
      ⟨t, hp, hroom, _⟩ | ⟨_, _, hpar, e1, e2, _, _, _, _, e7⟩ | ⟨_, hfull, _⟩
    · exfalso
      rw [hptr] at hp
      simp only [Option.some.injEq] at hp
      rw [← hp, hsize] at hroom
      revert hroom
      decide
    · rw [hrp, hlen] at hpar e7
      have hslot : slotAt smallCfg 0 1 = 1 := rfl
      rw [hslot] at hpar e7
      refine ⟨e1.trans hrp, by rw [e2, hlen], ?_, ?_⟩
      · rw [e7 0 (by omega), hunc, hn]
      · rw [hpar]
        show (if 0 = 1 then y.outstanding 0 + 1 else y.outstanding 0) = n
        rw [if_neg (by omega), hout]
    · exfalso
      rw [hlen] at hfull
      revert hfull
      decide
  obtain ⟨f1, f2, f3, f4⟩ := hfacts
  have hcheck : checkReady y1.s = some 0 := by
    unfold checkReady
    rw [f2, f1, f3]
    rfl
  have hpcidle : y1.pc = .idle := hpc1.trans hpc
  refine ⟨{ y1 with
      sent := y1.sent ++ [sendBuffer y1.s 0]
      sentIds := y1.sentIds ++ [y1.allocId 0]
      pc := .free 0 }, ?_, ?_, f4⟩
  · rw [run_cons_some _ _ _ _ _ hstep,
      run_cons_some _ _ _ _ _ (step_enter_eq smallCfg y1 hpcidle),
      run_cons_some _ _ _ _ _ (step_check_eq smallCfg { y1 with pc := .check } 0 rfl hcheck),
      run_cons_some _ _ _ _ _
        (step_send_eq smallCfg { y1 with pc := .send 0 } 0 rfl)]
    rfl
  · show (y1.sent ++ [sendBuffer y1.s 0]).map (fun d => d.slot) = [0]
    rw [hsent1, hsent]
    rfl

/-- C2 as stated fails: on the small queue, `2^32` reservations of `2^32 - 4` bytes all
land in slot 0 without moving its `xcp_size` (the sum of line 193 wraps round to 0)
and bring its `xcp_uncommited` back to 0; after one more reservation has opened a
new tail, the consumer finds slot 0 ready and sends it, with `2^32` handles for it
outstanding. -/
theorem uncommited_wraps_and_buffer_is_sent :
    (run smallCfg (initSys smallCfg startState)
      (List.replicate 4294967296 (Step.reserve 4294967292)
        ++ [Step.reserve 12, Step.enter, Step.check, Step.send])).map
      (fun y => (y.sent.map (fun d => d.slot), y.outstanding 0))
    = some ([0], 4294967296) := by
  obtain ⟨y1, hrun1, hw⟩ := wrapped_run 4294967296 0 _ wrapped_init
  obtain ⟨y2, hrun2, hsent, hout⟩ := wrapped_send _ y1 hw (by decide)
  rw [run_append, hrun1]
  show (run smallCfg y1 [Step.reserve 12, Step.enter, Step.check, Step.send]).map _ = _
  rw [hrun2]
  show some (y2.sent.map (fun d => d.slot), y2.outstanding 0) = _
  rw [hsent, hout]


/-! ## Concrete instances -/

theorem run_eq_some_runD (cfg : Config) (y : Sys) (steps : List Step)
    (h : (run cfg y steps).isSome = true) : run cfg y steps = some (runD cfg y steps) := by
  unfold runD
  cases hr : run cfg y steps with
  | none => rw [hr] at h; simp at h
  | some y1 => rfl

/-- C5 as stated fails at the largest value of the counter: with `xcp_uncommited` of
the tail at `2^32 - 1` and room for a message of eight bytes, the reservation succeeds
and leaves `xcp_uncommited` at 0, not at `2^32`. -/
theorem uncommited_increment_wraps :
    saturatedTail.dto_buffer_ptr = some 0 ∧
    (bufAt saturatedTail 0).xcp_size + 8 + XCP_MESSAGE_HEADER_SIZE ≤ exampleCfg.kXcpMaxMTU ∧
    (bufAt saturatedTail 0).xcp_uncommited = 4294967295 ∧
    (udpServerGetPacketBuffer exampleCfg saturatedTail none 8).ret = some (0, 4) ∧
    (bufAt (udpServerGetPacketBuffer exampleCfg saturatedTail none 8).state 0).xcp_uncommited = 0 ∧
    (bufAt (udpServerGetPacketBuffer exampleCfg saturatedTail none 8).state 0).xcp_uncommited
      ≠ (bufAt saturatedTail 0).xcp_uncommited + 1 := by
  decide

/-- C5 (amended), instance: a reservation of 30 bytes on the fresh queue of
`exampleCfg`. -/
theorem getPacketBuffer_fits_witness :
    (initDtoBufferQueue exampleCfg startState).dto_buffer_ptr = some 0 ∧
    (bufAt (initDtoBufferQueue exampleCfg startState) 0).xcp_size + 30
      + XCP_MESSAGE_HEADER_SIZE ≤ exampleCfg.kXcpMaxMTU ∧
    (udpServerGetPacketBuffer exampleCfg (initDtoBufferQueue exampleCfg startState)
      none 30).ret = some (0, 4) ∧
    (bufAt (udpServerGetPacketBuffer exampleCfg (initDtoBufferQueue exampleCfg startState)
      none 30).state 0).xcp_size = 34 ∧
    (bufAt (udpServerGetPacketBuffer exampleCfg (initDtoBufferQueue exampleCfg startState)
      none 30).state 0).xcp_uncommited = 1 :=
  have h := getPacketBuffer_fits exampleCfg (initDtoBufferQueue exampleCfg startState) none 30 0
    (by decide) (by decide) (by decide) (by decide) (by decide) (by decide) (by decide)
  ⟨by decide, by decide, h.2.2.1, h.2.2.2.2.1, h.2.2.2.2.2.1⟩

/-- C6, instance: a reservation of eight bytes on the full small queue, the caller's
handle variable holding 7. -/
theorem getPacketBuffer_overflow_witness :
    fullCommitted.dto_queue_len = smallCfg.XCP_DAQ_QUEUE_SIZE ∧
    fullCommitted.dto_buffer_ptr = some 1 ∧
    (udpServerGetPacketBuffer smallCfg fullCommitted (some 7) 8).ret = none ∧
    (udpServerGetPacketBuffer smallCfg fullCommitted (some 7) 8).par = some 7 ∧
    (udpServerGetPacketBuffer smallCfg fullCommitted (some 7) 8).state
      = { fullCommitted with dto_buffer_ptr := none } :=
  have h := getPacketBuffer_overflow smallCfg fullCommitted (some 7) 8 (by decide)
    (Or.inr ⟨1, by decide, by decide⟩)
  ⟨by decide, by decide, h.1, h.2.1, h.2.2.1⟩

/-- C7, instance: the full small queue with both buffers committed; the loop sends
slot 0 and stops at the newest buffer. -/
theorem handleTransmitQueue_sends_ready_buffers_witness :
    fullCommitted.dto_queue_rp < smallCfg.XCP_DAQ_QUEUE_SIZE ∧
    fullCommitted.dto_queue_len ≤ smallCfg.XCP_DAQ_QUEUE_SIZE ∧
    (udpServerHandleTransmitQueue smallCfg fullCommitted).map
        (fun r => (r.1.dto_queue_rp, r.1.dto_queue_len, r.2.map (fun d => d.slot)))
      = some (1, 1, [0]) ∧
    (∃ k, k ≤ fullCommitted.dto_queue_len - 1 ∧
      (∀ j, j < k →
        (bufAt fullCommitted (slotAt smallCfg fullCommitted.dto_queue_rp j)).xcp_uncommited = 0) ∧
      (k + 1 < fullCommitted.dto_queue_len →
        0 < (bufAt fullCommitted (slotAt smallCfg fullCommitted.dto_queue_rp k)).xcp_uncommited) ∧
      udpServerHandleTransmitQueue smallCfg fullCommitted =
        some ({ fullCommitted with
                dto_queue_rp := (fullCommitted.dto_queue_rp + k) % smallCfg.XCP_DAQ_QUEUE_SIZE
                dto_queue_len := fullCommitted.dto_queue_len - k },
              (List.range k).map
                (fun j => sendBuffer fullCommitted (slotAt smallCfg fullCommitted.dto_queue_rp j)))) :=
  ⟨by decide, by decide, by decide,
    (handleTransmitQueue_sends_ready_buffers smallCfg fullCommitted (by decide) (by decide)
      (by decide)).1⟩

/-- C9, instance: the full small queue after a failed reservation; after the drain the
next reservation lands at offset 0 of slot 0. -/
theorem slot_reuse_after_overflow_witness :
    (udpServerGetPacketBuffer smallCfg fullCommitted none 8).ret = none ∧
    fullOverflowed.dto_queue_len = smallCfg.XCP_DAQ_QUEUE_SIZE ∧
    (bufAt fullOverflowed fullOverflowed.dto_queue_rp).xcp_uncommited = 0 ∧
    (∃ s1 out, udpServerHandleTransmitQueue smallCfg fullOverflowed = some (s1, out) ∧
      out.head? = some (sendBuffer fullOverflowed fullOverflowed.dto_queue_rp) ∧
      (udpServerGetPacketBuffer smallCfg s1 none 8).ret
        = some (fullOverflowed.dto_queue_rp, 0 + XCP_MESSAGE_HEADER_SIZE) ∧
      (udpServerGetPacketBuffer smallCfg s1 none 8).par = some fullOverflowed.dto_queue_rp ∧
      (udpServerGetPacketBuffer smallCfg s1 none 8).state.dto_buffer_ptr
        = some fullOverflowed.dto_queue_rp) :=
  ⟨by decide, by decide, by decide,
    slot_reuse_after_overflow smallCfg fullCommitted fullOverflowed none none 8 8
      (by decide) (by decide) rfl (by decide) (by decide) (by decide) (by decide)⟩

/-- C10, instance: four entries of 100 bytes, three reservations of 30 bytes leave two
messages in buffer 0 and one in buffer 1. -/
theorem packing_layout_witness :
    exampleCfg.kXcpMaxMTU / (30 + XCP_MESSAGE_HEADER_SIZE) = 2 ∧
    (bufAt (reserveState exampleCfg 30 3 (initDtoBufferQueue exampleCfg startState)) 0).xcp_uncommited
      = 2 ∧
    (bufAt (reserveState exampleCfg 30 3 (initDtoBufferQueue exampleCfg startState)) 1).xcp_uncommited
      = 1 ∧
    (udpServerGetPacketBuffer exampleCfg
        (reserveState exampleCfg 30 2 (initDtoBufferQueue exampleCfg startState)) none 30).ret
      = some (1, 4) ∧
    (∀ j, j < exampleCfg.XCP_DAQ_QUEUE_SIZE →
      (bufAt (reserveState exampleCfg 30 3 (initDtoBufferQueue exampleCfg startState)) j).xcp_uncommited
        = messagesIn (exampleCfg.kXcpMaxMTU / (30 + XCP_MESSAGE_HEADER_SIZE)) 3 j) :=
  ⟨by decide, by decide, by decide, by decide,
    (packing_layout exampleCfg startState 30 3 (by decide) (by decide) (by decide)
      (by decide)).2⟩

/-- C3, instance: the run `sampleSteps` sends slot 0 and then slot 1, which are the
allocations 0 and 1. -/
theorem transmit_in_allocation_order_witness :
    run smallCfg (initSys smallCfg startState) sampleSteps
      = some (runD smallCfg (initSys smallCfg startState) sampleSteps) ∧
    (runD smallCfg (initSys smallCfg startState) sampleSteps).sent.map (fun d => d.slot) = [0, 1] ∧
    (runD smallCfg (initSys smallCfg startState) sampleSteps).nalloc = 3 ∧
    (runD smallCfg (initSys smallCfg startState) sampleSteps).sentIds
      = List.range (runD smallCfg (initSys smallCfg startState) sampleSteps).sent.length :=
  ⟨run_eq_some_runD _ _ _ (by decide), by decide, by decide,
    (transmit_in_allocation_order smallCfg startState sampleSteps _ (by decide) (by decide)
      (run_eq_some_runD _ _ _ (by decide))).1⟩

/-- C4, instance: the run `sampleSteps` from a counter of 65535 has three successful
reservations and one failing one; the counters handed out are 65535, 0, 1. -/
theorem reservation_counter_sequence_witness :
    lateCounter.gXcpTl.LastResCtr = 65535 ∧
    run smallCfg (sysOf lateCounter) sampleSteps
      = some (runD smallCfg (sysOf lateCounter) sampleSteps) ∧
    (runD smallCfg (sysOf lateCounter) sampleSteps).ctrs = [65535, 0, 1] ∧
    (runD smallCfg (sysOf lateCounter) sampleSteps).s.gXcpTl.LastResCtr
      = (65535 + (runD smallCfg (sysOf lateCounter) sampleSteps).ctrs.length) % 65536 :=
  ⟨rfl, run_eq_some_runD _ _ _ (by decide), by decide,
    (reservation_counter_sequence smallCfg lateCounter 65535 sampleSteps _ rfl (by decide)
      (run_eq_some_runD _ _ _ (by decide))).2.1⟩

/-- C2 (amended), instance: in the run `selectSteps` the consumer has selected slot 0
while a handle for slot 1 is outstanding. -/
theorem no_send_with_outstanding_writer_witness :
    run smallCfg (initSys smallCfg startState) selectSteps
      = some (runD smallCfg (initSys smallCfg startState) selectSteps) ∧
    (runD smallCfg (initSys smallCfg startState) selectSteps).pc = .send 0 ∧
    (runD smallCfg (initSys smallCfg startState) selectSteps).outstanding 1 = 1 ∧
    (runD smallCfg (initSys smallCfg startState) selectSteps).outstanding 0 = 0 ∧
    (bufAt (runD smallCfg (initSys smallCfg startState) selectSteps).s 0).xcp_uncommited = 0 :=
  have h := no_send_with_outstanding_writer smallCfg startState selectSteps _ 0
    (by decide) (by decide) (by decide) (by decide) (run_eq_some_runD _ _ _ (by decide))
    (Or.inl (by decide))
  ⟨run_eq_some_runD _ _ _ (by decide), by decide, by decide, h.1, h.2.1⟩


/-! ## The queue invariant (C11) and the fresh queue (C15) -/

/-- C11 (amended): in every state reached from `initDtoBufferQueue` by reservations,
commits, flushes and the steps of the transmit loop, `1 ≤ dto_queue_len ≤
XCP_DAQ_QUEUE_SIZE`, `dto_queue_rp < XCP_DAQ_QUEUE_SIZE`, and `dto_buffer_ptr` is
either `NULL` or the slot `(dto_queue_rp + dto_queue_len - 1) mod
XCP_DAQ_QUEUE_SIZE`. -/
theorem queue_invariant (cfg : Config) (s0 : State) (steps : List Step) (y : Sys)
    (hQ1 : 1 ≤ cfg.XCP_DAQ_QUEUE_SIZE) (hQ : cfg.XCP_DAQ_QUEUE_SIZE < 2147483648)
    (hrun : run cfg (initSys cfg s0) steps = some y) :
    1 ≤ y.s.dto_queue_len ∧ y.s.dto_queue_len ≤ cfg.XCP_DAQ_QUEUE_SIZE ∧
    y.s.dto_queue_rp < cfg.XCP_DAQ_QUEUE_SIZE ∧
    y.s.dto_queue.length = cfg.XCP_DAQ_QUEUE_SIZE ∧
    (y.s.dto_buffer_ptr = none ∨
      y.s.dto_buffer_ptr
        = some ((y.s.dto_queue_rp + y.s.dto_queue_len - 1) % cfg.XCP_DAQ_QUEUE_SIZE)) := by
  obtain ⟨⟨h1, h2, h3, h4, h5⟩, _⟩ := run_SysRing cfg s0 steps y hQ1 hQ hrun
  refine ⟨h3, h4, h2, h1, ?_⟩
  cases hp : y.s.dto_buffer_ptr with
  | none => exact Or.inl rfl
  | some t =>
    right
    rw [h5 t hp]
    unfold slotAt
    have e : y.s.dto_queue_rp + (y.s.dto_queue_len - 1)
        = y.s.dto_queue_rp + y.s.dto_queue_len - 1 := by omega
    rw [e]

/-- C11 as stated fails: on the small queue the third of three reservations of eight
bytes overflows and leaves `dto_buffer_ptr = NULL`, not the slot
`(dto_queue_rp + dto_queue_len - 1) mod XCP_DAQ_QUEUE_SIZE = 1`. -/
theorem overflow_leaves_no_tail :
    run smallCfg (initSys smallCfg startState) overflowSteps
      = some (runD smallCfg (initSys smallCfg startState) overflowSteps) ∧
    (runD smallCfg (initSys smallCfg startState) overflowSteps).s.dto_buffer_ptr = none ∧
    ((runD smallCfg (initSys smallCfg startState) overflowSteps).s.dto_queue_rp
      + (runD smallCfg (initSys smallCfg startState) overflowSteps).s.dto_queue_len - 1)
        % smallCfg.XCP_DAQ_QUEUE_SIZE = 1 ∧
    (runD smallCfg (initSys smallCfg startState) overflowSteps).s.dto_buffer_ptr
      ≠ some (((runD smallCfg (initSys smallCfg startState) overflowSteps).s.dto_queue_rp
        + (runD smallCfg (initSys smallCfg startState) overflowSteps).s.dto_queue_len - 1)
          % smallCfg.XCP_DAQ_QUEUE_SIZE) :=
  ⟨run_eq_some_runD _ _ _ (by decide), by decide, by decide, by decide⟩

/-- C11 (amended), instance: the run `sampleSteps` on the small queue. -/
theorem queue_invariant_witness :
    run smallCfg (initSys smallCfg startState) sampleSteps
      = some (runD smallCfg (initSys smallCfg startState) sampleSteps) ∧
    1 ≤ (runD smallCfg (initSys smallCfg startState) sampleSteps).s.dto_queue_len ∧
    (runD smallCfg (initSys smallCfg startState) sampleSteps).s.dto_queue_len
      ≤ smallCfg.XCP_DAQ_QUEUE_SIZE ∧
    (runD smallCfg (initSys smallCfg startState) sampleSteps).s.dto_queue_rp
      < smallCfg.XCP_DAQ_QUEUE_SIZE :=
  have h := queue_invariant smallCfg startState sampleSteps _ (by decide) (by decide)
    (run_eq_some_runD _ _ _ (by decide))
  ⟨run_eq_some_runD _ _ _ (by decide), h.1, h.2.1, h.2.2.1⟩

/-- C15: whatever the queue held before, `initDtoBufferQueue` leaves `dto_queue_rp =
0`, `dto_queue_len = 1`, the tail on slot 0, and every buffer of the queue with
`xcp_size = 0`, `xcp_uncommited = 0` and all `kXcpMaxMTU` message bytes zero; the
other transport layer data is not touched.  In particular the transmit loop finds
nothing to send. -/
theorem initDtoBufferQueue_fresh (cfg : Config) (s : State)
    (hQ1 : 1 ≤ cfg.XCP_DAQ_QUEUE_SIZE) :
    (initDtoBufferQueue cfg s).dto_queue_rp = 0 ∧
    (initDtoBufferQueue cfg s).dto_queue_len = 1 ∧
    (initDtoBufferQueue cfg s).dto_buffer_ptr = some 0 ∧
    (initDtoBufferQueue cfg s).dto_queue.length = cfg.XCP_DAQ_QUEUE_SIZE ∧
    (∀ b ∈ (initDtoBufferQueue cfg s).dto_queue,
      b.xcp_size = 0 ∧ b.xcp_uncommited = 0 ∧ b.xcp.length = cfg.kXcpMaxMTU ∧
      ∀ x ∈ b.xcp, x = 0) ∧
    (initDtoBufferQueue cfg s).gXcpTl = s.gXcpTl ∧
    udpServerHandleTransmitQueue cfg (initDtoBufferQueue cfg s)
      = some (initDtoBufferQueue cfg s, []) := by
  obtain ⟨h1, h2, h3, h4, h5⟩ := initDtoBufferQueue_spec cfg s hQ1
  refine ⟨h1, h2, h3, by rw [h4]; simp, ?_, h5, ?_⟩
  · intro b hb
    rw [h4] at hb
    have hbz : b = zeroBuffer cfg := List.eq_of_mem_replicate hb
    rw [hbz]
    refine ⟨rfl, rfl, by simp [zeroBuffer], ?_⟩
    intro x hx
    exact List.eq_of_mem_replicate hx
  · have hc : checkReady (initDtoBufferQueue cfg s) = none := by
      unfold checkReady
      rw [h2]
      rfl
    simp [udpServerHandleTransmitQueue, transmitLoop, hc]

/-- C15, instance: `initDtoBufferQueue` on the full small queue. -/
theorem initDtoBufferQueue_fresh_witness :
    fullCommitted.dto_queue_len = 2 ∧
    (bufAt fullCommitted 1).xcp_size = 12 ∧
    (initDtoBufferQueue smallCfg fullCommitted).dto_queue_len = 1 ∧
    (∀ b ∈ (initDtoBufferQueue smallCfg fullCommitted).dto_queue,
      b.xcp_size = 0 ∧ b.xcp_uncommited = 0 ∧ b.xcp.length = smallCfg.kXcpMaxMTU ∧
      ∀ x ∈ b.xcp, x = 0) :=
  have h := initDtoBufferQueue_fresh smallCfg fullCommitted (by decide)
  ⟨by decide, by decide, h.2.1, h.2.2.2.2.1⟩

/-! ## Commit (C18, C20) -/

/-- C18 (amended): `udpServerCommitPacketBuffer` does not reject a commit on a buffer
whose `xcp_uncommited` is 0: the 32 bit counter wraps round to `2^32 - 1`, so the
transmit loop no longer finds the buffer ready when it is the head; nothing else
changes. -/
theorem commit_without_reservation_wraps (s : State) (p : Nat)
    (hp : p < s.dto_queue.length) (h0 : (bufAt s p).xcp_uncommited = 0) :
    (bufAt (udpServerCommitPacketBuffer s (some p)) p).xcp_uncommited = 4294967295 ∧
    (bufAt (udpServerCommitPacketBuffer s (some p)) p).xcp_size = (bufAt s p).xcp_size ∧
    (bufAt (udpServerCommitPacketBuffer s (some p)) p).xcp = (bufAt s p).xcp ∧
    (∀ j, j ≠ p → bufAt (udpServerCommitPacketBuffer s (some p)) j = bufAt s j) ∧
    (udpServerCommitPacketBuffer s (some p)).dto_queue_rp = s.dto_queue_rp ∧
    (udpServerCommitPacketBuffer s (some p)).dto_queue_len = s.dto_queue_len ∧
    (udpServerCommitPacketBuffer s (some p)).dto_buffer_ptr = s.dto_buffer_ptr ∧
    (udpServerCommitPacketBuffer s (some p)).gXcpTl = s.gXcpTl ∧
    (s.dto_queue_rp = p → checkReady (udpServerCommitPacketBuffer s (some p)) = none) := by
  obtain ⟨c1, c2, c3, _, c5⟩ := commit_spec s p
  have hb := c5 p
  rw [if_pos ⟨rfl, hp⟩] at hb
  have hu : (bufAt (udpServerCommitPacketBuffer s (some p)) p).xcp_uncommited = 4294967295 := by
    rw [hb]
    show u32 _ = _
    rw [h0]
    rfl
  refine ⟨hu, by rw [hb], by rw [hb], ?_, c1, c2, c3, rfl, ?_⟩
  · intro j hj
    rw [c5 j, if_neg (fun h => hj h.1.symm)]
  · intro hrp
    unfold checkReady
    rw [c1, hrp, hu]
    simp

/-- C18 as stated fails: on the full small queue slot 0 is the head, holds twelve
committed bytes and has `xcp_uncommited = 0`, so it is ready to be sent; a commit on
it is not rejected, it leaves `xcp_uncommited = 2^32 - 1` and the buffer is not ready
any more. -/
theorem unmatched_commit_corrupts_count :
    (bufAt fullCommitted 0).xcp_uncommited = 0 ∧
    checkReady fullCommitted = some 0 ∧
    (bufAt (udpServerCommitPacketBuffer fullCommitted (some 0)) 0).xcp_uncommited = 4294967295 ∧
    checkReady (udpServerCommitPacketBuffer fullCommitted (some 0)) = none := by
  decide

/-- C18 (amended), instance: the commit on slot 0 of the full small queue. -/
theorem commit_without_reservation_wraps_witness :
    (bufAt fullCommitted 0).xcp_uncommited = 0 ∧
    (bufAt (udpServerCommitPacketBuffer fullCommitted (some 0)) 0).xcp_uncommited = 4294967295 ∧
    checkReady (udpServerCommitPacketBuffer fullCommitted (some 0)) = none :=
  have h := commit_without_reservation_wraps fullCommitted 0 (by decide) (by decide)
  ⟨by decide, h.1, h.2.2.2.2.2.2.2.2 (by decide)⟩

/-- C20 (amended): for a handle to a buffer of the queue whose `xcp_uncommited` is at
least 1 (and a 32 bit value), `udpServerCommitPacketBuffer` lowers `xcp_uncommited`
of that buffer by exactly 1 and changes nothing else: `xcp_size` and the bytes of
every buffer, `xcp_uncommited` of every other buffer, `dto_queue_rp`,
`dto_queue_len`, `dto_buffer_ptr` and `gXcpTl` with both counters stay as they are.
With a `NULL` handle nothing changes at all. -/
theorem commit_frame (s : State) (p : Nat)
    (hp : p < s.dto_queue.length) (h1 : 1 ≤ (bufAt s p).xcp_uncommited)
    (h32 : (bufAt s p).xcp_uncommited < 4294967296) :
    (bufAt (udpServerCommitPacketBuffer s (some p)) p).xcp_uncommited
      = (bufAt s p).xcp_uncommited - 1 ∧
    (bufAt (udpServerCommitPacketBuffer s (some p)) p).xcp_size = (bufAt s p).xcp_size ∧
    (bufAt (udpServerCommitPacketBuffer s (some p)) p).xcp = (bufAt s p).xcp ∧
    (∀ j, j ≠ p → bufAt (udpServerCommitPacketBuffer s (some p)) j = bufAt s j) ∧
    (udpServerCommitPacketBuffer s (some p)).dto_queue.length = s.dto_queue.length ∧
    (udpServerCommitPacketBuffer s (some p)).dto_queue_rp = s.dto_queue_rp ∧
    (udpServerCommitPacketBuffer s (some p)).dto_queue_len = s.dto_queue_len ∧
    (udpServerCommitPacketBuffer s (some p)).dto_buffer_ptr = s.dto_buffer_ptr ∧
    (udpServerCommitPacketBuffer s (some p)).gXcpTl = s.gXcpTl ∧
    udpServerCommitPacketBuffer s none = s := by
  obtain ⟨c1, c2, c3, c4, c5⟩ := commit_spec s p
  have hb := c5 p
  rw [if_pos ⟨rfl, hp⟩] at hb
  refine ⟨?_, by rw [hb], by rw [hb], ?_, c4, c1, c2, c3, rfl, rfl⟩
  · rw [hb]
    show u32 _ = _
    unfold u32
    omega
  · intro j hj
    rw [c5 j, if_neg (fun h => hj h.1.symm)]

/-- C20 as stated fails for a handle that a successful reservation returned.  First,
with the counter of the tail at `2^32 - 1` the reservation succeeds, returns the
handle 0 and leaves `xcp_uncommited = 0`; the commit of that handle then gives `2^32 -
1`.  Second, after a reservation on the fresh small queue, a second commit of the
returned handle gives `2^32 - 1` as well.  Neither is a decrease by 1. -/
theorem commit_of_returned_handle_can_wrap :
    (udpServerGetPacketBuffer exampleCfg saturatedTail none 8).par = some 0 ∧
    (udpServerGetPacketBuffer exampleCfg saturatedTail none 8).ret = some (0, 4) ∧
    (bufAt (udpServerGetPacketBuffer exampleCfg saturatedTail none 8).state 0).xcp_uncommited = 0 ∧
    (bufAt (udpServerCommitPacketBuffer
      (udpServerGetPacketBuffer exampleCfg saturatedTail none 8).state
      (udpServerGetPacketBuffer exampleCfg saturatedTail none 8).par) 0).xcp_uncommited
        = 4294967295 ∧
    (udpServerGetPacketBuffer smallCfg (initDtoBufferQueue smallCfg startState) none 8).par
      = some 0 ∧
    (bufAt (udpServerCommitPacketBuffer
      (udpServerGetPacketBuffer smallCfg (initDtoBufferQueue smallCfg startState) none 8).state
      (some 0)) 0).xcp_uncommited = 0 ∧
    (bufAt (udpServerCommitPacketBuffer (udpServerCommitPacketBuffer
      (udpServerGetPacketBuffer smallCfg (initDtoBufferQueue smallCfg startState) none 8).state
      (some 0)) (some 0)) 0).xcp_uncommited = 4294967295 := by
  decide

/-- C20 (amended), instance: the commit of the handle returned by a reservation of
eight bytes on the fresh small queue. -/
theorem commit_frame_witness :
    (udpServerGetPacketBuffer smallCfg (initDtoBufferQueue smallCfg startState) none 8).par
      = some 0 ∧
    (bufAt (udpServerGetPacketBuffer smallCfg (initDtoBufferQueue smallCfg startState)
      none 8).state 0).xcp_uncommited = 1 ∧
    (bufAt (udpServerCommitPacketBuffer
      (udpServerGetPacketBuffer smallCfg (initDtoBufferQueue smallCfg startState) none 8).state
      (some 0)) 0).xcp_uncommited
      = (bufAt (udpServerGetPacketBuffer smallCfg (initDtoBufferQueue smallCfg startState)
          none 8).state 0).xcp_uncommited - 1 :=
  have h := commit_frame
    (udpServerGetPacketBuffer smallCfg (initDtoBufferQueue smallCfg startState) none 8).state 0
    (by decide) (by decide) (by decide)
  ⟨by decide, by decide, h.1⟩


/-! ## The command channel (C13, C14, C16, C17, C19) -/

theorem noteCmdCtr_self (s : State) : noteCmdCtr s s.gXcpTl.LastCmdCtr = s := rfl

theorem sendCrmPackets_spec {σ : Type} (ps : List (List Nat)) :
    ∀ w : World σ, (∀ p ∈ ps, p ≠ []) →
      sendCrmPackets w ps =
        some { w with
               tl := noteCmdCtr w.tl (cmdCtrAfter w.tl.gXcpTl.LastCmdCtr ps.length)
               crm := w.crm ++ crmFor w.tl.gXcpTl.ClientAddr w.tl.gXcpTl.LastCmdCtr ps } := by
  induction ps with
  | nil =>
    intro w _
    simp only [sendCrmPackets, crmFor, List.append_nil, List.length_nil, cmdCtrAfter]
    rfl
  | cons p rest ih =>
    intro w hne
    have hp : p.length ≠ 0 := by
      have := hne p (List.mem_cons_self _ _)
      intro h
      exact this (List.length_eq_zero.1 h)
    have hsend : udpServerSendCrmPacket w.tl p =
        some ({ w.tl with gXcpTl := { w.tl.gXcpTl with
                  LastCmdCtr := u16 (w.tl.gXcpTl.LastCmdCtr + 1) } },
              { dest := w.tl.gXcpTl.ClientAddr
                msg := { ctr := u16 (w.tl.gXcpTl.LastCmdCtr + 1)
                         dlc := u16 p.length
                         data := p } }) := by
      unfold udpServerSendCrmPacket
      rw [if_neg hp]
    simp only [sendCrmPackets, hsend]
    rw [ih _ (fun q hq => hne q (List.mem_cons_of_mem _ hq))]
    simp only [crmFor, List.append_assoc, List.singleton_append, List.length_cons, cmdCtrAfter]
    rfl

theorem callXcpCommand_spec {σ : Type} (I : Interpreter σ) (w : World σ) (data : List Nat)
    (hne : ∀ p ∈ (I.XcpCommand w.gXcp data).2, p ≠ []) :
    callXcpCommand I w data =
      some { tl := noteCmdCtr w.tl
                (cmdCtrAfter w.tl.gXcpTl.LastCmdCtr (I.XcpCommand w.gXcp data).2.length)
             gXcp := (I.XcpCommand w.gXcp data).1
             crm := w.crm ++ crmFor w.tl.gXcpTl.ClientAddr w.tl.gXcpTl.LastCmdCtr
                (I.XcpCommand w.gXcp data).2
             commands := w.commands ++ [data] } := by
  unfold callXcpCommand
  rw [sendCrmPackets_spec _ _ hne]

theorem crmFor_dest (dest : Nat) (ps : List (List Nat)) :
    ∀ c, ∀ d ∈ crmFor dest c ps, d.dest = dest := by
  induction ps with
  | nil => intro c d hd; simp [crmFor] at hd
  | cons p rest ih =>
    intro c d hd
    simp only [crmFor, List.mem_cons] at hd
    rcases hd with h | h
    · rw [h]
    · exact ih _ d h

theorem crmFor_length (dest : Nat) (ps : List (List Nat)) :
    ∀ c, (crmFor dest c ps).length = ps.length := by
  induction ps with
  | nil => intro c; rfl
  | cons p rest ih => intro c; simp only [crmFor, List.length_cons, ih]

theorem crmFor_ctr (dest : Nat) (ps : List (List Nat)) :
    ∀ (c k : Nat) (d : CrmDatagram), c < 65536 → (crmFor dest c ps)[k]? = some d →
      d.msg.ctr = (c + 1 + k) % 65536 ∧ ps[k]? = some d.msg.data := by
  induction ps with
  | nil => intro c k d _ hd; simp [crmFor] at hd
  | cons p rest ih =>
    intro c k d hc hd
    cases k with
    | zero =>
      simp only [crmFor, List.getElem?_cons_zero, Option.some.injEq] at hd
      rw [← hd]
      exact ⟨rfl, List.getElem?_cons_zero⟩
    | succ k =>
      simp only [crmFor, List.getElem?_cons_succ] at hd
      obtain ⟨h1, h2⟩ := ih (u16 (c + 1)) k d (by unfold u16; omega) hd
      refine ⟨?_, by simpa using h2⟩
      rw [h1]
      unfold u16
      omega


theorem isConnected_true {σ : Type} (K : XcpConsts) (I : Interpreter σ) (g : σ)
    (h : I.SessionStatus g &&& K.SS_CONNECTED ≠ 0) : isConnected K I g = true := by
  unfold isConnected
  simpa using h

theorem isConnected_false {σ : Type} (K : XcpConsts) (I : Interpreter σ) (g : σ)
    (h : I.SessionStatus g &&& K.SS_CONNECTED = 0) : isConnected K I g = false := by
  unfold isConnected
  simpa using h

/-- The command path of `udpServerHandleXCPCommands` while connected. -/
theorem handle_connected {σ : Type} (cfg : Config) (K : XcpConsts) (I : Interpreter σ)
    (w : World σ) (src : Nat) (buffer : tXcpCtoMessage)
    (hc : I.SessionStatus w.gXcp &&& K.SS_CONNECTED ≠ 0)
    (hne : ∀ p ∈ (I.XcpCommand w.gXcp buffer.data).2, p ≠ []) :
    udpServerHandleXCPCommands cfg K I w (.datagram src buffer) =
      some ({ tl := noteCmdCtr w.tl
                (cmdCtrAfter buffer.ctr (I.XcpCommand w.gXcp buffer.data).2.length)
              gXcp := (I.XcpCommand w.gXcp buffer.data).1
              crm := w.crm ++ crmFor w.tl.gXcpTl.ClientAddr buffer.ctr
                (I.XcpCommand w.gXcp buffer.data).2
              commands := w.commands ++ [buffer.data] }, 1) := by
  unfold udpServerHandleXCPCommands
  rw [isConnected_true K I w.gXcp hc]
  simp only [if_true]
  rw [callXcpCommand_spec I { w with tl := noteCmdCtr w.tl buffer.ctr } buffer.data hne]
  rfl

/-- The path of `udpServerHandleXCPCommands` for a datagram that is ignored. -/
theorem handle_ignored {σ : Type} (cfg : Config) (K : XcpConsts) (I : Interpreter σ)
    (w : World σ) (src : Nat) (buffer : tXcpCtoMessage)
    (hnc : I.SessionStatus w.gXcp &&& K.SS_CONNECTED = 0)
    (hnot : buffer.dlc ≠ 2 ∨ buffer.data.getD 0 0 ≠ K.CC_CONNECT) :
    udpServerHandleXCPCommands cfg K I w (.datagram src buffer) =
      some ({ w with tl := clearClientValid (noteCmdCtr w.tl buffer.ctr) }, 1) := by
  have hcmd : isConnectCommand K buffer = false := by
    unfold isConnectCommand
    rcases hnot with h | h
    · have h1 : (buffer.dlc == 2) = false := beq_eq_false_iff_ne.2 h
      rw [h1, Bool.false_and]
    · have h1 : (buffer.data.getD 0 0 == K.CC_CONNECT) = false := beq_eq_false_iff_ne.2 h
      rw [h1, Bool.and_false]
  unfold udpServerHandleXCPCommands
  rw [isConnected_false K I w.gXcp hnc]
  simp only [Bool.false_eq_true, if_false, hcmd]
  have h2 : isConnected K I w.gXcp = false := isConnected_false K I w.gXcp hnc
  simp only [h2, Bool.false_eq_true, if_false]

/-- The path of `udpServerHandleXCPCommands` for a CONNECT while not connected. -/
theorem handle_connect {σ : Type} (cfg : Config) (K : XcpConsts) (I : Interpreter σ)
    (w : World σ) (src : Nat) (buffer : tXcpCtoMessage)
    (hnc : I.SessionStatus w.gXcp &&& K.SS_CONNECTED = 0)
    (hdlc : buffer.dlc = 2) (hcc : buffer.data.getD 0 0 = K.CC_CONNECT)
    (hne : ∀ p ∈ (I.XcpCommand w.gXcp buffer.data).2, p ≠ []) :
    udpServerHandleXCPCommands cfg K I w (.datagram src buffer) =
      if isConnected K I (I.XcpCommand w.gXcp buffer.data).1 then
        some ({ tl := initDtoBufferQueue cfg
                  (noteCmdCtr (recordClient w.tl src)
                    (cmdCtrAfter buffer.ctr (I.XcpCommand w.gXcp buffer.data).2.length))
                gXcp := (I.XcpCommand w.gXcp buffer.data).1
                crm := w.crm ++ crmFor src buffer.ctr (I.XcpCommand w.gXcp buffer.data).2
                commands := w.commands ++ [buffer.data] }, 1)
      else
        some ({ tl := clearClientValid
                  (noteCmdCtr (recordClient w.tl src)
                    (cmdCtrAfter buffer.ctr (I.XcpCommand w.gXcp buffer.data).2.length))
                gXcp := (I.XcpCommand w.gXcp buffer.data).1
                crm := w.crm ++ crmFor src buffer.ctr (I.XcpCommand w.gXcp buffer.data).2
                commands := w.commands ++ [buffer.data] }, 1) := by
  have hcmd : isConnectCommand K buffer = true := by
    unfold isConnectCommand
    have h1 : (buffer.dlc == 2) = true := beq_iff_eq.2 hdlc
    have h2 : (buffer.data.getD 0 0 == K.CC_CONNECT) = true := beq_iff_eq.2 hcc
    rw [h1, h2]
    rfl
  unfold udpServerHandleXCPCommands
  rw [isConnected_false K I w.gXcp hnc]
  simp only [Bool.false_eq_true, if_false, hcmd, if_true]
  rw [callXcpCommand_spec I { w with tl := recordClient (noteCmdCtr w.tl buffer.ctr) src }
    buffer.data hne]
  simp only []
  split <;> rfl


/-- C13 (amended): when the session is not connected and the datagram received is not
a CONNECT (its `dlc` is not 2 or its first command byte is not `CC_CONNECT`),
`udpServerHandleXCPCommands` does not call `XcpCommand`, sends nothing, leaves
`ClientAddr` as it is, has `ClientAddrValid = 0` afterwards, leaves the DTO queue and
`LastResCtr` untouched, and the session stays not connected.  The one other change of
transport layer data is `LastCmdCtr`, which takes the counter of the datagram. -/
theorem ignored_while_not_connected {σ : Type} (cfg : Config) (K : XcpConsts)
    (I : Interpreter σ) (w : World σ) (src : Nat) (buffer : tXcpCtoMessage)
    (hnc : I.SessionStatus w.gXcp &&& K.SS_CONNECTED = 0)
    (hnot : buffer.dlc ≠ 2 ∨ buffer.data.getD 0 0 ≠ K.CC_CONNECT) :
    ∃ w1, udpServerHandleXCPCommands cfg K I w (.datagram src buffer) = some (w1, 1) ∧
      w1.commands = w.commands ∧ w1.crm = w.crm ∧ w1.gXcp = w.gXcp ∧
      I.SessionStatus w1.gXcp &&& K.SS_CONNECTED = 0 ∧
      w1.tl.gXcpTl.ClientAddr = w.tl.gXcpTl.ClientAddr ∧
      w1.tl.gXcpTl.ClientAddrValid = 0 ∧
      w1.tl.gXcpTl.LastResCtr = w.tl.gXcpTl.LastResCtr ∧
      w1.tl.gXcpTl.LastCmdCtr = buffer.ctr ∧
      w1.tl.dto_queue = w.tl.dto_queue ∧ w1.tl.dto_queue_rp = w.tl.dto_queue_rp ∧
      w1.tl.dto_queue_len = w.tl.dto_queue_len ∧
      w1.tl.dto_buffer_ptr = w.tl.dto_buffer_ptr :=
  ⟨_, handle_ignored cfg K I w src buffer hnc hnot, rfl, rfl, rfl, hnc, rfl, rfl, rfl, rfl,
    rfl, rfl, rfl, rfl⟩

/-- C13 as stated fails: not connected, a datagram with counter 7 that is no CONNECT
is ignored, but `LastCmdCtr` changes from 0 to 7. -/
theorem ignored_datagram_sets_LastCmdCtr :
    (sampleWorld 0).tl.gXcpTl.LastCmdCtr = 0 ∧
    (udpServerHandleXCPCommands smallCfg xcpConsts sampleInterpreter (sampleWorld 0)
      (.datagram 5 { ctr := 7, dlc := 1, data := [16] })).map
        (fun r => (r.1.commands, r.1.crm, r.1.tl.gXcpTl.LastCmdCtr))
      = some ([], [], 7) := by
  decide

/-- C13 (amended), instance: the small world, not connected, a datagram of one
command byte from address 5. -/
theorem ignored_while_not_connected_witness :
    ∃ w1, udpServerHandleXCPCommands smallCfg xcpConsts sampleInterpreter (sampleWorld 0)
        (.datagram 5 { ctr := 7, dlc := 1, data := [16] }) = some (w1, 1) ∧
      w1.commands = [] ∧ w1.crm = [] ∧ w1.tl.gXcpTl.ClientAddr = 9 ∧
      w1.tl.gXcpTl.ClientAddrValid = 0 :=
  have ⟨w1, h, h1, h2, _, _, h5, h6, _⟩ :=
    ignored_while_not_connected smallCfg xcpConsts sampleInterpreter (sampleWorld 0) 5
      { ctr := 7, dlc := 1, data := [16] } (by decide) (Or.inl (by decide))
  ⟨w1, h, h1, h2, h5, h6⟩

/-- C14: when the session is not connected and a datagram from address `src` has
`dlc = 2` and first command byte `CC_CONNECT`, `udpServerHandleXCPCommands` calls
`XcpCommand` with the sender already recorded as client: every response goes to
`src`.  If the session is connected afterwards, `ClientAddr = src`, `ClientAddrValid
= 1` and the DTO queue is the one `initDtoBufferQueue` leaves; otherwise
`ClientAddrValid = 0`, the session is not connected and the DTO queue is
untouched. -/
theorem connect_transition {σ : Type} (cfg : Config) (K : XcpConsts)
    (I : Interpreter σ) (w : World σ) (src : Nat) (buffer : tXcpCtoMessage)
    (hQ1 : 1 ≤ cfg.XCP_DAQ_QUEUE_SIZE)
    (hnc : I.SessionStatus w.gXcp &&& K.SS_CONNECTED = 0)
    (hdlc : buffer.dlc = 2) (hcc : buffer.data.getD 0 0 = K.CC_CONNECT)
    (hne : ∀ p ∈ (I.XcpCommand w.gXcp buffer.data).2, p ≠ []) :
    ∃ w1, udpServerHandleXCPCommands cfg K I w (.datagram src buffer) = some (w1, 1) ∧
      w1.commands = w.commands ++ [buffer.data] ∧
      w1.gXcp = (I.XcpCommand w.gXcp buffer.data).1 ∧
      w1.crm = w.crm ++ crmFor src buffer.ctr (I.XcpCommand w.gXcp buffer.data).2 ∧
      (∀ d ∈ crmFor src buffer.ctr (I.XcpCommand w.gXcp buffer.data).2, d.dest = src) ∧
      (I.SessionStatus w1.gXcp &&& K.SS_CONNECTED ≠ 0 →
        w1.tl.gXcpTl.ClientAddr = src ∧ w1.tl.gXcpTl.ClientAddrValid = 1 ∧
        w1.tl.dto_queue_rp = 0 ∧ w1.tl.dto_queue_len = 1 ∧ w1.tl.dto_buffer_ptr = some 0 ∧
        w1.tl.dto_queue = List.replicate cfg.XCP_DAQ_QUEUE_SIZE (zeroBuffer cfg)) ∧
      (I.SessionStatus w1.gXcp &&& K.SS_CONNECTED = 0 →
        w1.tl.gXcpTl.ClientAddrValid = 0 ∧
        w1.tl.dto_queue = w.tl.dto_queue ∧ w1.tl.dto_queue_rp = w.tl.dto_queue_rp ∧
        w1.tl.dto_queue_len = w.tl.dto_queue_len ∧
        w1.tl.dto_buffer_ptr = w.tl.dto_buffer_ptr) := by
  have hh := handle_connect cfg K I w src buffer hnc hdlc hcc hne
  by_cases hc : I.SessionStatus (I.XcpCommand w.gXcp buffer.data).1 &&& K.SS_CONNECTED = 0
  · rw [isConnected_false K I _ hc] at hh
    simp only [Bool.false_eq_true, if_false] at hh
    refine ⟨_, hh, rfl, rfl, rfl, crmFor_dest src _ _, fun h => absurd hc h,
      fun _ => ⟨rfl, rfl, rfl, rfl, rfl⟩⟩
  · rw [isConnected_true K I _ hc] at hh
    simp only [if_true] at hh
    obtain ⟨e1, e2, e3, e4, e5⟩ := initDtoBufferQueue_spec cfg
      (noteCmdCtr (recordClient w.tl src)
        (cmdCtrAfter buffer.ctr (I.XcpCommand w.gXcp buffer.data).2.length)) hQ1
    refine ⟨_, hh, rfl, rfl, rfl, crmFor_dest src _ _, fun _ => ⟨?_, ?_, e1, e2, e3, e4⟩,
      fun h => absurd h hc⟩
    · show (initDtoBufferQueue cfg _).gXcpTl.ClientAddr = src
      rw [e5]
      rfl
    · show (initDtoBufferQueue cfg _).gXcpTl.ClientAddrValid = 1
      rw [e5]
      rfl

/-- C14, instance: the small world, not connected, receives CONNECT from address 5;
the response goes to 5, the client is 5 and the queue is fresh. -/
theorem connect_transition_witness :
    ∃ w1, udpServerHandleXCPCommands smallCfg xcpConsts sampleInterpreter (sampleWorld 0)
        (.datagram 5 { ctr := 7, dlc := 2, data := [255, 0] }) = some (w1, 1) ∧
      w1.commands = [[255, 0]] ∧
      w1.crm = [{ dest := 5, msg := { ctr := 8, dlc := 1, data := [255] } }] :=
  have ⟨w1, h, h1, _, h3, _⟩ :=
    connect_transition smallCfg xcpConsts sampleInterpreter (sampleWorld 0) 5
      { ctr := 7, dlc := 2, data := [255, 0] } (by decide) (by decide) (by decide)
      (by decide) (by decide)
  ⟨w1, h, h1, h3⟩

/-- C16 (amended): when the session is connected and the command forwarded by
`udpServerHandleXCPCommands` leaves the session not connected, the transport layer
does nothing about it: on return `ClientAddr` and `ClientAddrValid` are as they were
before the call and the DTO queue is untouched. -/
theorem disconnect_leaves_transport_layer {σ : Type} (cfg : Config) (K : XcpConsts)
    (I : Interpreter σ) (w : World σ) (src : Nat) (buffer : tXcpCtoMessage)
    (hc : I.SessionStatus w.gXcp &&& K.SS_CONNECTED ≠ 0)
    (hdis : I.SessionStatus (I.XcpCommand w.gXcp buffer.data).1 &&& K.SS_CONNECTED = 0)
    (hne : ∀ p ∈ (I.XcpCommand w.gXcp buffer.data).2, p ≠ []) :
    ∃ w1, udpServerHandleXCPCommands cfg K I w (.datagram src buffer) = some (w1, 1) ∧
      I.SessionStatus w1.gXcp &&& K.SS_CONNECTED = 0 ∧
      w1.tl.gXcpTl.ClientAddr = w.tl.gXcpTl.ClientAddr ∧
      w1.tl.gXcpTl.ClientAddrValid = w.tl.gXcpTl.ClientAddrValid ∧
      w1.tl.dto_queue = w.tl.dto_queue ∧ w1.tl.dto_queue_rp = w.tl.dto_queue_rp ∧
      w1.tl.dto_queue_len = w.tl.dto_queue_len ∧
      w1.tl.dto_buffer_ptr = w.tl.dto_buffer_ptr :=
  ⟨_, handle_connected cfg K I w src buffer hc hne, hdis, rfl, rfl, rfl, rfl, rfl, rfl⟩

/-- C16 as stated fails: the small world is connected with client 9 and two buffers in
the queue; a DISCONNECT command leaves the session not connected, and on return
`ClientAddrValid` is still 1 and the queue still has its two entries in use. -/
theorem disconnect_keeps_client_and_queue :
    (sampleWorld 2).tl.gXcpTl.ClientAddrValid = 1 ∧
    (udpServerHandleXCPCommands smallCfg xcpConsts sampleInterpreter (sampleWorld 2)
      (.datagram 9 { ctr := 7, dlc := 1, data := [254] })).map
        (fun r => (r.1.gXcp &&& xcpConsts.SS_CONNECTED, r.1.tl.gXcpTl.ClientAddrValid,
          r.1.tl.dto_queue_len, r.1.tl.dto_queue == (sampleWorld 2).tl.dto_queue))
      = some (0, 1, 2, true) := by
  decide

/-- C16 (amended), instance: the DISCONNECT command on the connected small world. -/
theorem disconnect_leaves_transport_layer_witness :
    ∃ w1, udpServerHandleXCPCommands smallCfg xcpConsts sampleInterpreter (sampleWorld 2)
        (.datagram 9 { ctr := 7, dlc := 1, data := [254] }) = some (w1, 1) ∧
      w1.tl.gXcpTl.ClientAddrValid = (sampleWorld 2).tl.gXcpTl.ClientAddrValid ∧
      w1.tl.dto_queue_len = (sampleWorld 2).tl.dto_queue_len :=
  have ⟨w1, h, _, _, h3, _, _, h6, _⟩ :=
    disconnect_leaves_transport_layer smallCfg xcpConsts sampleInterpreter (sampleWorld 2) 9
      { ctr := 7, dlc := 1, data := [254] } (by decide) (by decide) (by decide)
  ⟨w1, h, h3, h6⟩

/-- C17 (amended): the responses to a received command do not echo its counter: with
`c` the counter field of the command datagram, the `k`-th response built by
`udpServerSendCrmPacket` (counted from 0) carries the counter `c + 1 + k` modulo
`2^16`; the first response carries `c + 1`.  This holds on both paths that forward the
command, connected and CONNECT. -/
theorem response_counter_follows_command {σ : Type} (cfg : Config) (K : XcpConsts)
    (I : Interpreter σ) (w : World σ) (src : Nat) (buffer : tXcpCtoMessage)
    (hctr : buffer.ctr < 65536)
    (hfwd : I.SessionStatus w.gXcp &&& K.SS_CONNECTED ≠ 0 ∨
      (buffer.dlc = 2 ∧ buffer.data.getD 0 0 = K.CC_CONNECT))
    (hne : ∀ p ∈ (I.XcpCommand w.gXcp buffer.data).2, p ≠ []) :
    ∃ w1 r, udpServerHandleXCPCommands cfg K I w (.datagram src buffer) = some (w1, r) ∧
      w1.crm.length = w.crm.length + (I.XcpCommand w.gXcp buffer.data).2.length ∧
      ∀ k d, w1.crm[w.crm.length + k]? = some d →
        d.msg.ctr = (buffer.ctr + 1 + k) % 65536 ∧
        (I.XcpCommand w.gXcp buffer.data).2[k]? = some d.msg.data := by
  have key : ∀ (dest : Nat) (crm1 : List CrmDatagram),
      crm1 = w.crm ++ crmFor dest buffer.ctr (I.XcpCommand w.gXcp buffer.data).2 →
      crm1.length = w.crm.length + (I.XcpCommand w.gXcp buffer.data).2.length ∧
      ∀ k d, crm1[w.crm.length + k]? = some d →
        d.msg.ctr = (buffer.ctr + 1 + k) % 65536 ∧
        (I.XcpCommand w.gXcp buffer.data).2[k]? = some d.msg.data := by
    intro dest crm1 h
    subst h
    refine ⟨by rw [List.length_append, crmFor_length], ?_⟩
    intro k d hd
    rw [List.getElem?_append_right (by omega)] at hd
    have e : w.crm.length + k - w.crm.length = k := by omega
    rw [e] at hd
    exact crmFor_ctr dest _ buffer.ctr k d hctr hd
  by_cases hc : I.SessionStatus w.gXcp &&& K.SS_CONNECTED = 0
  · rcases hfwd with h | ⟨hdlc, hcc⟩
    · exact absurd hc h
    · have hh := handle_connect cfg K I w src buffer hc hdlc hcc hne
      by_cases hc2 : isConnected K I (I.XcpCommand w.gXcp buffer.data).1 = true
      · rw [if_pos hc2] at hh
        exact ⟨_, _, hh, key src _ rfl⟩
      · rw [if_neg hc2] at hh
        exact ⟨_, _, hh, key src _ rfl⟩
  · exact ⟨_, _, handle_connected cfg K I w src buffer hc hne, key _ _ rfl⟩

/-- C17 as stated fails: connected, a command datagram with counter 7 is answered by a
response with counter 8. -/
theorem response_counter_is_not_echoed :
    (udpServerHandleXCPCommands smallCfg xcpConsts sampleInterpreter (sampleWorld 2)
      (.datagram 9 { ctr := 7, dlc := 2, data := [16, 0] })).map
        (fun r => r.1.crm.map (fun d => d.msg.ctr))
      = some [8] := by
  decide

/-- C17 (amended), instance: the command with counter 7 on the connected small
world. -/
theorem response_counter_follows_command_witness :
    ∃ w1 r, udpServerHandleXCPCommands smallCfg xcpConsts sampleInterpreter (sampleWorld 2)
        (.datagram 9 { ctr := 7, dlc := 2, data := [16, 0] }) = some (w1, r) ∧
      w1.crm.length = 1 :=
  have ⟨w1, r, h, h1, _⟩ :=
    response_counter_follows_command smallCfg xcpConsts sampleInterpreter (sampleWorld 2) 9
      { ctr := 7, dlc := 2, data := [16, 0] } (by decide) (Or.inl (by decide)) (by decide)
  ⟨w1, r, h, h1⟩

/-- C19: when the session is connected, for every datagram of at least one byte, from
whatever address `src`, `udpServerHandleXCPCommands` forwards the command bytes to
`XcpCommand` and leaves `ClientAddr` and `ClientAddrValid` as they are; every
response goes to the recorded `ClientAddr`. -/
theorem connected_forwarding_keeps_client {σ : Type} (cfg : Config) (K : XcpConsts)
    (I : Interpreter σ) (w : World σ) (src : Nat) (buffer : tXcpCtoMessage)
    (hc : I.SessionStatus w.gXcp &&& K.SS_CONNECTED ≠ 0)
    (hne : ∀ p ∈ (I.XcpCommand w.gXcp buffer.data).2, p ≠ []) :
    ∃ w1, udpServerHandleXCPCommands cfg K I w (.datagram src buffer) = some (w1, 1) ∧
      w1.commands = w.commands ++ [buffer.data] ∧
      w1.gXcp = (I.XcpCommand w.gXcp buffer.data).1 ∧
      w1.tl.gXcpTl.ClientAddr = w.tl.gXcpTl.ClientAddr ∧
      w1.tl.gXcpTl.ClientAddrValid = w.tl.gXcpTl.ClientAddrValid ∧
      w1.crm = w.crm ++ crmFor w.tl.gXcpTl.ClientAddr buffer.ctr
        (I.XcpCommand w.gXcp buffer.data).2 ∧
      (∀ d ∈ crmFor w.tl.gXcpTl.ClientAddr buffer.ctr (I.XcpCommand w.gXcp buffer.data).2,
        d.dest = w.tl.gXcpTl.ClientAddr) :=
  ⟨_, handle_connected cfg K I w src buffer hc hne, rfl, rfl, rfl, rfl, rfl,
    crmFor_dest _ _ _⟩

/-- C19, instance: the connected small world with client 9 receives a command from
address 5; the command is forwarded and the response goes to 9. -/
theorem connected_forwarding_keeps_client_witness :
    ∃ w1, udpServerHandleXCPCommands smallCfg xcpConsts sampleInterpreter (sampleWorld 2)
        (.datagram 5 { ctr := 7, dlc := 2, data := [16, 0] }) = some (w1, 1) ∧
      w1.commands = [[16, 0]] ∧ w1.tl.gXcpTl.ClientAddr = 9 ∧
      w1.crm = [{ dest := 9, msg := { ctr := 8, dlc := 2, data := [254, 32] } }] :=
  have ⟨w1, h, h1, _, h3, _, h5, _⟩ :=
    connected_forwarding_keeps_client smallCfg xcpConsts sampleInterpreter (sampleWorld 2) 5
      { ctr := 7, dlc := 2, data := [16, 0] } (by decide) (by decide)
  ⟨w1, h, h1, h3, h5⟩


/-! ## The wire format of the datagrams sent (C12) -/

theorem walk_ge (mem : List Nat) : ∀ (n off : Nat), off + 4 * n ≤ walk mem n off := by
  intro n
  induction n with
  | zero => intro off; exact Nat.le_refl _
  | succ n ih =>
    intro off
    have h := ih (off + XCP_MESSAGE_HEADER_SIZE + (readHeader mem off).dlc)
    unfold XCP_MESSAGE_HEADER_SIZE at h
    show off + 4 * (n + 1) ≤ walk mem n (off + XCP_MESSAGE_HEADER_SIZE + (readHeader mem off).dlc)
    unfold XCP_MESSAGE_HEADER_SIZE
    omega

theorem walk_add (mem : List Nat) : ∀ (n m off : Nat),
    walk mem (n + m) off = walk mem m (walk mem n off) := by
  intro n
  induction n with
  | zero => intro m off; rw [Nat.zero_add]; rfl
  | succ n ih =>
    intro m off
    have e : n + 1 + m = (n + m) + 1 := by omega
    rw [e]
    exact ih m _

/-- Stepping over records reads only bytes before the offset reached. -/
theorem walk_congr (mem mem1 : List Nat) (a : Nat)
    (hag : ∀ k, k < a → mem1.getD k 0 = mem.getD k 0) :
    ∀ (n off : Nat), walk mem n off = a → walk mem1 n off = a := by
  intro n
  induction n with
  | zero => intro off h; exact h
  | succ n ih =>
    intro off h
    have h1 : walk mem n (off + XCP_MESSAGE_HEADER_SIZE + (readHeader mem off).dlc) = a := h
    have hge := walk_ge mem n (off + XCP_MESSAGE_HEADER_SIZE + (readHeader mem off).dlc)
    rw [h1] at hge
    unfold XCP_MESSAGE_HEADER_SIZE at hge
    have hd : (readHeader mem1 off).dlc = (readHeader mem off).dlc := by
      show readU16 mem1 (off + 2) = readU16 mem (off + 2)
      unfold readU16
      rw [hag (off + 2) (by omega), hag (off + 2 + 1) (by omega)]
    show walk mem1 n (off + XCP_MESSAGE_HEADER_SIZE + (readHeader mem1 off).dlc) = a
    rw [hd]
    exact ih _ h1

/-- The length field read back from a header just stored. -/
theorem readHeader_dlc_writeBytes (mem : List Nat) (off : Nat) (m : tXcpDtoMessage)
    (hin : off + XCP_MESSAGE_HEADER_SIZE ≤ mem.length) (hdlc : m.dlc < 65536) :
    (readHeader (writeBytes mem off (headerBytes m)) off).dlc = m.dlc := by
  unfold XCP_MESSAGE_HEADER_SIZE at hin
  show readU16 _ (off + 2) = m.dlc
  unfold readU16
  rw [writeBytes_getD, writeBytes_getD]
  have hl : (headerBytes m).length = 4 := rfl
  rw [if_pos ⟨by omega, by omega, by omega⟩, if_pos ⟨by omega, by omega, by omega⟩]
  have e1 : off + 2 - off = 2 := by omega
  have e2 : off + 2 + 1 - off = 3 := by omega
  rw [e1, e2]
  show m.dlc % 256 + 256 * (m.dlc / 256 % 256) = m.dlc
  omega

/-- Appending a record: a header stored at the end of a chain of records extends the
chain by the length it announces. -/
theorem walk_append_record (mem : List Nat) (a n : Nat) (m : tXcpDtoMessage)
    (hw : walk mem n 0 = a) (hin : a + XCP_MESSAGE_HEADER_SIZE ≤ mem.length)
    (hdlc : m.dlc < 65536) :
    walk (writeBytes mem a (headerBytes m)) (n + 1) 0 = a + XCP_MESSAGE_HEADER_SIZE + m.dlc := by
  have h1 : walk (writeBytes mem a (headerBytes m)) n 0 = a := by
    refine walk_congr mem _ a (fun k hk => ?_) n 0 hw
    rw [writeBytes_getD, if_neg (by omega)]
  rw [walk_add, h1]
  show a + XCP_MESSAGE_HEADER_SIZE + (readHeader _ a).dlc = _
  rw [readHeader_dlc_writeBytes mem a m hin hdlc]

/-- A state with the same queue indices whose buffers have the same sizes and bytes. -/
theorem WireCore_congr (cfg : Config) (s s1 : State)
    (hrp : s1.dto_queue_rp = s.dto_queue_rp) (hlen : s1.dto_queue_len = s.dto_queue_len)
    (hptr : s1.dto_buffer_ptr = none → s.dto_buffer_ptr = none)
    (hx : ∀ j, (bufAt s1 j).xcp = (bufAt s j).xcp)
    (hz : ∀ j, (bufAt s1 j).xcp_size = (bufAt s j).xcp_size)
    (h : WireCore cfg s) : WireCore cfg s1 := by
  obtain ⟨h1, h2⟩ := h
  refine ⟨fun j hj => by rw [hx]; exact h1 j hj, ?_⟩
  intro k hk
  rw [hlen] at hk
  rw [hrp, hlen, hx, hz]
  obtain ⟨a1, a2, a3⟩ := h2 k hk
  exact ⟨a1, a2, fun hh => a3 (hh.imp id hptr)⟩

theorem getDtoBuffer_xcp (cfg : Config) (s : State) (j : Nat) :
    (bufAt (getDtoBuffer cfg s) j).xcp = (bufAt s j).xcp := by
  by_cases hfull : cfg.XCP_DAQ_QUEUE_SIZE ≤ s.dto_queue_len
  · rw [getDtoBuffer_full cfg s hfull]
    rfl
  · have hq : (getDtoBuffer cfg s).dto_queue = s.dto_queue.set (nextSlot cfg s)
        { bufAt s (nextSlot cfg s) with xcp_size := 0, xcp_uncommited := 0 } := by
      rw [getDtoBuffer_alloc cfg s (by omega)]; rfl
    rw [bufAt_of_queue s _ _ _ hq]
    split
    · rename_i h
      rw [← h.1]
    · rfl

/-- The bytes of the buffer a successful reservation wrote to: the header of the new
message stored at the old `xcp_size`, when the tail had room. -/
theorem getPacketBuffer_xcp_tail (cfg : Config) (s : State) (par : Option Nat) (size t : Nat)
    (hR : Ring cfg s) (hp : s.dto_buffer_ptr = some t)
    (hroom : u32 ((bufAt s t).xcp_size + size + XCP_MESSAGE_HEADER_SIZE) ≤ cfg.kXcpMaxMTU) :
    (bufAt (udpServerGetPacketBuffer cfg s par size).state t).xcp
      = writeBytes (bufAt s t).xcp (bufAt s t).xcp_size
          (headerBytes { ctr := s.gXcpTl.LastResCtr, dlc := u16 size }) := by
  obtain ⟨hl, hrp, _, _, htl⟩ := hR
  have hneedf : needDtoBuffer cfg s size = false := by
    unfold needDtoBuffer
    rw [hp]
    simpa using hroom
  have hs1 : s = if needDtoBuffer cfg s size then getDtoBuffer cfg s else s := by
    rw [hneedf]; rfl
  obtain ⟨hq', _⟩ := getPacketBuffer_some_spec cfg s s par size t hs1 hp
  have hin : t < s.dto_queue.length := by
    rw [htl t hp, hl]; exact slotAt_lt cfg _ _ hrp
  rw [bufAt_of_queue s _ _ _ hq', if_pos ⟨rfl, hin⟩]

/-- The bytes of the buffer a successful reservation wrote to, when it allocated a
new tail: the header of the new message stored at offset 0. -/
theorem getPacketBuffer_xcp_new (cfg : Config) (s : State) (par : Option Nat) (size : Nat)
    (hQ : cfg.XCP_DAQ_QUEUE_SIZE < 2147483648) (hR : Ring cfg s)
    (hneed : needDtoBuffer cfg s size = true)
    (hlt : s.dto_queue_len < cfg.XCP_DAQ_QUEUE_SIZE) :
    (bufAt (udpServerGetPacketBuffer cfg s par size).state
        (slotAt cfg s.dto_queue_rp s.dto_queue_len)).xcp
      = writeBytes (bufAt s (slotAt cfg s.dto_queue_rp s.dto_queue_len)).xcp 0
          (headerBytes { ctr := s.gXcpTl.LastResCtr, dlc := u16 size }) := by
  have hRc := hR
  obtain ⟨hl, hrp, _, _, _⟩ := hR
  obtain ⟨_, _, e3, e4, e5, _, _⟩ := getDtoBuffer_alloc_spec cfg s hQ hRc hlt
  have hs1 : getDtoBuffer cfg s
      = if needDtoBuffer cfg s size then getDtoBuffer cfg s else s := by
    rw [hneed, if_pos rfl]
  obtain ⟨hq', _⟩ := getPacketBuffer_some_spec cfg s _ par size _ hs1 e3
  have hin : slotAt cfg s.dto_queue_rp s.dto_queue_len < (getDtoBuffer cfg s).dto_queue.length := by
    rw [e4, hl]; exact slotAt_lt cfg _ _ hrp
  rw [bufAt_of_queue (getDtoBuffer cfg s) _ _ _ hq', if_pos ⟨rfl, hin⟩]
  show writeBytes _ _ _ = _
  rw [e5, getDtoBuffer_xcp, getDtoBuffer_gXcpTl]

/-- When a reservation of a size that fits an empty buffer needs another buffer, the
newest entry in use is not empty. -/
theorem needDtoBuffer_newest_nonempty (cfg : Config) (s : State) (size : Nat)
    (hR : Ring cfg s) (hW : WireCore cfg s)
    (hsz : size + XCP_MESSAGE_HEADER_SIZE ≤ cfg.kXcpMaxMTU)
    (hneed : needDtoBuffer cfg s size = true) :
    0 < (bufAt s (slotAt cfg s.dto_queue_rp (s.dto_queue_len - 1))).xcp_size := by
  obtain ⟨_, _, hl1, _, htl⟩ := hR
  cases hp : s.dto_buffer_ptr with
  | none => exact ((hW.2 (s.dto_queue_len - 1) (by omega)).2.2) (Or.inr hp)
  | some t =>
    unfold needDtoBuffer at hneed
    rw [hp] at hneed
    have h1 : u32 ((bufAt s t).xcp_size + size + XCP_MESSAGE_HEADER_SIZE) > cfg.kXcpMaxMTU := by
      simpa using hneed
    rw [← htl t hp]
    by_contra h0
    have h00 : (bufAt s t).xcp_size = 0 := by omega
    rw [h00] at h1
    unfold u32 at h1
    have := Nat.mod_le (0 + size + XCP_MESSAGE_HEADER_SIZE) 4294967296
    omega

/-- A reservation of a size that fits an empty buffer keeps the wire format. -/
theorem getPacketBuffer_WireCore (cfg : Config) (s : State) (par : Option Nat) (size : Nat)
    (hQ : cfg.XCP_DAQ_QUEUE_SIZE < 2147483648) (hmtu : cfg.kXcpMaxMTU < 65536)
    (hR : Ring cfg s) (hW : WireCore cfg s)
    (hsz : size + XCP_MESSAGE_HEADER_SIZE ≤ cfg.kXcpMaxMTU) :
    WireCore cfg (udpServerGetPacketBuffer cfg s par size).state := by
  have hRc := hR
  have hWc := hW
  obtain ⟨hl, hrp, hl1, hl2, htl⟩ := hR
  obtain ⟨h1, h2⟩ := hW
  have hdlc : u16 size = size := by
    unfold u16
    unfold XCP_MESSAGE_HEADER_SIZE at hsz
    omega
  rcases getPacketBuffer_cases cfg s par size hQ hRc with
    ⟨t, hp, hroom, _, e1, e2, e3, _, e5, _, e7⟩ |
    ⟨hneed, hlt, _, e1, e2, e3, _, e5, _, e7⟩ | ⟨hneed, hfull, _, _, e⟩
  · -- the message goes into the tail
    have ht := htl t hp
    have htQ : t < cfg.XCP_DAQ_QUEUE_SIZE := by rw [ht]; exact slotAt_lt cfg _ _ hrp
    obtain ⟨a1, ⟨n, a2⟩, _⟩ := h2 (s.dto_queue_len - 1) (by omega)
    rw [← ht] at a1 a2
    have hxcp := getPacketBuffer_xcp_tail cfg s par size t hRc hp hroom
    have hfit : (bufAt s t).xcp_size + size + XCP_MESSAGE_HEADER_SIZE ≤ cfg.kXcpMaxMTU := by
      unfold u32 at hroom
      unfold XCP_MESSAGE_HEADER_SIZE at hroom hsz ⊢
      omega
    have hnew : (bufAt (udpServerGetPacketBuffer cfg s par size).state t).xcp_size
        = (bufAt s t).xcp_size + XCP_MESSAGE_HEADER_SIZE + size := by
      rw [e5]
      unfold u16
      unfold XCP_MESSAGE_HEADER_SIZE at hfit ⊢
      omega
    have hw := walk_append_record (bufAt s t).xcp (bufAt s t).xcp_size n
      { ctr := s.gXcpTl.LastResCtr, dlc := u16 size } a2
      (by rw [h1 t htQ]; unfold XCP_MESSAGE_HEADER_SIZE at hfit ⊢; omega)
      (by show u16 size < 65536; rw [hdlc]; unfold XCP_MESSAGE_HEADER_SIZE at hsz; omega)
    have hw2 : walk (bufAt (udpServerGetPacketBuffer cfg s par size).state t).xcp (n + 1) 0
        = (bufAt (udpServerGetPacketBuffer cfg s par size).state t).xcp_size := by
      rw [hxcp, hnew, hw]
      show _ + _ + u16 size = _
      rw [hdlc]
    refine ⟨fun j hj => ?_, fun k hk => ?_⟩
    · by_cases hjt : j = t
      · rw [hjt, hxcp, writeBytes_length]
        exact h1 t htQ
      · rw [e7 j hjt]
        exact h1 j hj
    · rw [e2] at hk
      rw [e1, e2, e3]
      by_cases hkt : slotAt cfg s.dto_queue_rp k = t
      · rw [hkt]
        refine ⟨?_, ⟨n + 1, hw2⟩, fun _ => ?_⟩
        · rw [hnew]
          unfold XCP_MESSAGE_HEADER_SIZE at hfit ⊢
          omega
        · rw [hnew]
          unfold XCP_MESSAGE_HEADER_SIZE
          omega
      · rw [e7 _ hkt]
        obtain ⟨b1, b2, b3⟩ := h2 k hk
        refine ⟨b1, b2, fun hh => b3 (Or.inl ?_)⟩
        rcases hh with hh | hh
        · exact hh
        · simp at hh
  · -- the message goes into a new tail
    have htQ : slotAt cfg s.dto_queue_rp s.dto_queue_len < cfg.XCP_DAQ_QUEUE_SIZE :=
      slotAt_lt cfg _ _ hrp
    have hxcp := getPacketBuffer_xcp_new cfg s par size hQ hRc hneed hlt
    have hnew : (bufAt (udpServerGetPacketBuffer cfg s par size).state
        (slotAt cfg s.dto_queue_rp s.dto_queue_len)).xcp_size
        = 0 + XCP_MESSAGE_HEADER_SIZE + size := by
      rw [e5]
      unfold u16
      unfold XCP_MESSAGE_HEADER_SIZE at hsz ⊢
      omega
    have hw := walk_append_record (bufAt s (slotAt cfg s.dto_queue_rp s.dto_queue_len)).xcp 0 0
      { ctr := s.gXcpTl.LastResCtr, dlc := u16 size } rfl
      (by rw [h1 _ htQ]; unfold XCP_MESSAGE_HEADER_SIZE at hsz ⊢; omega)
      (by show u16 size < 65536; rw [hdlc]; unfold XCP_MESSAGE_HEADER_SIZE at hsz; omega)
    have hw2 : walk (bufAt (udpServerGetPacketBuffer cfg s par size).state
          (slotAt cfg s.dto_queue_rp s.dto_queue_len)).xcp (0 + 1) 0
        = (bufAt (udpServerGetPacketBuffer cfg s par size).state
          (slotAt cfg s.dto_queue_rp s.dto_queue_len)).xcp_size := by
      rw [hxcp, hnew, hw]
      show _ + _ + u16 size = _
      rw [hdlc]
    have hold := needDtoBuffer_newest_nonempty cfg s size hRc hWc hsz hneed
    refine ⟨fun j hj => ?_, fun k hk => ?_⟩
    · by_cases hjt : j = slotAt cfg s.dto_queue_rp s.dto_queue_len
      · rw [hjt, hxcp, writeBytes_length]
        exact h1 _ htQ
      · rw [e7 j hjt]
        exact h1 j hj
    · rw [e2] at hk
      rw [e1]
      by_cases hkl : k = s.dto_queue_len
      · rw [hkl]
        refine ⟨?_, ⟨0 + 1, hw2⟩, fun _ => ?_⟩
        · rw [hnew]
          unfold XCP_MESSAGE_HEADER_SIZE at hsz ⊢
          omega
        · rw [hnew]
          unfold XCP_MESSAGE_HEADER_SIZE
          omega
      · have hne : slotAt cfg s.dto_queue_rp k ≠ slotAt cfg s.dto_queue_rp s.dto_queue_len :=
          fun hh => hkl (slotAt_inj cfg _ _ _ hrp (by omega) hlt hh)
        rw [e7 _ hne]
        obtain ⟨b1, b2, b3⟩ := h2 k (by omega)
        refine ⟨b1, b2, fun _ => ?_⟩
        by_cases hkn : k + 1 < s.dto_queue_len
        · exact b3 (Or.inl hkn)
        · have e : k = s.dto_queue_len - 1 := by omega
          rw [e]
          exact hold
  · -- overflow
    have hold := needDtoBuffer_newest_nonempty cfg s size hRc hWc hsz hneed
    rw [e]
    refine ⟨fun j hj => h1 j hj, fun k hk => ?_⟩
    have hk' : k < s.dto_queue_len := hk
    obtain ⟨b1, b2, b3⟩ := h2 k hk'
    refine ⟨b1, b2, fun _ => ?_⟩
    show 0 < (bufAt s (slotAt cfg s.dto_queue_rp k)).xcp_size
    by_cases hkn : k + 1 < s.dto_queue_len
    · exact b3 (Or.inl hkn)
    · have e : k = s.dto_queue_len - 1 := by omega
      rw [e]
      exact hold

theorem commit_WireCore (cfg : Config) (s : State) (h : Option Nat) (hW : WireCore cfg s) :
    WireCore cfg (udpServerCommitPacketBuffer s h) := by
  cases h with
  | none => exact hW
  | some p =>
    obtain ⟨c1, c2, c3, _, c5⟩ := commit_spec s p
    refine WireCore_congr cfg s _ c1 c2 (fun hh => by rw [c3] at hh; exact hh) ?_ ?_ hW
    · intro j
      rw [c5]
      split
      · rename_i hh
        rw [← hh.1]
      · rfl
    · intro j
      rw [c5]
      split
      · rename_i hh
        rw [← hh.1]
      · rfl

theorem flushSeal_WireCore (cfg : Config) (s : State)
    (hQ : cfg.XCP_DAQ_QUEUE_SIZE < 2147483648) (hR : Ring cfg s) (hW : WireCore cfg s) :
    WireCore cfg (flushSeal cfg s) := by
  have hRc := hR
  obtain ⟨hl, hrp, hl1, hl2, htl⟩ := hR
  obtain ⟨h1, h2⟩ := hW
  rcases flushSeal_cases cfg s with hs | ⟨hs, t, hp, hpos⟩
  · rw [hs]; exact ⟨h1, h2⟩
  · rw [hs]
    have hold : 0 < (bufAt s (slotAt cfg s.dto_queue_rp (s.dto_queue_len - 1))).xcp_size := by
      rw [← htl t hp]; exact hpos
    by_cases hfull : cfg.XCP_DAQ_QUEUE_SIZE ≤ s.dto_queue_len
    · rw [getDtoBuffer_full cfg s hfull]
      refine ⟨fun j hj => h1 j hj, fun k hk => ?_⟩
      have hk' : k < s.dto_queue_len := hk
      obtain ⟨b1, b2, b3⟩ := h2 k hk'
      refine ⟨b1, b2, fun _ => ?_⟩
      show 0 < (bufAt s (slotAt cfg s.dto_queue_rp k)).xcp_size
      by_cases hkn : k + 1 < s.dto_queue_len
      · exact b3 (Or.inl hkn)
      · have e : k = s.dto_queue_len - 1 := by omega
        rw [e]
        exact hold
    · have hlt : s.dto_queue_len < cfg.XCP_DAQ_QUEUE_SIZE := by omega
      obtain ⟨e1, e2, e3, _, e5, _, e7⟩ := getDtoBuffer_alloc_spec cfg s hQ hRc hlt
      refine ⟨fun j hj => by rw [getDtoBuffer_xcp]; exact h1 j hj, fun k hk => ?_⟩
      rw [e2] at hk
      rw [e1]
      by_cases hkl : k = s.dto_queue_len
      · rw [hkl, e5]
        refine ⟨Nat.zero_le _, ⟨0, rfl⟩, fun hh => ?_⟩
        rw [e2, e3] at hh
        rcases hh with hh | hh
        · omega
        · simp at hh
      · have hne : slotAt cfg s.dto_queue_rp k ≠ slotAt cfg s.dto_queue_rp s.dto_queue_len :=
          fun hh => hkl (slotAt_inj cfg _ _ _ hrp (by omega) hlt hh)
        rw [e7 _ hne]
        obtain ⟨b1, b2, b3⟩ := h2 k (by omega)
        refine ⟨b1, b2, fun _ => ?_⟩
        by_cases hkn : k + 1 < s.dto_queue_len
        · exact b3 (Or.inl hkn)
        · have e : k = s.dto_queue_len - 1 := by omega
          rw [e]
          exact hold

theorem freeBuffer_WireCore (cfg : Config) (s : State)
    (hQ : cfg.XCP_DAQ_QUEUE_SIZE < 2147483648) (hR : Ring cfg s)
    (hlen : 1 < s.dto_queue_len) (hW : WireCore cfg s) :
    WireCore cfg (freeBuffer cfg s) := by
  obtain ⟨h1, h2⟩ := hW
  obtain ⟨_, e1, e2, e3⟩ := freeBuffer_ring cfg s hQ hR hlen
  have hbuf : ∀ j, bufAt (freeBuffer cfg s) j = bufAt s j :=
    fun j => bufAt_of_queue_eq s _ e3 j
  have hptr : (freeBuffer cfg s).dto_buffer_ptr = s.dto_buffer_ptr := rfl
  refine ⟨fun j hj => by rw [hbuf]; exact h1 j hj, fun k hk => ?_⟩
  rw [e2] at hk
  rw [hbuf, e1, e2, hptr, slotAt_slotAt]
  obtain ⟨b1, b2, b3⟩ := h2 (1 + k) (by omega)
  refine ⟨b1, b2, fun hh => b3 ?_⟩
  rcases hh with hh | hh
  · left; omega
  · right; exact hh

theorem step_WireInv (cfg : Config) (hQ : cfg.XCP_DAQ_QUEUE_SIZE < 2147483648)
    (hmtu : cfg.kXcpMaxMTU < 65536)
    (y y1 : Sys) (st : Step) (hok : st.sizeOk cfg) (h : step cfg y st = some y1)
    (hring : SysRing cfg y) (hinv : WireInv cfg y) : WireInv cfg y1 := by
  obtain ⟨hR, hpc⟩ := hring
  obtain ⟨hW, hsent⟩ := hinv
  cases st with
  | reserve size =>
    simp only [step, Option.some.injEq] at h
    subst h
    exact ⟨getPacketBuffer_WireCore cfg y.s none size hQ hmtu hR hW hok, hsent⟩
  | commit hd =>
    cases hd with
    | none =>
      simp only [step, Option.some.injEq] at h
      subst h
      exact ⟨hW, hsent⟩
    | some p =>
      simp only [step] at h
      split at h
      · simp at h
      · simp only [Option.some.injEq] at h
        subst h
        exact ⟨commit_WireCore cfg y.s (some p) hW, hsent⟩
  | enter =>
    simp only [step] at h
    split at h
    · simp only [Option.some.injEq] at h
      subst h
      exact ⟨hW, hsent⟩
    · simp at h
  | flush =>
    simp only [step] at h
    split at h
    · simp only [Option.some.injEq] at h
      subst h
      exact ⟨flushSeal_WireCore cfg y.s hQ hR hW, hsent⟩
    · simp at h
  | check =>
    simp only [step] at h
    split at h
    · split at h
      · simp only [Option.some.injEq] at h
        subst h
        exact ⟨hW, hsent⟩
      · simp only [Option.some.injEq] at h
        subst h
        exact ⟨hW, hsent⟩
    · simp at h
  | send =>
    simp only [step] at h
    split at h
    · rename_i b hb
      simp only [Option.some.injEq] at h
      subst h
      refine ⟨hW, fun d hd => ?_⟩
      have hd' : d ∈ y.sent ++ [sendBuffer y.s b] := hd
      rcases List.mem_append.1 hd' with hd1 | hd1
      · exact hsent d hd1
      · have hdb : d = sendBuffer y.s b := by simpa using hd1
        obtain ⟨hb1, hlen⟩ := hpc b (by rw [hb]; exact (holds_send b b).2 rfl)
        obtain ⟨a1, ⟨n, a2⟩, a3⟩ := hW.2 0 (by omega)
        rw [slotAt_zero cfg _ hR.2.1, ← hb1] at a1 a2 a3
        have hpos := a3 (Or.inl (by omega))
        have hxl := hW.1 b (by rw [hb1]; exact hR.2.1)
        rw [hdb]
        refine ⟨hpos, a1, ?_, n, ?_, ?_⟩
        · show ((bufAt y.s b).xcp.take (bufAt y.s b).xcp_size).length = (bufAt y.s b).xcp_size
          rw [List.length_take, hxl]
          omega
        · cases n with
          | zero =>
            have a2' : (0 : Nat) = (bufAt y.s b).xcp_size := a2
            omega
          | succ m => omega
        · show walk ((bufAt y.s b).xcp.take (bufAt y.s b).xcp_size) n 0 = (bufAt y.s b).xcp_size
          refine walk_congr (bufAt y.s b).xcp _ _ (fun k hk => ?_) n 0 a2
          rw [List.getD_eq_getElem?_getD, List.getD_eq_getElem?_getD, List.getElem?_take_of_lt hk]
    · simp at h
  | free =>
    simp only [step] at h
    split at h
    · rename_i b hb
      simp only [Option.some.injEq] at h
      subst h
      obtain ⟨_, hlen⟩ := hpc b (by rw [hb]; exact (holds_free b b).2 rfl)
      exact ⟨freeBuffer_WireCore cfg y.s hQ hR hlen hW, hsent⟩
    · simp at h

theorem initSys_WireInv (cfg : Config) (s0 : State) (hQ1 : 1 ≤ cfg.XCP_DAQ_QUEUE_SIZE) :
    WireInv cfg (initSys cfg s0) := by
  obtain ⟨h1, h2, h3, _, _⟩ := initDtoBufferQueue_spec cfg s0 hQ1
  refine ⟨⟨fun j hj => ?_, fun k hk => ?_⟩, fun d hd => ?_⟩
  · show (bufAt (initDtoBufferQueue cfg s0) j).xcp.length = cfg.kXcpMaxMTU
    rw [initDtoBufferQueue_bufAt cfg s0 hQ1 j hj]
    show (List.replicate cfg.kXcpMaxMTU 0).length = cfg.kXcpMaxMTU
    exact List.length_replicate _ _
  · have hk' : k < (initDtoBufferQueue cfg s0).dto_queue_len := hk
    show (bufAt (initDtoBufferQueue cfg s0)
        (slotAt cfg (initDtoBufferQueue cfg s0).dto_queue_rp k)).xcp_size ≤ cfg.kXcpMaxMTU ∧
      (∃ n, walk (bufAt (initDtoBufferQueue cfg s0)
          (slotAt cfg (initDtoBufferQueue cfg s0).dto_queue_rp k)).xcp n 0
        = (bufAt (initDtoBufferQueue cfg s0)
          (slotAt cfg (initDtoBufferQueue cfg s0).dto_queue_rp k)).xcp_size) ∧
      ((k + 1 < (initDtoBufferQueue cfg s0).dto_queue_len
          ∨ (initDtoBufferQueue cfg s0).dto_buffer_ptr = none) →
        0 < (bufAt (initDtoBufferQueue cfg s0)
          (slotAt cfg (initDtoBufferQueue cfg s0).dto_queue_rp k)).xcp_size)
    rw [initDtoBufferQueue_bufAt cfg s0 hQ1 _ (slotAt_lt cfg _ _ (by rw [h1]; omega))]
    rw [h2] at hk' ⊢
    rw [h3]
    refine ⟨Nat.zero_le _, ⟨0, rfl⟩, fun hh => ?_⟩
    rcases hh with hh | hh
    · omega
    · simp at hh
  · have hd' : d ∈ ([] : List Datagram) := hd
    simp at hd'

/-- C12: wire format of every DTO datagram.  In a run from `initDtoBufferQueue` in
which every reservation has `size + XCP_MESSAGE_HEADER_SIZE ≤ kXcpMaxMTU`, every
datagram handed to the socket by the loop of `udpServerHandleTransmitQueue` has
`0 < xcp_size ≤ kXcpMaxMTU`, consists of the first `xcp_size` bytes of the buffer, and
these are one or more records: starting at offset 0 and stepping by
`XCP_MESSAGE_HEADER_SIZE` plus the `dlc` field of the header found there, `n ≥ 1`
times, lands exactly on `xcp_size`. -/
theorem dto_datagram_wire_format (cfg : Config) (s0 : State) (steps : List Step) (y : Sys)
    (hcfg : cfg.Valid) (hsz : ∀ st ∈ steps, st.sizeOk cfg)
    (hrun : run cfg (initSys cfg s0) steps = some y) :
    ∀ d ∈ y.sent, 0 < d.size ∧ d.size ≤ cfg.kXcpMaxMTU ∧ d.data.length = d.size ∧
      ∃ n, 1 ≤ n ∧ walk d.data n 0 = d.size := by
  obtain ⟨hQ1, hQ, hmtu⟩ := hcfg
  have hboth : SysRing cfg y ∧ WireInv cfg y :=
    run_induction cfg (fun y => SysRing cfg y ∧ WireInv cfg y) (fun st => st.sizeOk cfg)
      (fun y st y1 hok h hinv =>
        ⟨step_SysRing cfg hQ y y1 st h hinv.1,
          step_WireInv cfg hQ hmtu y y1 st hok h hinv.1 hinv.2⟩)
      steps _ _ hsz hrun
      ⟨initSys_SysRing cfg s0 hQ1, initSys_WireInv cfg s0 hQ1⟩
  exact hboth.2.2

/-- C12, instance: the run `sampleSteps` on the small queue sends two datagrams of
twelve bytes, each one record of eight bytes of data. -/
theorem dto_datagram_wire_format_witness :
    run smallCfg (initSys smallCfg startState) sampleSteps
      = some (runD smallCfg (initSys smallCfg startState) sampleSteps) ∧
    (runD smallCfg (initSys smallCfg startState) sampleSteps).sent.map (fun d => d.size)
      = [12, 12] ∧
    ∀ d ∈ (runD smallCfg (initSys smallCfg startState) sampleSteps).sent,
      0 < d.size ∧ d.size ≤ smallCfg.kXcpMaxMTU ∧ d.data.length = d.size ∧
      ∃ n, 1 ≤ n ∧ walk d.data n 0 = d.size :=
  ⟨run_eq_some_runD _ _ _ (by decide), by decide,
    dto_datagram_wire_format smallCfg startState sampleSteps _
      ⟨by decide, by decide, by decide⟩ (by decide)
      (run_eq_some_runD _ _ _ (by decide))⟩

end XcpTl
